import Mathlib

/-!
Shallow embedding of the term-structure and spread engine of
`spreads_calculator.py` (functions `get_last_trade_dates`,
`calculate_days_to_expiry`, `create_monthly_futures_data`) together with the
configuration record of `spreads_config.py`.

Modelling conventions:
* calendar dates and day counts are integers (days on a time line), so
  `(L - date).days` is plain integer subtraction;
* prices are rationals (`ℚ`); the guarded divisions of the source never hit a
  zero denominator, so total field division is exact here;
* a pandas cell that may be missing is an `Option`;
* `DataFrame.loc[row, col] = v` writes are kept as a journal of labelled
  cells (most recent write first); a write at a row label absent from the
  index appends the label, exactly pandas' enlargement rule;
* the Python `for`-loops become structural recursions, and the function-local
  variable `pct_spread` is threaded through the state as an `Option ℚ`
  (`none` = not yet bound); reading it while unbound is the `NameError` the
  interpreter would raise, modelled as `Except.error`;
* Python's `sorted` is a stable sort, and a stable sort's output is uniquely
  determined by the key order and the input order, so it is modelled by
  `List.insertionSort` (stable, and reducible in the kernel).
-/

abbrev Contract := String

/-- A raw `last_trade_date` metadata field: a parsable date, a null-like
value (`pd.to_datetime` yields `NaT` without raising), or an unparsable one
(`pd.to_datetime` raises and the `except: continue` drops the contract). -/
inductive RawDate where
  | valid (d : Int)
  | nullLike
  | unparsable
deriving DecidableEq, Repr

/-- `get_last_trade_dates` (spreads_calculator.py lines 36-44): parse each
contract's `last_trade_date`; an unparsable entry is skipped, a null-like one
is kept as a `NaT` (here `none`). -/
def get_last_trade_dates (metadata : List (Contract × RawDate)) :
    List (Contract × Option Int) :=
  metadata.filterMap fun p =>
    match p.2 with
    | .valid d => some (p.1, some d)
    | .nullLike => some (p.1, none)
    | .unparsable => none

/-- `calculate_days_to_expiry` (lines 46-54): keep contracts with a
non-`NaT` last trade date `L ≥ date`, mapped to `(L - date).days`; the inner
`days >= 0` re-check of the source is kept verbatim. -/
def calculate_days_to_expiry (date : Int)
    (last_trade_dates : List (Contract × Option Int)) :
    List (Contract × Int) :=
  last_trade_dates.filterMap fun p =>
    match p.2 with
    | some L =>
        if date ≤ L then
          if 0 ≤ L - date then some (p.1, L - date) else none
        else none
    | none => none

/-- First-match association lookup, the access pattern used for the
`days_to_expiry` dict (whose keys are unique, coming from a Python dict). -/
def lookupD {β : Type} (l : List (Contract × β)) (c : Contract) : Option β :=
  (l.find? (fun p => p.1 = c)).map (·.2)

/-- `SpreadsConfig` (spreads_config.py lines 5-19) with its defaults.  The
path-derived properties are irrelevant to the engine and omitted. -/
structure SpreadsConfig where
  TRADING_DAYS_PER_YEAR : ℚ := 251
  MAX_MONTHS_FORWARD : Int := 13
  MIN_DAYS_TO_EXPIRY : Int := 0
  MIN_VOLUME : ℚ := 0
  BASE_PATH : String := "."
  CALCULATE_DOLLAR_SPREADS : Bool := true
  CALCULATE_PERCENT_SPREADS : Bool := true
  CALCULATE_ANNUAL_SPREADS : Bool := true
deriving DecidableEq, Repr

/-- The column labels the engine writes.  The source uses the f-strings
`month_{i}_future`, `month_{i}_price`, `month_{i}_days`, `spread_1_{i}m`,
`spread_1_{i}m_pct`, `spread_1_{i}m_pct_annual`; distinct ranks give distinct
strings, so the labels are embedded as this inductive keyed by the rank. -/
inductive ColKey where
  | month_future (i : Nat)
  | month_price (i : Nat)
  | month_days (i : Nat)
  | spread_dollar (i : Nat)
  | spread_pct (i : Nat)
  | spread_pct_annual (i : Nat)
deriving DecidableEq, Repr

/-- A DataFrame cell value: `monthly_futures` mixes contract-id strings and
numeric cells; the other tables are numeric. -/
inductive Cell where
  | str (s : Contract)
  | num (q : ℚ)
deriving DecidableEq, Repr

/-- A day-indexed output DataFrame: its row index, and the journal of all
`loc` writes, most recent first. -/
structure Table where
  index : List Int
  cells : List (Int × ColKey × Cell)
deriving DecidableEq, Repr

/-- `df.loc[d, k] = v`: record the cell; a row label not in the index is
appended (pandas enlargement), an existing label leaves the index as is. -/
def Table.locSet (t : Table) (d : Int) (k : ColKey) (v : Cell) : Table :=
  { index := if d ∈ t.index then t.index else t.index ++ [d]
    cells := (d, k, v) :: t.cells }

/-- Read a cell back: the most recent write at `(d, k)`, if any. -/
def Table.get (t : Table) (d : Int) (k : ColKey) : Option Cell :=
  (t.cells.find? (fun e => e.1 = d ∧ e.2.1 = k)).map (·.2.2)

/-- The input price table: day index, contract columns, and the optional
price in each cell (`none` = NaN). -/
structure PriceTable where
  index : List Int
  columns : List Contract
  cell : Int → Contract → Option ℚ

/-- The five result DataFrames of `create_monthly_futures_data`. -/
structure EngineOut where
  monthly_futures : Table
  spreads_dollar : Table
  spreads_percent : Table
  spreads_percent_annual : Table
  days_to_expiry_df : Table
deriving DecidableEq, Repr

/-- Loop state: the five tables under construction plus the function-local
Python variable `pct_spread` (`none` while still unbound). -/
structure EngineState where
  monthly_futures : Table
  spreads_dollar : Table
  spreads_percent : Table
  spreads_percent_annual : Table
  days_to_expiry_df : Table
  pct_spread : Option ℚ
deriving DecidableEq, Repr

def EngineState.toOut (s : EngineState) : EngineOut :=
  { monthly_futures := s.monthly_futures
    spreads_dollar := s.spreads_dollar
    spreads_percent := s.spreads_percent
    spreads_percent_annual := s.spreads_percent_annual
    days_to_expiry_df := s.days_to_expiry_df }

/-- The five empty result frames sharing the price table's index
(lines 67-71). -/
def initState (index : List Int) : EngineState :=
  { monthly_futures := { index := index, cells := [] }
    spreads_dollar := { index := index, cells := [] }
    spreads_percent := { index := index, cells := [] }
    spreads_percent_annual := { index := index, cells := [] }
    days_to_expiry_df := { index := index, cells := [] }
    pct_spread := none }

/-- The sort key `days_to_expiry.get(x, float('inf'))` (line 93): a missing
key sorts after every present one. -/
def keyLeB : Option Int → Option Int → Bool
  | _, none => true
  | none, some _ => false
  | some a, some b => a ≤ b

def keyLe (a b : Option Int) : Prop := keyLeB a b = true

instance keyLe.instDecidableRel : DecidableRel keyLe := fun a b =>
  inferInstanceAs (Decidable (_ = true))

instance keyLe.instIsTotal : IsTotal (Option Int) keyLe where
  total a b := by
    cases a <;> cases b <;> simp [keyLe, keyLeB] <;> omega

instance keyLe.instIsTrans : IsTrans (Option Int) keyLe where
  trans a b c := by
    cases a <;> cases b <;> cases c <;> simp [keyLe, keyLeB] <;> omega

/-- The comparison `sorted(valid_contracts, key=lambda x:
days_to_expiry.get(x, float('inf')))` induces on contracts. -/
def dteLe (days_to_expiry : List (Contract × Int)) (a b : Contract) : Prop :=
  keyLe (lookupD days_to_expiry a) (lookupD days_to_expiry b)

instance dteLe.instDecidableRel (dte : List (Contract × Int)) :
    DecidableRel (dteLe dte) := fun a b =>
  keyLe.instDecidableRel _ _

instance dteLe.instIsTotal (dte : List (Contract × Int)) :
    IsTotal Contract (dteLe dte) where
  total a b := keyLe.instIsTotal.total _ _

instance dteLe.instIsTrans (dte : List (Contract × Int)) :
    IsTrans Contract (dteLe dte) where
  trans a b c := keyLe.instIsTrans.trans _ _ _

/-- Lines 96-101: `for i, contract in enumerate(ordered_contracts, 1): if i >
config.MAX_MONTHS_FORWARD: break; ...` — the break makes this a loop over the
first `MAX_MONTHS_FORWARD` contracts, ranks attached by `enumerate(·, 1)`.
Per day it writes `month_{i}_future`, `month_{i}_price`, `month_{i}_days`.
The `getD 0` fallbacks are unreachable: every listed contract has a present
price cell and a `days_to_expiry` entry. -/
def ladderLoop (prices_df : PriceTable) (date : Int)
    (days_to_expiry : List (Contract × Int)) :
    List (Nat × Contract) → EngineState → EngineState
  | [], s => s
  | (i, contract) :: rest, s =>
      ladderLoop prices_df date days_to_expiry rest
        { s with
          monthly_futures :=
            (s.monthly_futures.locSet date (.month_future i)
              (.str contract)).locSet date (.month_price i)
              (.num ((prices_df.cell date contract).getD 0))
          days_to_expiry_df :=
            s.days_to_expiry_df.locSet date (.month_days i)
              (.num ((lookupD days_to_expiry contract).getD 0 : Int)) }

/-- Lines 117-118: the `CALCULATE_DOLLAR_SPREADS` block, writing
`spread_1_{i+1}m` with the dollar spread `v`. -/
def dollarUpd (config : SpreadsConfig) (date : Int) (i : Nat) (v : ℚ)
    (s : EngineState) : EngineState :=
  if config.CALCULATE_DOLLAR_SPREADS then
    { s with spreads_dollar := s.spreads_dollar.locSet date (.spread_dollar (i + 1)) (.num v) }
  else s

/-- Lines 121-123: the `CALCULATE_PERCENT_SPREADS` block, writing
`spread_1_{i+1}m_pct` with the percent spread `v` and binding the local
variable `pct_spread`. -/
def pctUpd (config : SpreadsConfig) (date : Int) (i : Nat) (v : ℚ)
    (s : EngineState) : EngineState :=
  if config.CALCULATE_PERCENT_SPREADS then
    { s with spreads_percent := s.spreads_percent.locSet date (.spread_pct (i + 1)) (.num v), pct_spread := some v }
  else s

/-- Lines 127-131: inside the `CALCULATE_ANNUAL_SPREADS` block, write
`spread_1_{i+1}m_pct_annual` when the day gap is positive; the write reads
`pct_spread`, a `NameError` if it was never assigned. -/
def annualStep (config : SpreadsConfig) (date : Int) (i : Nat)
    (days_difference : Int) (s : EngineState) : Except String EngineState :=
  if 0 < days_difference then
    match s.pct_spread with
    | some pct =>
        .ok { s with spreads_percent_annual := s.spreads_percent_annual.locSet date (.spread_pct_annual (i + 1)) (.num (pct * (config.TRADING_DAYS_PER_YEAR / (days_difference : ℚ)))) }
    | none => .error "NameError: pct_spread referenced before assignment"
  else .ok s

/-- Lines 111-131: one iteration of the far-month loop at index `i`.  Guard
as in the source: `m1_price != 0 and far_days and m1_days` (int truthiness =
non-zero); when it fails nothing is written. -/
def spreadStep (prices_df : PriceTable) (date : Int)
    (days_to_expiry : List (Contract × Int)) (config : SpreadsConfig)
    (ordered_contracts : List Contract) (m1_price : ℚ) (m1_days : Int)
    (i : Nat) (s : EngineState) : Except String EngineState :=
  let far_contract := ordered_contracts.getD i ""
  let far_price := (prices_df.cell date far_contract).getD 0
  let far_days := (lookupD days_to_expiry far_contract).getD 0
  if m1_price ≠ 0 ∧ far_days ≠ 0 ∧ m1_days ≠ 0 then
    if config.CALCULATE_ANNUAL_SPREADS then
      annualStep config date i (far_days - m1_days)
        (pctUpd config date i ((far_price - m1_price) / m1_price)
          (dollarUpd config date i (far_price - m1_price) s))
    else
      .ok (pctUpd config date i ((far_price - m1_price) / m1_price)
        (dollarUpd config date i (far_price - m1_price) s))
  else .ok s

/-- Lines 110-131: the far-month loop `for i in range(1,
min(len(ordered_contracts), config.MAX_MONTHS_FORWARD))`, run over the list
of those indexes `i`; an exception in an iteration propagates. -/
def spreadLoop (prices_df : PriceTable) (date : Int)
    (days_to_expiry : List (Contract × Int)) (config : SpreadsConfig)
    (ordered_contracts : List Contract) (m1_price : ℚ) (m1_days : Int) :
    List Nat → EngineState → Except String EngineState
  | [], s => .ok s
  | i :: rest, s =>
      match spreadStep prices_df date days_to_expiry config ordered_contracts
          m1_price m1_days i s with
      | .ok s1 =>
          spreadLoop prices_df date days_to_expiry config ordered_contracts
            m1_price m1_days rest s1
      | .error e => .error e

/-- The loop indexes `range(1, min(len(ordered_contracts),
config.MAX_MONTHS_FORWARD))` of line 110. -/
def spreadIdxs (len : Nat) (maxMonths : Int) : List Nat :=
  List.range' 1 ((min (len : Int) maxMonths - 1).toNat)

/-- Line 78-79: `valid_contracts`, the contracts with a present price cell
on `date`. -/
def validContracts (prices_df : PriceTable) (date : Int) : List Contract :=
  prices_df.columns.filter (fun c => (prices_df.cell date c).isSome)

/-- Line 86: `valid_contracts` after intersecting with the keys of
`days_to_expiry`. -/
def eligibleContracts (prices_df : PriceTable)
    (last_trade_dates : List (Contract × Option Int)) (date : Int) :
    List Contract :=
  (validContracts prices_df date).filter
    (fun c => (lookupD (calculate_days_to_expiry date last_trade_dates) c).isSome)

/-- Lines 92-93: `ordered_contracts`, the eligible contracts stably sorted
by days to expiry. -/
def orderedContracts (prices_df : PriceTable)
    (last_trade_dates : List (Contract × Option Int)) (date : Int) :
    List Contract :=
  List.insertionSort (dteLe (calculate_days_to_expiry date last_trade_dates))
    (eligibleContracts prices_df last_trade_dates date)

/-- Lines 76-131, the body of `for date in prices_df.index` for one `date`:
eligible-contract selection, stable ordering by days to expiry, ladder
writes, then the spread loop when at least two contracts are eligible. -/
def processDate (prices_df : PriceTable) (last_trade_dates : List (Contract × Option Int))
    (config : SpreadsConfig) (s : EngineState) (date : Int) :
    Except String EngineState :=
  if (validContracts prices_df date).isEmpty then .ok s
  else
    let days_to_expiry := calculate_days_to_expiry date last_trade_dates
    if (eligibleContracts prices_df last_trade_dates date).isEmpty then .ok s
    else
      let ordered_contracts := orderedContracts prices_df last_trade_dates date
      let s1 := ladderLoop prices_df date days_to_expiry
        ((ordered_contracts.take config.MAX_MONTHS_FORWARD.toNat).enumFrom 1) s
      if 2 ≤ ordered_contracts.length then
        let m1_contract := ordered_contracts.getD 0 ""
        let m1_price := (prices_df.cell date m1_contract).getD 0
        let m1_days := (lookupD days_to_expiry m1_contract).getD 0
        spreadLoop prices_df date days_to_expiry config ordered_contracts
          m1_price m1_days
          (spreadIdxs ordered_contracts.length config.MAX_MONTHS_FORWARD) s1
      else .ok s1

/-- The outer `for date in prices_df.index` loop (line 76); an exception in
the body propagates and aborts the run. -/
def dayLoop (prices_df : PriceTable) (last_trade_dates : List (Contract × Option Int))
    (config : SpreadsConfig) : List Int → EngineState → Except String EngineState
  | [], s => .ok s
  | d :: rest, s =>
      match processDate prices_df last_trade_dates config s d with
      | .ok s1 => dayLoop prices_df last_trade_dates config rest s1
      | .error e => .error e

/-- `create_monthly_futures_data` (lines 56-135): parse the expiry metadata,
initialize the five frames on the price table's index, run the per-day loop,
return the five frames.  Console prints are I/O and not modelled. -/
def create_monthly_futures_data (prices_df : PriceTable)
    (metadata : List (Contract × RawDate)) (config : SpreadsConfig) :
    Except String EngineOut :=
  let last_trade_dates := get_last_trade_dates metadata
  match dayLoop prices_df last_trade_dates config prices_df.index
      (initState prices_df.index) with
  | .ok s => .ok s.toOut
  | .error e => .error e

/-- `m1_contract` of lines 105: the near (rank-1) contract of `date`. -/
def m1Contract (prices_df : PriceTable) (ltd : List (Contract × Option Int))
    (date : Int) : Contract :=
  (orderedContracts prices_df ltd date).getD 0 ""

/-- `m1_price` of line 106. -/
def m1Price (prices_df : PriceTable) (ltd : List (Contract × Option Int))
    (date : Int) : ℚ :=
  (prices_df.cell date (m1Contract prices_df ltd date)).getD 0

/-- `m1_days` of line 107. -/
def m1Days (prices_df : PriceTable) (ltd : List (Contract × Option Int))
    (date : Int) : Int :=
  (lookupD (calculate_days_to_expiry date ltd) (m1Contract prices_df ltd date)).getD 0

/-- `far_contract = ordered_contracts[i]` of line 111. -/
def farContract (prices_df : PriceTable) (ltd : List (Contract × Option Int))
    (date : Int) (i : Nat) : Contract :=
  (orderedContracts prices_df ltd date).getD i ""

/-- `far_price` of line 112. -/
def farPrice (prices_df : PriceTable) (ltd : List (Contract × Option Int))
    (date : Int) (i : Nat) : ℚ :=
  (prices_df.cell date (farContract prices_df ltd date i)).getD 0

/-- `far_days` of line 113. -/
def farDays (prices_df : PriceTable) (ltd : List (Contract × Option Int))
    (date : Int) (i : Nat) : Int :=
  (lookupD (calculate_days_to_expiry date ltd) (farContract prices_df ltd date i)).getD 0

/-- The guard of line 115: `m1_price != 0 and far_days and m1_days`. -/
def spreadGuard (prices_df : PriceTable) (ltd : List (Contract × Option Int))
    (date : Int) (i : Nat) : Prop :=
  m1Price prices_df ltd date ≠ 0 ∧ farDays prices_df ltd date i ≠ 0 ∧
    m1Days prices_df ltd date ≠ 0

/-! ### Basic table lemmas -/

theorem Table.get_locSet_self (t : Table) (d : Int) (k : ColKey) (v : Cell) :
    (t.locSet d k v).get d k = some v := by
  simp [Table.locSet, Table.get]

theorem Table.get_locSet_ne (t : Table) {d d2 : Int} {k k2 : ColKey} (v : Cell)
    (h : ¬(d = d2 ∧ k = k2)) :
    (t.locSet d k v).get d2 k2 = t.get d2 k2 := by
  simp only [Table.locSet, Table.get, List.find?]
  rw [show (decide (d = d2 ∧ k = k2)) = false by simpa using h]

theorem Table.locSet_index_of_mem {t : Table} {d : Int} (k : ColKey) (v : Cell)
    (h : d ∈ t.index) : (t.locSet d k v).index = t.index := by
  simp [Table.locSet, h]

theorem Table.get_locSet_day (t : Table) {d d2 : Int} (hne : d2 ≠ d)
    (k k2 : ColKey) (v : Cell) : (t.locSet d k v).get d2 k2 = t.get d2 k2 :=
  t.get_locSet_ne v (fun hc => hne hc.1.symm)

theorem Table.get_locSet_key (t : Table) (d d2 : Int) {k k2 : ColKey}
    (hne : k ≠ k2) (v : Cell) : (t.locSet d k v).get d2 k2 = t.get d2 k2 :=
  t.get_locSet_ne v (fun hc => hne hc.2)

/-! ### Ladder-loop lemmas -/

theorem ladderLoop_untouched (prices_df : PriceTable) (date : Int)
    (dte : List (Contract × Int)) :
    ∀ (L : List (Nat × Contract)) (s : EngineState),
      (ladderLoop prices_df date dte L s).spreads_dollar = s.spreads_dollar ∧
      (ladderLoop prices_df date dte L s).spreads_percent = s.spreads_percent ∧
      (ladderLoop prices_df date dte L s).spreads_percent_annual =
        s.spreads_percent_annual ∧
      (ladderLoop prices_df date dte L s).pct_spread = s.pct_spread
  | [], _ => ⟨rfl, rfl, rfl, rfl⟩
  | (_, _) :: rest, _ => ladderLoop_untouched prices_df date dte rest _

theorem ladderLoop_get_other (prices_df : PriceTable) (date : Int)
    (dte : List (Contract × Int)) {d2 : Int} (k : ColKey) (hd : d2 ≠ date)
    (L : List (Nat × Contract)) : ∀ (s : EngineState),
      (ladderLoop prices_df date dte L s).monthly_futures.get d2 k =
        s.monthly_futures.get d2 k ∧
      (ladderLoop prices_df date dte L s).days_to_expiry_df.get d2 k =
        s.days_to_expiry_df.get d2 k := by
  induction L with
  | nil => intro s; exact ⟨rfl, rfl⟩
  | cons p rest ih =>
      intro s
      obtain ⟨i, c⟩ := p
      simp only [ladderLoop]
      refine ⟨(ih _).1.trans ?_, (ih _).2.trans ?_⟩
      · dsimp only
        rw [Table.get_locSet_day _ hd, Table.get_locSet_day _ hd]
      · dsimp only
        rw [Table.get_locSet_day _ hd]

theorem ladderLoop_index (prices_df : PriceTable) (date : Int)
    (dte : List (Contract × Int)) (L : List (Nat × Contract)) :
    ∀ (s : EngineState),
      date ∈ s.monthly_futures.index → date ∈ s.days_to_expiry_df.index →
      (ladderLoop prices_df date dte L s).monthly_futures.index =
        s.monthly_futures.index ∧
      (ladderLoop prices_df date dte L s).days_to_expiry_df.index =
        s.days_to_expiry_df.index := by
  induction L with
  | nil => intro s _ _; exact ⟨rfl, rfl⟩
  | cons p rest ih =>
      intro s hm hdd
      obtain ⟨i, c⟩ := p
      have h1 : ((s.monthly_futures.locSet date (.month_future i)
          (.str c)).locSet date (.month_price i)
          (.num ((prices_df.cell date c).getD 0))).index =
          s.monthly_futures.index := by
        rw [Table.locSet_index_of_mem _ _ (by rwa [Table.locSet_index_of_mem _ _ hm]),
          Table.locSet_index_of_mem _ _ hm]
      have h2 : (s.days_to_expiry_df.locSet date (.month_days i)
          (.num ((lookupD dte c).getD 0 : Int))).index =
          s.days_to_expiry_df.index := Table.locSet_index_of_mem _ _ hdd
      simp only [ladderLoop]
      have ihx := ih
        { s with
          monthly_futures :=
            (s.monthly_futures.locSet date (.month_future i)
              (.str c)).locSet date (.month_price i)
              (.num ((prices_df.cell date c).getD 0))
          days_to_expiry_df :=
            s.days_to_expiry_df.locSet date (.month_days i)
              (.num ((lookupD dte c).getD 0 : Int)) }
        (by simpa [h1] using hm) (by simpa [h2] using hdd)
      exact ⟨ihx.1.trans h1, ihx.2.trans h2⟩

/-- What the ladder loop leaves at day `date` for each rank key: ranks are
attached by `enumerate(·, n)`, so key `i` holds the data of contract
`l[i - n]` when `n ≤ i < n + len l`, and is untouched otherwise. -/
theorem ladderLoop_get_day (prices_df : PriceTable) (date : Int)
    (dte : List (Contract × Int)) (l : List Contract) :
    ∀ (n : Nat) (s : EngineState) (i : Nat),
      ((ladderLoop prices_df date dte (l.enumFrom n) s).monthly_futures.get
          date (.month_future i) =
        if n ≤ i ∧ i - n < l.length then some (.str (l.getD (i - n) ""))
        else s.monthly_futures.get date (.month_future i)) ∧
      ((ladderLoop prices_df date dte (l.enumFrom n) s).monthly_futures.get
          date (.month_price i) =
        if n ≤ i ∧ i - n < l.length then
          some (.num ((prices_df.cell date (l.getD (i - n) "")).getD 0))
        else s.monthly_futures.get date (.month_price i)) ∧
      ((ladderLoop prices_df date dte (l.enumFrom n) s).days_to_expiry_df.get
          date (.month_days i) =
        if n ≤ i ∧ i - n < l.length then
          some (.num ((lookupD dte (l.getD (i - n) "")).getD 0 : Int))
        else s.days_to_expiry_df.get date (.month_days i)) := by
  induction l with
  | nil =>
      intro n s i
      simp [List.enumFrom, ladderLoop]
  | cons c l ih =>
      intro n s i
      rw [List.enumFrom_cons]
      simp only [ladderLoop]
      by_cases hni : i = n
      · subst hni
        have hcond : i ≤ i ∧ i - i < (c :: l).length := by
          constructor
          · exact Nat.le_refl i
          · simp
        have hcond2 : ¬(i + 1 ≤ i ∧ i - (i + 1) < l.length) := by omega
        refine ⟨?_, ?_, ?_⟩
        · rw [(ih (i + 1) _ i).1, if_neg hcond2, if_pos hcond]
          dsimp only
          simp [Table.get_locSet_ne, Table.get_locSet_self]
        · rw [(ih (i + 1) _ i).2.1, if_neg hcond2, if_pos hcond]
          dsimp only
          simp [Table.get_locSet_self]
        · rw [(ih (i + 1) _ i).2.2, if_neg hcond2, if_pos hcond]
          dsimp only
          simp [Table.get_locSet_self]
      · by_cases hc : n ≤ i ∧ i - n < (c :: l).length
        · have hgt : n + 1 ≤ i := by omega
          have hcond2 : n + 1 ≤ i ∧ i - (n + 1) < l.length := by
            refine ⟨hgt, ?_⟩
            have := hc.2
            simp only [List.length_cons] at this
            omega
          obtain ⟨m, hm⟩ : ∃ m, i - n = m + 1 := ⟨i - n - 1, by omega⟩
          have hm2 : i - (n + 1) = m := by omega
          refine ⟨?_, ?_, ?_⟩
          · rw [(ih (n + 1) _ i).1, if_pos hcond2, if_pos hc, hm, hm2,
              List.getD_cons_succ]
          · rw [(ih (n + 1) _ i).2.1, if_pos hcond2, if_pos hc, hm, hm2,
              List.getD_cons_succ]
          · rw [(ih (n + 1) _ i).2.2, if_pos hcond2, if_pos hc, hm, hm2,
              List.getD_cons_succ]
        · have hcond2 : ¬(n + 1 ≤ i ∧ i - (n + 1) < l.length) := by
            simp only [List.length_cons] at hc
            omega
          have hni2 : ¬n = i := fun h => hni h.symm
          refine ⟨?_, ?_, ?_⟩
          · rw [(ih (n + 1) _ i).1, if_neg hcond2, if_neg hc]
            dsimp only
            simp [Table.get_locSet_ne, hni2]
          · rw [(ih (n + 1) _ i).2.1, if_neg hcond2, if_neg hc]
            dsimp only
            simp [Table.get_locSet_ne, hni2]
          · rw [(ih (n + 1) _ i).2.2, if_neg hcond2, if_neg hc]
            dsimp only
            simp [Table.get_locSet_ne, hni2]

/-! ### Spread-block lemmas -/

theorem dollarUpd_untouched (config : SpreadsConfig) (date : Int) (i : Nat)
    (v : ℚ) (s : EngineState) :
    (dollarUpd config date i v s).monthly_futures = s.monthly_futures ∧
    (dollarUpd config date i v s).spreads_percent = s.spreads_percent ∧
    (dollarUpd config date i v s).spreads_percent_annual =
      s.spreads_percent_annual ∧
    (dollarUpd config date i v s).days_to_expiry_df = s.days_to_expiry_df ∧
    (dollarUpd config date i v s).pct_spread = s.pct_spread := by
  unfold dollarUpd
  split <;> simp

theorem dollarUpd_get_hit (config : SpreadsConfig) (date : Int) (i : Nat)
    (v : ℚ) (s : EngineState) :
    (dollarUpd config date i v s).spreads_dollar.get date (.spread_dollar (i + 1)) =
      if config.CALCULATE_DOLLAR_SPREADS = true then some (.num v)
      else s.spreads_dollar.get date (.spread_dollar (i + 1)) := by
  unfold dollarUpd
  split <;> simp_all [Table.get_locSet_self]

theorem dollarUpd_get_miss (config : SpreadsConfig) (date : Int) (i : Nat)
    (v : ℚ) (s : EngineState) {d2 : Int} {k : ColKey}
    (h : ¬(d2 = date ∧ k = ColKey.spread_dollar (i + 1))) :
    (dollarUpd config date i v s).spreads_dollar.get d2 k =
      s.spreads_dollar.get d2 k := by
  unfold dollarUpd
  split
  · exact Table.get_locSet_ne _ _ (fun hc => h ⟨hc.1.symm, hc.2.symm⟩)
  · rfl

theorem dollarUpd_index (config : SpreadsConfig) (date : Int) (i : Nat)
    (v : ℚ) (s : EngineState) (h : date ∈ s.spreads_dollar.index) :
    (dollarUpd config date i v s).spreads_dollar.index = s.spreads_dollar.index := by
  unfold dollarUpd
  split
  · exact Table.locSet_index_of_mem _ _ h
  · rfl

theorem pctUpd_untouched (config : SpreadsConfig) (date : Int) (i : Nat)
    (v : ℚ) (s : EngineState) :
    (pctUpd config date i v s).monthly_futures = s.monthly_futures ∧
    (pctUpd config date i v s).spreads_dollar = s.spreads_dollar ∧
    (pctUpd config date i v s).spreads_percent_annual =
      s.spreads_percent_annual ∧
    (pctUpd config date i v s).days_to_expiry_df = s.days_to_expiry_df := by
  unfold pctUpd
  split <;> simp

theorem pctUpd_get_hit (config : SpreadsConfig) (date : Int) (i : Nat)
    (v : ℚ) (s : EngineState) :
    (pctUpd config date i v s).spreads_percent.get date (.spread_pct (i + 1)) =
      if config.CALCULATE_PERCENT_SPREADS = true then some (.num v)
      else s.spreads_percent.get date (.spread_pct (i + 1)) := by
  unfold pctUpd
  split <;> simp_all [Table.get_locSet_self]

theorem pctUpd_get_miss (config : SpreadsConfig) (date : Int) (i : Nat)
    (v : ℚ) (s : EngineState) {d2 : Int} {k : ColKey}
    (h : ¬(d2 = date ∧ k = ColKey.spread_pct (i + 1))) :
    (pctUpd config date i v s).spreads_percent.get d2 k =
      s.spreads_percent.get d2 k := by
  unfold pctUpd
  split
  · exact Table.get_locSet_ne _ _ (fun hc => h ⟨hc.1.symm, hc.2.symm⟩)
  · rfl

theorem pctUpd_index (config : SpreadsConfig) (date : Int) (i : Nat)
    (v : ℚ) (s : EngineState) (h : date ∈ s.spreads_percent.index) :
    (pctUpd config date i v s).spreads_percent.index = s.spreads_percent.index := by
  unfold pctUpd
  split
  · exact Table.locSet_index_of_mem _ _ h
  · rfl

theorem pctUpd_pct_spread (config : SpreadsConfig) (date : Int) (i : Nat)
    (v : ℚ) (s : EngineState) :
    (pctUpd config date i v s).pct_spread =
      if config.CALCULATE_PERCENT_SPREADS = true then some v
      else s.pct_spread := by
  unfold pctUpd
  split <;> simp_all

theorem annualStep_nonpos (config : SpreadsConfig) (date : Int) (i : Nat)
    {days_difference : Int} (h : ¬0 < days_difference) (s : EngineState) :
    annualStep config date i days_difference s = .ok s := by
  unfold annualStep
  rw [if_neg h]

theorem annualStep_pos_some (config : SpreadsConfig) (date : Int) (i : Nat)
    {days_difference : Int} (h : 0 < days_difference) {s : EngineState}
    {p : ℚ} (hp : s.pct_spread = some p) :
    annualStep config date i days_difference s =
      .ok { s with spreads_percent_annual := s.spreads_percent_annual.locSet date (.spread_pct_annual (i + 1)) (.num (p * (config.TRADING_DAYS_PER_YEAR / (days_difference : ℚ)))) } := by
  unfold annualStep
  rw [if_pos h, hp]

theorem annualStep_pos_none (config : SpreadsConfig) (date : Int) (i : Nat)
    {days_difference : Int} (h : 0 < days_difference) {s : EngineState}
    (hp : s.pct_spread = none) :
    annualStep config date i days_difference s =
      .error "NameError: pct_spread referenced before assignment" := by
  unfold annualStep
  rw [if_pos h, hp]

theorem annualStep_ok_untouched (config : SpreadsConfig) (date : Int) (i : Nat)
    (days_difference : Int) {s t : EngineState}
    (h : annualStep config date i days_difference s = .ok t) :
    t.monthly_futures = s.monthly_futures ∧
    t.spreads_dollar = s.spreads_dollar ∧
    t.spreads_percent = s.spreads_percent ∧
    t.days_to_expiry_df = s.days_to_expiry_df ∧
    t.pct_spread = s.pct_spread := by
  unfold annualStep at h
  split at h
  · cases hp : s.pct_spread with
    | some p =>
        rw [hp] at h
        injection h with h
        subst h
        simp
    | none => rw [hp] at h; cases h
  · injection h with h
    subst h
    exact ⟨rfl, rfl, rfl, rfl, rfl⟩

theorem annualStep_ok_get_miss (config : SpreadsConfig) (date : Int) (i : Nat)
    (days_difference : Int) {s t : EngineState}
    (h : annualStep config date i days_difference s = .ok t) {d2 : Int}
    {k : ColKey} (hk : ¬(d2 = date ∧ k = ColKey.spread_pct_annual (i + 1))) :
    t.spreads_percent_annual.get d2 k = s.spreads_percent_annual.get d2 k := by
  unfold annualStep at h
  split at h
  · cases hp : s.pct_spread with
    | some p =>
        rw [hp] at h
        injection h with h
        subst h
        exact Table.get_locSet_ne _ _ (fun hc => hk ⟨hc.1.symm, hc.2.symm⟩)
    | none => rw [hp] at h; cases h
  · injection h with h
    subst h
    rfl

theorem annualStep_ok_index (config : SpreadsConfig) (date : Int) (i : Nat)
    (days_difference : Int) {s t : EngineState}
    (h : annualStep config date i days_difference s = .ok t)
    (hm : date ∈ s.spreads_percent_annual.index) :
    t.spreads_percent_annual.index = s.spreads_percent_annual.index := by
  unfold annualStep at h
  split at h
  · cases hp : s.pct_spread with
    | some p =>
        rw [hp] at h
        injection h with h
        subst h
        exact Table.locSet_index_of_mem _ _ hm
    | none => rw [hp] at h; cases h
  · injection h with h
    subst h
    rfl

/-- The guard of line 115 in terms of the loop's own parameters. -/
def stepGuard (days_to_expiry : List (Contract × Int))
    (ordered_contracts : List Contract) (m1_price : ℚ) (m1_days : Int)
    (i : Nat) : Prop :=
  m1_price ≠ 0 ∧
    (lookupD days_to_expiry (ordered_contracts.getD i "")).getD 0 ≠ 0 ∧
    m1_days ≠ 0

instance stepGuard.instDecidable (dte : List (Contract × Int))
    (oc : List Contract) (m1_price : ℚ) (m1_days : Int) (i : Nat) :
    Decidable (stepGuard dte oc m1_price m1_days i) :=
  inferInstanceAs (Decidable (_ ∧ _))

/-- `far_price` in terms of the loop's own parameters. -/
def farPq (prices_df : PriceTable) (date : Int) (ordered_contracts : List Contract)
    (i : Nat) : ℚ :=
  (prices_df.cell date (ordered_contracts.getD i "")).getD 0

/-- `far_days` in terms of the loop's own parameters. -/
def farDz (days_to_expiry : List (Contract × Int))
    (ordered_contracts : List Contract) (i : Nat) : Int :=
  (lookupD days_to_expiry (ordered_contracts.getD i "")).getD 0

theorem spreadStep_ok_untouched {prices_df : PriceTable} {date : Int}
    {days_to_expiry : List (Contract × Int)} {config : SpreadsConfig}
    {ordered_contracts : List Contract} {m1_price : ℚ} {m1_days : Int}
    {i : Nat} {s t : EngineState}
    (h : spreadStep prices_df date days_to_expiry config ordered_contracts
      m1_price m1_days i s = .ok t) :
    t.monthly_futures = s.monthly_futures ∧
    t.days_to_expiry_df = s.days_to_expiry_df := by
  simp only [spreadStep] at h
  split at h
  · split at h
    · have h1 := annualStep_ok_untouched _ _ _ _ h
      have h2 := pctUpd_untouched config date i
        (((prices_df.cell date (ordered_contracts.getD i "")).getD 0 - m1_price) / m1_price)
        (dollarUpd config date i ((prices_df.cell date (ordered_contracts.getD i "")).getD 0 - m1_price) s)
      have h3 := dollarUpd_untouched config date i
        ((prices_df.cell date (ordered_contracts.getD i "")).getD 0 - m1_price) s
      exact ⟨h1.1.trans (h2.1.trans h3.1),
        h1.2.2.2.1.trans (h2.2.2.2.trans h3.2.2.2.1)⟩
    · injection h with h
      subst h
      have h2 := pctUpd_untouched config date i
        (((prices_df.cell date (ordered_contracts.getD i "")).getD 0 - m1_price) / m1_price)
        (dollarUpd config date i ((prices_df.cell date (ordered_contracts.getD i "")).getD 0 - m1_price) s)
      have h3 := dollarUpd_untouched config date i
        ((prices_df.cell date (ordered_contracts.getD i "")).getD 0 - m1_price) s
      exact ⟨h2.1.trans h3.1, h2.2.2.2.trans h3.2.2.2.1⟩
  · injection h with h
    subst h
    exact ⟨rfl, rfl⟩

/-- Closed-form case analysis of one successful far-month iteration: either
the guard failed and nothing changed, or the dollar/percent blocks ran and no
annual write happened (flag off or non-positive day gap), or additionally the
annual value `pct_spread * (TRADING_DAYS_PER_YEAR / days_difference)` was
written from the currently bound `pct_spread`. -/
theorem spreadStep_ok_shape {prices_df : PriceTable} {date : Int}
    {days_to_expiry : List (Contract × Int)} {config : SpreadsConfig}
    {ordered_contracts : List Contract} {m1_price : ℚ} {m1_days : Int}
    {i : Nat} {s t : EngineState}
    (h : spreadStep prices_df date days_to_expiry config ordered_contracts
      m1_price m1_days i s = .ok t) :
    (¬(m1_price ≠ 0 ∧ (lookupD days_to_expiry (ordered_contracts.getD i "")).getD 0 ≠ 0 ∧ m1_days ≠ 0) ∧ t = s) ∨
    ((m1_price ≠ 0 ∧ (lookupD days_to_expiry (ordered_contracts.getD i "")).getD 0 ≠ 0 ∧ m1_days ≠ 0) ∧
      (config.CALCULATE_ANNUAL_SPREADS = false ∨
        ¬0 < (lookupD days_to_expiry (ordered_contracts.getD i "")).getD 0 - m1_days) ∧
      t = pctUpd config date i (((prices_df.cell date (ordered_contracts.getD i "")).getD 0 - m1_price) / m1_price) (dollarUpd config date i ((prices_df.cell date (ordered_contracts.getD i "")).getD 0 - m1_price) s)) ∨
    ((m1_price ≠ 0 ∧ (lookupD days_to_expiry (ordered_contracts.getD i "")).getD 0 ≠ 0 ∧ m1_days ≠ 0) ∧
      config.CALCULATE_ANNUAL_SPREADS = true ∧
      0 < (lookupD days_to_expiry (ordered_contracts.getD i "")).getD 0 - m1_days ∧
      ∃ p, (pctUpd config date i (((prices_df.cell date (ordered_contracts.getD i "")).getD 0 - m1_price) / m1_price) (dollarUpd config date i ((prices_df.cell date (ordered_contracts.getD i "")).getD 0 - m1_price) s)).pct_spread = some p ∧
        t = { pctUpd config date i (((prices_df.cell date (ordered_contracts.getD i "")).getD 0 - m1_price) / m1_price) (dollarUpd config date i ((prices_df.cell date (ordered_contracts.getD i "")).getD 0 - m1_price) s) with
          spreads_percent_annual := (pctUpd config date i (((prices_df.cell date (ordered_contracts.getD i "")).getD 0 - m1_price) / m1_price) (dollarUpd config date i ((prices_df.cell date (ordered_contracts.getD i "")).getD 0 - m1_price) s)).spreads_percent_annual.locSet date (.spread_pct_annual (i + 1)) (.num (p * (config.TRADING_DAYS_PER_YEAR / (((lookupD days_to_expiry (ordered_contracts.getD i "")).getD 0 - m1_days : Int) : ℚ)))) }) := by
  simp only [spreadStep] at h
  by_cases hg : m1_price ≠ 0 ∧ (lookupD days_to_expiry (ordered_contracts.getD i "")).getD 0 ≠ 0 ∧ m1_days ≠ 0
  · rw [if_pos hg] at h
    by_cases ha : config.CALCULATE_ANNUAL_SPREADS = true
    · rw [if_pos ha] at h
      by_cases hgap : 0 < (lookupD days_to_expiry (ordered_contracts.getD i "")).getD 0 - m1_days
      · cases hp : (pctUpd config date i (((prices_df.cell date (ordered_contracts.getD i "")).getD 0 - m1_price) / m1_price) (dollarUpd config date i ((prices_df.cell date (ordered_contracts.getD i "")).getD 0 - m1_price) s)).pct_spread with
        | none =>
            rw [annualStep_pos_none config date i hgap hp] at h
            cases h
        | some p =>
            rw [annualStep_pos_some config date i hgap hp] at h
            injection h with h
            exact Or.inr (Or.inr ⟨hg, ha, hgap, p, rfl, h.symm⟩)
      · rw [annualStep_nonpos config date i hgap] at h
        injection h with h
        exact Or.inr (Or.inl ⟨hg, Or.inr hgap, h.symm⟩)
    · rw [if_neg ha] at h
      injection h with h
      exact Or.inr (Or.inl ⟨hg, Or.inl (by simpa using ha), h.symm⟩)
  · rw [if_neg hg] at h
    injection h with h
    exact Or.inl ⟨hg, h.symm⟩

theorem dollarUpd_monthly (c : SpreadsConfig) (d : Int) (i : Nat) (v : ℚ)
    (s : EngineState) : (dollarUpd c d i v s).monthly_futures = s.monthly_futures :=
  (dollarUpd_untouched c d i v s).1

theorem dollarUpd_percent (c : SpreadsConfig) (d : Int) (i : Nat) (v : ℚ)
    (s : EngineState) : (dollarUpd c d i v s).spreads_percent = s.spreads_percent :=
  (dollarUpd_untouched c d i v s).2.1

theorem dollarUpd_annual (c : SpreadsConfig) (d : Int) (i : Nat) (v : ℚ)
    (s : EngineState) :
    (dollarUpd c d i v s).spreads_percent_annual = s.spreads_percent_annual :=
  (dollarUpd_untouched c d i v s).2.2.1

theorem dollarUpd_days (c : SpreadsConfig) (d : Int) (i : Nat) (v : ℚ)
    (s : EngineState) : (dollarUpd c d i v s).days_to_expiry_df = s.days_to_expiry_df :=
  (dollarUpd_untouched c d i v s).2.2.2.1

theorem dollarUpd_pct (c : SpreadsConfig) (d : Int) (i : Nat) (v : ℚ)
    (s : EngineState) : (dollarUpd c d i v s).pct_spread = s.pct_spread :=
  (dollarUpd_untouched c d i v s).2.2.2.2

theorem pctUpd_monthly (c : SpreadsConfig) (d : Int) (i : Nat) (v : ℚ)
    (s : EngineState) : (pctUpd c d i v s).monthly_futures = s.monthly_futures :=
  (pctUpd_untouched c d i v s).1

theorem pctUpd_dollar (c : SpreadsConfig) (d : Int) (i : Nat) (v : ℚ)
    (s : EngineState) : (pctUpd c d i v s).spreads_dollar = s.spreads_dollar :=
  (pctUpd_untouched c d i v s).2.1

theorem pctUpd_annual (c : SpreadsConfig) (d : Int) (i : Nat) (v : ℚ)
    (s : EngineState) :
    (pctUpd c d i v s).spreads_percent_annual = s.spreads_percent_annual :=
  (pctUpd_untouched c d i v s).2.2.1

theorem pctUpd_days (c : SpreadsConfig) (d : Int) (i : Nat) (v : ℚ)
    (s : EngineState) : (pctUpd c d i v s).days_to_expiry_df = s.days_to_expiry_df :=
  (pctUpd_untouched c d i v s).2.2.2

theorem spreadStep_ok_other_day {prices_df : PriceTable} {date : Int}
    {days_to_expiry : List (Contract × Int)} {config : SpreadsConfig}
    {ordered_contracts : List Contract} {m1_price : ℚ} {m1_days : Int}
    {i : Nat} {s t : EngineState}
    (h : spreadStep prices_df date days_to_expiry config ordered_contracts
      m1_price m1_days i s = .ok t) {d2 : Int} (hd : d2 ≠ date) (k : ColKey) :
    t.spreads_dollar.get d2 k = s.spreads_dollar.get d2 k ∧
    t.spreads_percent.get d2 k = s.spreads_percent.get d2 k ∧
    t.spreads_percent_annual.get d2 k = s.spreads_percent_annual.get d2 k := by
  rcases spreadStep_ok_shape h with ⟨hg, rfl⟩ | ⟨hg, hcase, rfl⟩ |
    ⟨hg, ha, hgap, p, hp, rfl⟩
  · exact ⟨rfl, rfl, rfl⟩
  · refine ⟨?_, ?_, ?_⟩
    · rw [pctUpd_dollar, dollarUpd_get_miss _ _ _ _ _ (fun hc => hd hc.1)]
    · rw [pctUpd_get_miss _ _ _ _ _ (fun hc => hd hc.1), dollarUpd_percent]
    · rw [pctUpd_annual, dollarUpd_annual]
  · refine ⟨?_, ?_, ?_⟩
    · dsimp only
      rw [pctUpd_dollar, dollarUpd_get_miss _ _ _ _ _ (fun hc => hd hc.1)]
    · dsimp only
      rw [pctUpd_get_miss _ _ _ _ _ (fun hc => hd hc.1), dollarUpd_percent]
    · dsimp only
      rw [Table.get_locSet_day _ hd, pctUpd_annual, dollarUpd_annual]

theorem spreadStep_ok_dollar_hit {prices_df : PriceTable} {date : Int}
    {days_to_expiry : List (Contract × Int)} {config : SpreadsConfig}
    {ordered_contracts : List Contract} {m1_price : ℚ} {m1_days : Int}
    {i : Nat} {s t : EngineState}
    (h : spreadStep prices_df date days_to_expiry config ordered_contracts
      m1_price m1_days i s = .ok t) :
    t.spreads_dollar.get date (.spread_dollar (i + 1)) =
      if (m1_price ≠ 0 ∧ (lookupD days_to_expiry (ordered_contracts.getD i "")).getD 0 ≠ 0 ∧ m1_days ≠ 0) ∧ config.CALCULATE_DOLLAR_SPREADS = true then
        some (.num ((prices_df.cell date (ordered_contracts.getD i "")).getD 0 - m1_price))
      else s.spreads_dollar.get date (.spread_dollar (i + 1)) := by
  rcases spreadStep_ok_shape h with ⟨hg, rfl⟩ | ⟨hg, hcase, rfl⟩ |
    ⟨hg, ha, hgap, p, hp, rfl⟩
  · rw [if_neg (fun hc => hg hc.1)]
  · rw [pctUpd_dollar, dollarUpd_get_hit]
    by_cases hd : config.CALCULATE_DOLLAR_SPREADS = true
    · rw [if_pos hd, if_pos ⟨hg, hd⟩]
    · rw [if_neg hd, if_neg (fun hc => hd hc.2)]
  · dsimp only
    rw [pctUpd_dollar, dollarUpd_get_hit]
    by_cases hd : config.CALCULATE_DOLLAR_SPREADS = true
    · rw [if_pos hd, if_pos ⟨hg, hd⟩]
    · rw [if_neg hd, if_neg (fun hc => hd hc.2)]

theorem spreadStep_ok_dollar_miss {prices_df : PriceTable} {date : Int}
    {days_to_expiry : List (Contract × Int)} {config : SpreadsConfig}
    {ordered_contracts : List Contract} {m1_price : ℚ} {m1_days : Int}
    {i : Nat} {s t : EngineState}
    (h : spreadStep prices_df date days_to_expiry config ordered_contracts
      m1_price m1_days i s = .ok t) {k : ColKey}
    (hk : k ≠ ColKey.spread_dollar (i + 1)) :
    t.spreads_dollar.get date k = s.spreads_dollar.get date k := by
  rcases spreadStep_ok_shape h with ⟨hg, rfl⟩ | ⟨hg, hcase, rfl⟩ |
    ⟨hg, ha, hgap, p, hp, rfl⟩
  · rfl
  · rw [pctUpd_dollar, dollarUpd_get_miss _ _ _ _ _ (fun hc => hk hc.2)]
  · dsimp only
    rw [pctUpd_dollar, dollarUpd_get_miss _ _ _ _ _ (fun hc => hk hc.2)]

theorem spreadStep_ok_pct_hit {prices_df : PriceTable} {date : Int}
    {days_to_expiry : List (Contract × Int)} {config : SpreadsConfig}
    {ordered_contracts : List Contract} {m1_price : ℚ} {m1_days : Int}
    {i : Nat} {s t : EngineState}
    (h : spreadStep prices_df date days_to_expiry config ordered_contracts
      m1_price m1_days i s = .ok t) :
    t.spreads_percent.get date (.spread_pct (i + 1)) =
      if (m1_price ≠ 0 ∧ (lookupD days_to_expiry (ordered_contracts.getD i "")).getD 0 ≠ 0 ∧ m1_days ≠ 0) ∧ config.CALCULATE_PERCENT_SPREADS = true then
        some (.num (((prices_df.cell date (ordered_contracts.getD i "")).getD 0 - m1_price) / m1_price))
      else s.spreads_percent.get date (.spread_pct (i + 1)) := by
  rcases spreadStep_ok_shape h with ⟨hg, rfl⟩ | ⟨hg, hcase, rfl⟩ |
    ⟨hg, ha, hgap, p, hp, rfl⟩
  · rw [if_neg (fun hc => hg hc.1)]
  · rw [pctUpd_get_hit]
    by_cases hpf : config.CALCULATE_PERCENT_SPREADS = true
    · rw [if_pos hpf, if_pos ⟨hg, hpf⟩]
    · rw [if_neg hpf, if_neg (fun hc => hpf hc.2), dollarUpd_percent]
  · dsimp only
    rw [pctUpd_get_hit]
    by_cases hpf : config.CALCULATE_PERCENT_SPREADS = true
    · rw [if_pos hpf, if_pos ⟨hg, hpf⟩]
    · rw [if_neg hpf, if_neg (fun hc => hpf hc.2), dollarUpd_percent]

theorem spreadStep_ok_pct_miss {prices_df : PriceTable} {date : Int}
    {days_to_expiry : List (Contract × Int)} {config : SpreadsConfig}
    {ordered_contracts : List Contract} {m1_price : ℚ} {m1_days : Int}
    {i : Nat} {s t : EngineState}
    (h : spreadStep prices_df date days_to_expiry config ordered_contracts
      m1_price m1_days i s = .ok t) {k : ColKey}
    (hk : k ≠ ColKey.spread_pct (i + 1)) :
    t.spreads_percent.get date k = s.spreads_percent.get date k := by
  rcases spreadStep_ok_shape h with ⟨hg, rfl⟩ | ⟨hg, hcase, rfl⟩ |
    ⟨hg, ha, hgap, p, hp, rfl⟩
  · rfl
  · rw [pctUpd_get_miss _ _ _ _ _ (fun hc => hk hc.2), dollarUpd_percent]
  · dsimp only
    rw [pctUpd_get_miss _ _ _ _ _ (fun hc => hk hc.2), dollarUpd_percent]

theorem spreadStep_ok_pct_spread {prices_df : PriceTable} {date : Int}
    {days_to_expiry : List (Contract × Int)} {config : SpreadsConfig}
    {ordered_contracts : List Contract} {m1_price : ℚ} {m1_days : Int}
    {i : Nat} {s t : EngineState}
    (h : spreadStep prices_df date days_to_expiry config ordered_contracts
      m1_price m1_days i s = .ok t) :
    t.pct_spread =
      if (m1_price ≠ 0 ∧ (lookupD days_to_expiry (ordered_contracts.getD i "")).getD 0 ≠ 0 ∧ m1_days ≠ 0) ∧ config.CALCULATE_PERCENT_SPREADS = true then
        some (((prices_df.cell date (ordered_contracts.getD i "")).getD 0 - m1_price) / m1_price)
      else s.pct_spread := by
  rcases spreadStep_ok_shape h with ⟨hg, rfl⟩ | ⟨hg, hcase, rfl⟩ |
    ⟨hg, ha, hgap, p, hp, rfl⟩
  · rw [if_neg (fun hc => hg hc.1)]
  · rw [pctUpd_pct_spread]
    by_cases hpf : config.CALCULATE_PERCENT_SPREADS = true
    · rw [if_pos hpf, if_pos ⟨hg, hpf⟩]
    · rw [if_neg hpf, if_neg (fun hc => hpf hc.2), dollarUpd_pct]
  · dsimp only
    rw [pctUpd_pct_spread]
    by_cases hpf : config.CALCULATE_PERCENT_SPREADS = true
    · rw [if_pos hpf, if_pos ⟨hg, hpf⟩]
    · rw [if_neg hpf, if_neg (fun hc => hpf hc.2), dollarUpd_pct]

theorem spreadStep_ok_annual_miss {prices_df : PriceTable} {date : Int}
    {days_to_expiry : List (Contract × Int)} {config : SpreadsConfig}
    {ordered_contracts : List Contract} {m1_price : ℚ} {m1_days : Int}
    {i : Nat} {s t : EngineState}
    (h : spreadStep prices_df date days_to_expiry config ordered_contracts
      m1_price m1_days i s = .ok t) {k : ColKey}
    (hk : k ≠ ColKey.spread_pct_annual (i + 1)) :
    t.spreads_percent_annual.get date k = s.spreads_percent_annual.get date k := by
  rcases spreadStep_ok_shape h with ⟨hg, rfl⟩ | ⟨hg, hcase, rfl⟩ |
    ⟨hg, ha, hgap, p, hp, rfl⟩
  · rfl
  · rw [pctUpd_annual, dollarUpd_annual]
  · dsimp only
    rw [Table.get_locSet_key _ _ _ (fun hc => hk hc.symm)]
    rw [pctUpd_annual, dollarUpd_annual]

theorem spreadStep_ok_annual_hit {prices_df : PriceTable} {date : Int}
    {days_to_expiry : List (Contract × Int)} {config : SpreadsConfig}
    {ordered_contracts : List Contract} {m1_price : ℚ} {m1_days : Int}
    {i : Nat} {s t : EngineState}
    (h : spreadStep prices_df date days_to_expiry config ordered_contracts
      m1_price m1_days i s = .ok t)
    (hpf : config.CALCULATE_PERCENT_SPREADS = true) :
    t.spreads_percent_annual.get date (.spread_pct_annual (i + 1)) =
      if (m1_price ≠ 0 ∧ (lookupD days_to_expiry (ordered_contracts.getD i "")).getD 0 ≠ 0 ∧ m1_days ≠ 0) ∧ config.CALCULATE_ANNUAL_SPREADS = true ∧ 0 < (lookupD days_to_expiry (ordered_contracts.getD i "")).getD 0 - m1_days then
        some (.num ((((prices_df.cell date (ordered_contracts.getD i "")).getD 0 - m1_price) / m1_price) * (config.TRADING_DAYS_PER_YEAR / (((lookupD days_to_expiry (ordered_contracts.getD i "")).getD 0 - m1_days : Int) : ℚ))))
      else s.spreads_percent_annual.get date (.spread_pct_annual (i + 1)) := by
  rcases spreadStep_ok_shape h with ⟨hg, rfl⟩ | ⟨hg, hcase, rfl⟩ |
    ⟨hg, ha, hgap, p, hp, rfl⟩
  · rw [if_neg (fun hc => hg hc.1)]
  · rw [pctUpd_annual, dollarUpd_annual, if_neg]
    rintro ⟨-, ha, hgap⟩
    rcases hcase with hc | hc
    · rw [ha] at hc; cases hc
    · exact hc hgap
  · rw [pctUpd_pct_spread, if_pos hpf] at hp
    injection hp with hp
    dsimp only
    rw [Table.get_locSet_self, if_pos ⟨hg, ha, hgap⟩, hp]

theorem spreadStep_ok_annual_nopct {prices_df : PriceTable} {date : Int}
    {days_to_expiry : List (Contract × Int)} {config : SpreadsConfig}
    {ordered_contracts : List Contract} {m1_price : ℚ} {m1_days : Int}
    {i : Nat} {s t : EngineState}
    (h : spreadStep prices_df date days_to_expiry config ordered_contracts
      m1_price m1_days i s = .ok t)
    (hpf : config.CALCULATE_PERCENT_SPREADS = false)
    (hsp : s.pct_spread = none) :
    t.spreads_percent_annual = s.spreads_percent_annual ∧
      t.pct_spread = none := by
  rcases spreadStep_ok_shape h with ⟨hg, rfl⟩ | ⟨hg, hcase, rfl⟩ |
    ⟨hg, ha, hgap, p, hp, rfl⟩
  · exact ⟨rfl, hsp⟩
  · rw [pctUpd_pct_spread, hpf]
    refine ⟨(pctUpd_annual _ _ _ _ _).trans (dollarUpd_annual _ _ _ _ _), ?_⟩
    simp [dollarUpd_pct, hsp]
  · rw [pctUpd_pct_spread, hpf] at hp
    simp only [Bool.false_eq_true, if_false, dollarUpd_pct, hsp] at hp
    exact Option.noConfusion hp

theorem spreadStep_ok_index {prices_df : PriceTable} {date : Int}
    {days_to_expiry : List (Contract × Int)} {config : SpreadsConfig}
    {ordered_contracts : List Contract} {m1_price : ℚ} {m1_days : Int}
    {i : Nat} {s t : EngineState}
    (h : spreadStep prices_df date days_to_expiry config ordered_contracts
      m1_price m1_days i s = .ok t)
    (h1 : date ∈ s.spreads_dollar.index) (h2 : date ∈ s.spreads_percent.index)
    (h3 : date ∈ s.spreads_percent_annual.index) :
    t.spreads_dollar.index = s.spreads_dollar.index ∧
    t.spreads_percent.index = s.spreads_percent.index ∧
    t.spreads_percent_annual.index = s.spreads_percent_annual.index := by
  rcases spreadStep_ok_shape h with ⟨hg, rfl⟩ | ⟨hg, hcase, rfl⟩ |
    ⟨hg, ha, hgap, p, hp, rfl⟩
  · exact ⟨rfl, rfl, rfl⟩
  · refine ⟨?_, ?_, ?_⟩
    · rw [pctUpd_dollar]; exact dollarUpd_index _ _ _ _ _ h1
    · rw [pctUpd_index _ _ _ _ _ (by rwa [dollarUpd_percent]), dollarUpd_percent]
    · rw [pctUpd_annual, dollarUpd_annual]
  · refine ⟨?_, ?_, ?_⟩
    · dsimp only
      rw [pctUpd_dollar]; exact dollarUpd_index _ _ _ _ _ h1
    · dsimp only
      rw [pctUpd_index _ _ _ _ _ (by rwa [dollarUpd_percent]), dollarUpd_percent]
    · dsimp only
      rw [Table.locSet_index_of_mem _ _ (by rwa [pctUpd_annual, dollarUpd_annual]),
        pctUpd_annual, dollarUpd_annual]

/-- The only way an iteration can raise: the guard passed, the annualized
branch is enabled with a positive day gap, and `pct_spread` is unbound —
which requires the percent branch to be disabled. -/
theorem spreadStep_error_char {prices_df : PriceTable} {date : Int}
    {days_to_expiry : List (Contract × Int)} {config : SpreadsConfig}
    {ordered_contracts : List Contract} {m1_price : ℚ} {m1_days : Int}
    {i : Nat} {s : EngineState} {e : String}
    (h : spreadStep prices_df date days_to_expiry config ordered_contracts
      m1_price m1_days i s = .error e) :
    (m1_price ≠ 0 ∧ (lookupD days_to_expiry (ordered_contracts.getD i "")).getD 0 ≠ 0 ∧ m1_days ≠ 0) ∧
    config.CALCULATE_ANNUAL_SPREADS = true ∧
    0 < (lookupD days_to_expiry (ordered_contracts.getD i "")).getD 0 - m1_days ∧
    config.CALCULATE_PERCENT_SPREADS = false ∧
    s.pct_spread = none := by
  simp only [spreadStep] at h
  by_cases hg : m1_price ≠ 0 ∧ (lookupD days_to_expiry (ordered_contracts.getD i "")).getD 0 ≠ 0 ∧ m1_days ≠ 0
  · rw [if_pos hg] at h
    by_cases ha : config.CALCULATE_ANNUAL_SPREADS = true
    · rw [if_pos ha] at h
      by_cases hgap : 0 < (lookupD days_to_expiry (ordered_contracts.getD i "")).getD 0 - m1_days
      · cases hp : (pctUpd config date i (((prices_df.cell date (ordered_contracts.getD i "")).getD 0 - m1_price) / m1_price) (dollarUpd config date i ((prices_df.cell date (ordered_contracts.getD i "")).getD 0 - m1_price) s)).pct_spread with
        | none =>
            have hp2 := hp
            rw [pctUpd_pct_spread] at hp2
            by_cases hpf : config.CALCULATE_PERCENT_SPREADS = true
            · rw [if_pos hpf] at hp2; cases hp2
            · rw [if_neg hpf, dollarUpd_pct] at hp2
              exact ⟨hg, ha, hgap, by simpa using hpf, hp2⟩
        | some p =>
            rw [annualStep_pos_some config date i hgap hp] at h
            cases h
      · rw [annualStep_nonpos config date i hgap] at h
        cases h
    · rw [if_neg ha] at h
      cases h
  · rw [if_neg hg] at h
    cases h

/-! ### Spread-loop lemmas -/

theorem spreadLoop_ok_untouched {prices_df : PriceTable} {date : Int}
    {days_to_expiry : List (Contract × Int)} {config : SpreadsConfig}
    {ordered_contracts : List Contract} {m1_price : ℚ} {m1_days : Int}
    (L : List Nat) : ∀ {s t : EngineState},
      spreadLoop prices_df date days_to_expiry config ordered_contracts
        m1_price m1_days L s = .ok t →
      t.monthly_futures = s.monthly_futures ∧
      t.days_to_expiry_df = s.days_to_expiry_df := by
  induction L with
  | nil =>
      intro s t h
      injection h with h
      subst h
      exact ⟨rfl, rfl⟩
  | cons j rest ih =>
      intro s t h
      simp only [spreadLoop] at h
      cases hs : spreadStep prices_df date days_to_expiry config
          ordered_contracts m1_price m1_days j s with
      | ok s1 =>
          rw [hs] at h
          have h1 := ih h
          have h2 := spreadStep_ok_untouched hs
          exact ⟨h1.1.trans h2.1, h1.2.trans h2.2⟩
      | error e => rw [hs] at h; cases h

theorem spreadLoop_ok_other_day {prices_df : PriceTable} {date : Int}
    {days_to_expiry : List (Contract × Int)} {config : SpreadsConfig}
    {ordered_contracts : List Contract} {m1_price : ℚ} {m1_days : Int}
    (L : List Nat) {d2 : Int} (hd : d2 ≠ date) (k : ColKey) :
    ∀ {s t : EngineState},
      spreadLoop prices_df date days_to_expiry config ordered_contracts
        m1_price m1_days L s = .ok t →
      t.spreads_dollar.get d2 k = s.spreads_dollar.get d2 k ∧
      t.spreads_percent.get d2 k = s.spreads_percent.get d2 k ∧
      t.spreads_percent_annual.get d2 k = s.spreads_percent_annual.get d2 k := by
  induction L with
  | nil =>
      intro s t h
      injection h with h
      subst h
      exact ⟨rfl, rfl, rfl⟩
  | cons j rest ih =>
      intro s t h
      simp only [spreadLoop] at h
      cases hs : spreadStep prices_df date days_to_expiry config
          ordered_contracts m1_price m1_days j s with
      | ok s1 =>
          rw [hs] at h
          have h1 := ih h
          have h2 := spreadStep_ok_other_day hs hd k
          exact ⟨h1.1.trans h2.1, h1.2.1.trans h2.2.1, h1.2.2.trans h2.2.2⟩
      | error e => rw [hs] at h; cases h

theorem spreadLoop_ok_index {prices_df : PriceTable} {date : Int}
    {days_to_expiry : List (Contract × Int)} {config : SpreadsConfig}
    {ordered_contracts : List Contract} {m1_price : ℚ} {m1_days : Int}
    (L : List Nat) : ∀ {s t : EngineState},
      spreadLoop prices_df date days_to_expiry config ordered_contracts
        m1_price m1_days L s = .ok t →
      date ∈ s.spreads_dollar.index → date ∈ s.spreads_percent.index →
      date ∈ s.spreads_percent_annual.index →
      t.spreads_dollar.index = s.spreads_dollar.index ∧
      t.spreads_percent.index = s.spreads_percent.index ∧
      t.spreads_percent_annual.index = s.spreads_percent_annual.index := by
  induction L with
  | nil =>
      intro s t h _ _ _
      injection h with h
      subst h
      exact ⟨rfl, rfl, rfl⟩
  | cons j rest ih =>
      intro s t h h1 h2 h3
      simp only [spreadLoop] at h
      cases hs : spreadStep prices_df date days_to_expiry config
          ordered_contracts m1_price m1_days j s with
      | ok s1 =>
          rw [hs] at h
          have hstep := spreadStep_ok_index hs h1 h2 h3
          have hrest := ih h (by rwa [hstep.1]) (by rwa [hstep.2.1])
            (by rwa [hstep.2.2])
          exact ⟨hrest.1.trans hstep.1, hrest.2.1.trans hstep.2.1,
            hrest.2.2.trans hstep.2.2⟩
      | error e => rw [hs] at h; cases h

theorem spreadLoop_ok_dollar_miss {prices_df : PriceTable} {date : Int}
    {days_to_expiry : List (Contract × Int)} {config : SpreadsConfig}
    {ordered_contracts : List Contract} {m1_price : ℚ} {m1_days : Int}
    (L : List Nat) {k : ColKey} (hk : ∀ j ∈ L, k ≠ ColKey.spread_dollar (j + 1)) :
    ∀ {s t : EngineState},
      spreadLoop prices_df date days_to_expiry config ordered_contracts
        m1_price m1_days L s = .ok t →
      t.spreads_dollar.get date k = s.spreads_dollar.get date k := by
  induction L with
  | nil =>
      intro s t h
      injection h with h
      subst h
      rfl
  | cons j rest ih =>
      intro s t h
      simp only [spreadLoop] at h
      cases hs : spreadStep prices_df date days_to_expiry config
          ordered_contracts m1_price m1_days j s with
      | ok s1 =>
          rw [hs] at h
          exact (ih (fun j2 hj2 => hk j2 (List.mem_cons_of_mem _ hj2)) h).trans
            (spreadStep_ok_dollar_miss hs (hk j (List.mem_cons_self j rest)))
      | error e => rw [hs] at h; cases h

theorem spreadLoop_ok_pct_miss {prices_df : PriceTable} {date : Int}
    {days_to_expiry : List (Contract × Int)} {config : SpreadsConfig}
    {ordered_contracts : List Contract} {m1_price : ℚ} {m1_days : Int}
    (L : List Nat) {k : ColKey} (hk : ∀ j ∈ L, k ≠ ColKey.spread_pct (j + 1)) :
    ∀ {s t : EngineState},
      spreadLoop prices_df date days_to_expiry config ordered_contracts
        m1_price m1_days L s = .ok t →
      t.spreads_percent.get date k = s.spreads_percent.get date k := by
  induction L with
  | nil =>
      intro s t h
      injection h with h
      subst h
      rfl
  | cons j rest ih =>
      intro s t h
      simp only [spreadLoop] at h
      cases hs : spreadStep prices_df date days_to_expiry config
          ordered_contracts m1_price m1_days j s with
      | ok s1 =>
          rw [hs] at h
          exact (ih (fun j2 hj2 => hk j2 (List.mem_cons_of_mem _ hj2)) h).trans
            (spreadStep_ok_pct_miss hs (hk j (List.mem_cons_self j rest)))
      | error e => rw [hs] at h; cases h

theorem spreadLoop_ok_annual_miss {prices_df : PriceTable} {date : Int}
    {days_to_expiry : List (Contract × Int)} {config : SpreadsConfig}
    {ordered_contracts : List Contract} {m1_price : ℚ} {m1_days : Int}
    (L : List Nat) {k : ColKey}
    (hk : ∀ j ∈ L, k ≠ ColKey.spread_pct_annual (j + 1)) :
    ∀ {s t : EngineState},
      spreadLoop prices_df date days_to_expiry config ordered_contracts
        m1_price m1_days L s = .ok t →
      t.spreads_percent_annual.get date k = s.spreads_percent_annual.get date k := by
  induction L with
  | nil =>
      intro s t h
      injection h with h
      subst h
      rfl
  | cons j rest ih =>
      intro s t h
      simp only [spreadLoop] at h
      cases hs : spreadStep prices_df date days_to_expiry config
          ordered_contracts m1_price m1_days j s with
      | ok s1 =>
          rw [hs] at h
          exact (ih (fun j2 hj2 => hk j2 (List.mem_cons_of_mem _ hj2)) h).trans
            (spreadStep_ok_annual_miss hs (hk j (List.mem_cons_self j rest)))
      | error e => rw [hs] at h; cases h

theorem spreadLoop_ok_dollar_hit {prices_df : PriceTable} {date : Int}
    {days_to_expiry : List (Contract × Int)} {config : SpreadsConfig}
    {ordered_contracts : List Contract} {m1_price : ℚ} {m1_days : Int}
    (L : List Nat) (hnd : L.Nodup) {i : Nat} (hi : i ∈ L) :
    ∀ {s t : EngineState},
      spreadLoop prices_df date days_to_expiry config ordered_contracts
        m1_price m1_days L s = .ok t →
      t.spreads_dollar.get date (.spread_dollar (i + 1)) =
        if (m1_price ≠ 0 ∧ (lookupD days_to_expiry (ordered_contracts.getD i "")).getD 0 ≠ 0 ∧ m1_days ≠ 0) ∧ config.CALCULATE_DOLLAR_SPREADS = true then
          some (.num ((prices_df.cell date (ordered_contracts.getD i "")).getD 0 - m1_price))
        else s.spreads_dollar.get date (.spread_dollar (i + 1)) := by
  induction L with
  | nil => cases hi
  | cons j rest ih =>
      intro s t h
      simp only [spreadLoop] at h
      cases hs : spreadStep prices_df date days_to_expiry config
          ordered_contracts m1_price m1_days j s with
      | ok s1 =>
          rw [hs] at h
          by_cases hij : i = j
          · subst hij
            have hrest : ∀ j2 ∈ rest, ColKey.spread_dollar (i + 1) ≠ ColKey.spread_dollar (j2 + 1) := by
              intro j2 hj2 hkey
              have hij2 : i = j2 := by simpa using hkey
              exact absurd (hij2 ▸ hj2) (List.nodup_cons.mp hnd).1
            rw [spreadLoop_ok_dollar_miss rest hrest h]
            exact spreadStep_ok_dollar_hit hs
          · have hi2 : i ∈ rest := by
              cases hi with
              | head => exact absurd rfl hij
              | tail _ h2 => exact h2
            have hk : ColKey.spread_dollar (i + 1) ≠ ColKey.spread_dollar (j + 1) :=
              fun hkey => hij (by simpa using hkey)
            rw [ih (List.nodup_cons.mp hnd).2 hi2 h,
              spreadStep_ok_dollar_miss hs hk]
      | error e => rw [hs] at h; cases h

theorem spreadLoop_ok_pct_hit {prices_df : PriceTable} {date : Int}
    {days_to_expiry : List (Contract × Int)} {config : SpreadsConfig}
    {ordered_contracts : List Contract} {m1_price : ℚ} {m1_days : Int}
    (L : List Nat) (hnd : L.Nodup) {i : Nat} (hi : i ∈ L) :
    ∀ {s t : EngineState},
      spreadLoop prices_df date days_to_expiry config ordered_contracts
        m1_price m1_days L s = .ok t →
      t.spreads_percent.get date (.spread_pct (i + 1)) =
        if (m1_price ≠ 0 ∧ (lookupD days_to_expiry (ordered_contracts.getD i "")).getD 0 ≠ 0 ∧ m1_days ≠ 0) ∧ config.CALCULATE_PERCENT_SPREADS = true then
          some (.num (((prices_df.cell date (ordered_contracts.getD i "")).getD 0 - m1_price) / m1_price))
        else s.spreads_percent.get date (.spread_pct (i + 1)) := by
  induction L with
  | nil => cases hi
  | cons j rest ih =>
      intro s t h
      simp only [spreadLoop] at h
      cases hs : spreadStep prices_df date days_to_expiry config
          ordered_contracts m1_price m1_days j s with
      | ok s1 =>
          rw [hs] at h
          by_cases hij : i = j
          · subst hij
            have hrest : ∀ j2 ∈ rest, ColKey.spread_pct (i + 1) ≠ ColKey.spread_pct (j2 + 1) := by
              intro j2 hj2 hkey
              have hij2 : i = j2 := by simpa using hkey
              exact absurd (hij2 ▸ hj2) (List.nodup_cons.mp hnd).1
            rw [spreadLoop_ok_pct_miss rest hrest h]
            exact spreadStep_ok_pct_hit hs
          · have hi2 : i ∈ rest := by
              cases hi with
              | head => exact absurd rfl hij
              | tail _ h2 => exact h2
            have hk : ColKey.spread_pct (i + 1) ≠ ColKey.spread_pct (j + 1) :=
              fun hkey => hij (by simpa using hkey)
            rw [ih (List.nodup_cons.mp hnd).2 hi2 h,
              spreadStep_ok_pct_miss hs hk]
      | error e => rw [hs] at h; cases h

theorem spreadLoop_ok_annual_hit {prices_df : PriceTable} {date : Int}
    {days_to_expiry : List (Contract × Int)} {config : SpreadsConfig}
    {ordered_contracts : List Contract} {m1_price : ℚ} {m1_days : Int}
    (L : List Nat) (hnd : L.Nodup) {i : Nat} (hi : i ∈ L)
    (hpf : config.CALCULATE_PERCENT_SPREADS = true) :
    ∀ {s t : EngineState},
      spreadLoop prices_df date days_to_expiry config ordered_contracts
        m1_price m1_days L s = .ok t →
      t.spreads_percent_annual.get date (.spread_pct_annual (i + 1)) =
        if (m1_price ≠ 0 ∧ (lookupD days_to_expiry (ordered_contracts.getD i "")).getD 0 ≠ 0 ∧ m1_days ≠ 0) ∧ config.CALCULATE_ANNUAL_SPREADS = true ∧ 0 < (lookupD days_to_expiry (ordered_contracts.getD i "")).getD 0 - m1_days then
          some (.num ((((prices_df.cell date (ordered_contracts.getD i "")).getD 0 - m1_price) / m1_price) * (config.TRADING_DAYS_PER_YEAR / (((lookupD days_to_expiry (ordered_contracts.getD i "")).getD 0 - m1_days : Int) : ℚ))))
        else s.spreads_percent_annual.get date (.spread_pct_annual (i + 1)) := by
  induction L with
  | nil => cases hi
  | cons j rest ih =>
      intro s t h
      simp only [spreadLoop] at h
      cases hs : spreadStep prices_df date days_to_expiry config
          ordered_contracts m1_price m1_days j s with
      | ok s1 =>
          rw [hs] at h
          by_cases hij : i = j
          · subst hij
            have hrest : ∀ j2 ∈ rest, ColKey.spread_pct_annual (i + 1) ≠ ColKey.spread_pct_annual (j2 + 1) := by
              intro j2 hj2 hkey
              have hij2 : i = j2 := by simpa using hkey
              exact absurd (hij2 ▸ hj2) (List.nodup_cons.mp hnd).1
            rw [spreadLoop_ok_annual_miss rest hrest h]
            exact spreadStep_ok_annual_hit hs hpf
          · have hi2 : i ∈ rest := by
              cases hi with
              | head => exact absurd rfl hij
              | tail _ h2 => exact h2
            have hk : ColKey.spread_pct_annual (i + 1) ≠ ColKey.spread_pct_annual (j + 1) :=
              fun hkey => hij (by simpa using hkey)
            rw [ih (List.nodup_cons.mp hnd).2 hi2 h,
              spreadStep_ok_annual_miss hs hk]
      | error e => rw [hs] at h; cases h

theorem spreadLoop_ok_annual_nopct {prices_df : PriceTable} {date : Int}
    {days_to_expiry : List (Contract × Int)} {config : SpreadsConfig}
    {ordered_contracts : List Contract} {m1_price : ℚ} {m1_days : Int}
    (L : List Nat) (hpf : config.CALCULATE_PERCENT_SPREADS = false) :
    ∀ {s t : EngineState},
      spreadLoop prices_df date days_to_expiry config ordered_contracts
        m1_price m1_days L s = .ok t →
      s.pct_spread = none →
      t.spreads_percent_annual = s.spreads_percent_annual ∧
        t.pct_spread = none := by
  induction L with
  | nil =>
      intro s t h hsp
      injection h with h
      subst h
      exact ⟨rfl, hsp⟩
  | cons j rest ih =>
      intro s t h hsp
      simp only [spreadLoop] at h
      cases hs : spreadStep prices_df date days_to_expiry config
          ordered_contracts m1_price m1_days j s with
      | ok s1 =>
          rw [hs] at h
          have hstep := spreadStep_ok_annual_nopct hs hpf hsp
          have hrest := ih h hstep.2
          exact ⟨hrest.1.trans hstep.1, hrest.2⟩
      | error e => rw [hs] at h; cases h

/-- The spread loop can only abort with the `pct_spread` `NameError`, and
only at an index where the guard passed, the annualized branch was enabled
with a positive day gap, and the percent branch was disabled. -/
theorem spreadLoop_error_char {prices_df : PriceTable} {date : Int}
    {days_to_expiry : List (Contract × Int)} {config : SpreadsConfig}
    {ordered_contracts : List Contract} {m1_price : ℚ} {m1_days : Int}
    (L : List Nat) : ∀ {s : EngineState} {e : String},
      spreadLoop prices_df date days_to_expiry config ordered_contracts
        m1_price m1_days L s = .error e →
      ∃ j ∈ L,
        (m1_price ≠ 0 ∧ (lookupD days_to_expiry (ordered_contracts.getD j "")).getD 0 ≠ 0 ∧ m1_days ≠ 0) ∧
        config.CALCULATE_ANNUAL_SPREADS = true ∧
        0 < (lookupD days_to_expiry (ordered_contracts.getD j "")).getD 0 - m1_days ∧
        config.CALCULATE_PERCENT_SPREADS = false := by
  induction L with
  | nil => intro s e h; cases h
  | cons j rest ih =>
      intro s e h
      simp only [spreadLoop] at h
      cases hs : spreadStep prices_df date days_to_expiry config
          ordered_contracts m1_price m1_days j s with
      | ok s1 =>
          rw [hs] at h
          obtain ⟨j2, hj2, hfacts⟩ := ih h
          exact ⟨j2, List.mem_cons_of_mem _ hj2, hfacts⟩
      | error e2 =>
          rw [hs] at h
          have hc := spreadStep_error_char hs
          exact ⟨j, List.mem_cons_self j rest, hc.1, hc.2.1, hc.2.2.1, hc.2.2.2.1⟩

/-- With the percent branch enabled, or the annualized branch disabled, the
spread loop never raises. -/
theorem spreadLoop_ok_total {prices_df : PriceTable} {date : Int}
    {days_to_expiry : List (Contract × Int)} {config : SpreadsConfig}
    {ordered_contracts : List Contract} {m1_price : ℚ} {m1_days : Int}
    (L : List Nat)
    (hcfg : config.CALCULATE_PERCENT_SPREADS = true ∨
      config.CALCULATE_ANNUAL_SPREADS = false) :
    ∀ (s : EngineState), ∃ t,
      spreadLoop prices_df date days_to_expiry config ordered_contracts
        m1_price m1_days L s = .ok t := by
  induction L with
  | nil => intro s; exact ⟨s, rfl⟩
  | cons j rest ih =>
      intro s
      cases hs : spreadStep prices_df date days_to_expiry config
          ordered_contracts m1_price m1_days j s with
      | ok s1 =>
          obtain ⟨t, ht⟩ := ih s1
          refine ⟨t, ?_⟩
          simp only [spreadLoop]
          rw [hs]
          exact ht
      | error e =>
          have hc := spreadStep_error_char hs
          rcases hcfg with hp | ha
          · rw [hc.2.2.2.1] at hp; cases hp
          · rw [hc.2.1] at ha; cases ha

/-! ### Process-date lemmas -/

theorem spreadIdxs_nodup (len : Nat) (maxMonths : Int) :
    (spreadIdxs len maxMonths).Nodup :=
  List.nodup_range' 1 _

theorem mem_spreadIdxs {len : Nat} {maxMonths : Int} {i : Nat} :
    i ∈ spreadIdxs len maxMonths ↔
      1 ≤ i ∧ (i : Int) < min (len : Int) maxMonths := by
  rw [spreadIdxs, List.mem_range'_1]
  omega

/-- Control-flow case analysis of one day's processing: an empty valid or
eligible set leaves the state untouched; otherwise the ladder is written and,
when at least two contracts are eligible, the spread loop runs. -/
theorem processDate_ok_shape {prices_df : PriceTable}
    {last_trade_dates : List (Contract × Option Int)} {config : SpreadsConfig}
    {s t : EngineState} {date : Int}
    (h : processDate prices_df last_trade_dates config s date = .ok t) :
    ((validContracts prices_df date).isEmpty = true ∧ t = s) ∨
    (¬(validContracts prices_df date).isEmpty = true ∧
      (eligibleContracts prices_df last_trade_dates date).isEmpty = true ∧ t = s) ∨
    (¬(validContracts prices_df date).isEmpty = true ∧
      ¬(eligibleContracts prices_df last_trade_dates date).isEmpty = true ∧
      ((2 ≤ (orderedContracts prices_df last_trade_dates date).length ∧
        spreadLoop prices_df date (calculate_days_to_expiry date last_trade_dates)
          config (orderedContracts prices_df last_trade_dates date)
          ((prices_df.cell date ((orderedContracts prices_df last_trade_dates date).getD 0 "")).getD 0)
          ((lookupD (calculate_days_to_expiry date last_trade_dates) ((orderedContracts prices_df last_trade_dates date).getD 0 "")).getD 0)
          (spreadIdxs (orderedContracts prices_df last_trade_dates date).length config.MAX_MONTHS_FORWARD)
          (ladderLoop prices_df date (calculate_days_to_expiry date last_trade_dates)
            (((orderedContracts prices_df last_trade_dates date).take config.MAX_MONTHS_FORWARD.toNat).enumFrom 1) s) = .ok t) ∨
      (¬2 ≤ (orderedContracts prices_df last_trade_dates date).length ∧
        t = ladderLoop prices_df date (calculate_days_to_expiry date last_trade_dates)
          (((orderedContracts prices_df last_trade_dates date).take config.MAX_MONTHS_FORWARD.toNat).enumFrom 1) s))) := by
  simp only [processDate] at h
  by_cases hv : (validContracts prices_df date).isEmpty = true
  · rw [if_pos hv] at h
    injection h with h
    exact Or.inl ⟨hv, h.symm⟩
  · rw [if_neg hv] at h
    by_cases he : (eligibleContracts prices_df last_trade_dates date).isEmpty = true
    · rw [if_pos he] at h
      injection h with h
      exact Or.inr (Or.inl ⟨hv, he, h.symm⟩)
    · rw [if_neg he] at h
      by_cases hl : 2 ≤ (orderedContracts prices_df last_trade_dates date).length
      · rw [if_pos hl] at h
        exact Or.inr (Or.inr ⟨hv, he, Or.inl ⟨hl, h⟩⟩)
      · rw [if_neg hl] at h
        injection h with h
        exact Or.inr (Or.inr ⟨hv, he, Or.inr ⟨hl, h.symm⟩⟩)

theorem eligible_empty_of_valid_empty {prices_df : PriceTable}
    (last_trade_dates : List (Contract × Option Int)) {date : Int}
    (h : (validContracts prices_df date).isEmpty = true) :
    (eligibleContracts prices_df last_trade_dates date).isEmpty = true := by
  rw [List.isEmpty_iff] at h ⊢
  rw [eligibleContracts, h]
  rfl

theorem orderedContracts_nil_of_eligible_empty {prices_df : PriceTable}
    {last_trade_dates : List (Contract × Option Int)} {date : Int}
    (h : (eligibleContracts prices_df last_trade_dates date).isEmpty = true) :
    orderedContracts prices_df last_trade_dates date = [] := by
  rw [List.isEmpty_iff] at h
  rw [orderedContracts, h]
  rfl

theorem processDate_ok_other_day {prices_df : PriceTable}
    {last_trade_dates : List (Contract × Option Int)} {config : SpreadsConfig}
    {s t : EngineState} {date : Int}
    (h : processDate prices_df last_trade_dates config s date = .ok t)
    {d2 : Int} (hd : d2 ≠ date) (k : ColKey) :
    t.monthly_futures.get d2 k = s.monthly_futures.get d2 k ∧
    t.spreads_dollar.get d2 k = s.spreads_dollar.get d2 k ∧
    t.spreads_percent.get d2 k = s.spreads_percent.get d2 k ∧
    t.spreads_percent_annual.get d2 k = s.spreads_percent_annual.get d2 k ∧
    t.days_to_expiry_df.get d2 k = s.days_to_expiry_df.get d2 k := by
  rcases processDate_ok_shape h with ⟨hv, rfl⟩ | ⟨hv, he, rfl⟩ |
    ⟨hv, he, ⟨hl, hsp⟩ | ⟨hl, rfl⟩⟩
  · exact ⟨rfl, rfl, rfl, rfl, rfl⟩
  · exact ⟨rfl, rfl, rfl, rfl, rfl⟩
  · have hlu := ladderLoop_untouched prices_df date
      (calculate_days_to_expiry date last_trade_dates)
      (((orderedContracts prices_df last_trade_dates date).take config.MAX_MONTHS_FORWARD.toNat).enumFrom 1) s
    have hlg := ladderLoop_get_other prices_df date
      (calculate_days_to_expiry date last_trade_dates) k hd
      (((orderedContracts prices_df last_trade_dates date).take config.MAX_MONTHS_FORWARD.toNat).enumFrom 1) s
    have hsu := spreadLoop_ok_untouched _ hsp
    have hsg := spreadLoop_ok_other_day _ hd k hsp
    refine ⟨?_, ?_, ?_, ?_, ?_⟩
    · rw [hsu.1]; exact hlg.1
    · rw [hsg.1, hlu.1]
    · rw [hsg.2.1, hlu.2.1]
    · rw [hsg.2.2, hlu.2.2.1]
    · rw [hsu.2]; exact hlg.2
  · have hlg := ladderLoop_get_other prices_df date
      (calculate_days_to_expiry date last_trade_dates) k hd
      (((orderedContracts prices_df last_trade_dates date).take config.MAX_MONTHS_FORWARD.toNat).enumFrom 1) s
    have hlu := ladderLoop_untouched prices_df date
      (calculate_days_to_expiry date last_trade_dates)
      (((orderedContracts prices_df last_trade_dates date).take config.MAX_MONTHS_FORWARD.toNat).enumFrom 1) s
    exact ⟨hlg.1, by rw [hlu.1], by rw [hlu.2.1], by rw [hlu.2.2.1], hlg.2⟩

theorem processDate_ok_index {prices_df : PriceTable}
    {last_trade_dates : List (Contract × Option Int)} {config : SpreadsConfig}
    {s t : EngineState} {date : Int}
    (h : processDate prices_df last_trade_dates config s date = .ok t)
    (h1 : date ∈ s.monthly_futures.index) (h2 : date ∈ s.spreads_dollar.index)
    (h3 : date ∈ s.spreads_percent.index)
    (h4 : date ∈ s.spreads_percent_annual.index)
    (h5 : date ∈ s.days_to_expiry_df.index) :
    t.monthly_futures.index = s.monthly_futures.index ∧
    t.spreads_dollar.index = s.spreads_dollar.index ∧
    t.spreads_percent.index = s.spreads_percent.index ∧
    t.spreads_percent_annual.index = s.spreads_percent_annual.index ∧
    t.days_to_expiry_df.index = s.days_to_expiry_df.index := by
  rcases processDate_ok_shape h with ⟨hv, rfl⟩ | ⟨hv, he, rfl⟩ |
    ⟨hv, he, ⟨hl, hsp⟩ | ⟨hl, rfl⟩⟩
  · exact ⟨rfl, rfl, rfl, rfl, rfl⟩
  · exact ⟨rfl, rfl, rfl, rfl, rfl⟩
  · have hli := ladderLoop_index prices_df date
      (calculate_days_to_expiry date last_trade_dates)
      (((orderedContracts prices_df last_trade_dates date).take config.MAX_MONTHS_FORWARD.toNat).enumFrom 1) s h1 h5
    have hlu := ladderLoop_untouched prices_df date
      (calculate_days_to_expiry date last_trade_dates)
      (((orderedContracts prices_df last_trade_dates date).take config.MAX_MONTHS_FORWARD.toNat).enumFrom 1) s
    have hsu := spreadLoop_ok_untouched _ hsp
    have hsi := spreadLoop_ok_index _ hsp (by rwa [hlu.1]) (by rwa [hlu.2.1])
      (by rwa [hlu.2.2.1])
    refine ⟨?_, ?_, ?_, ?_, ?_⟩
    · rw [hsu.1]; exact hli.1
    · rw [hsi.1, hlu.1]
    · rw [hsi.2.1, hlu.2.1]
    · rw [hsi.2.2, hlu.2.2.1]
    · rw [hsu.2]; exact hli.2
  · have hli := ladderLoop_index prices_df date
      (calculate_days_to_expiry date last_trade_dates)
      (((orderedContracts prices_df last_trade_dates date).take config.MAX_MONTHS_FORWARD.toNat).enumFrom 1) s h1 h5
    have hlu := ladderLoop_untouched prices_df date
      (calculate_days_to_expiry date last_trade_dates)
      (((orderedContracts prices_df last_trade_dates date).take config.MAX_MONTHS_FORWARD.toNat).enumFrom 1) s
    exact ⟨hli.1, by rw [hlu.1], by rw [hlu.2.1], by rw [hlu.2.2.1], hli.2⟩

theorem processDate_ok_ladder {prices_df : PriceTable}
    {last_trade_dates : List (Contract × Option Int)} {config : SpreadsConfig}
    {s t : EngineState} {date : Int}
    (h : processDate prices_df last_trade_dates config s date = .ok t)
    (r : Nat) :
    (t.monthly_futures.get date (.month_future r) =
      if 1 ≤ r ∧ r - 1 < ((orderedContracts prices_df last_trade_dates date).take config.MAX_MONTHS_FORWARD.toNat).length then
        some (.str (((orderedContracts prices_df last_trade_dates date).take config.MAX_MONTHS_FORWARD.toNat).getD (r - 1) ""))
      else s.monthly_futures.get date (.month_future r)) ∧
    (t.monthly_futures.get date (.month_price r) =
      if 1 ≤ r ∧ r - 1 < ((orderedContracts prices_df last_trade_dates date).take config.MAX_MONTHS_FORWARD.toNat).length then
        some (.num ((prices_df.cell date (((orderedContracts prices_df last_trade_dates date).take config.MAX_MONTHS_FORWARD.toNat).getD (r - 1) "")).getD 0))
      else s.monthly_futures.get date (.month_price r)) ∧
    (t.days_to_expiry_df.get date (.month_days r) =
      if 1 ≤ r ∧ r - 1 < ((orderedContracts prices_df last_trade_dates date).take config.MAX_MONTHS_FORWARD.toNat).length then
        some (.num ((lookupD (calculate_days_to_expiry date last_trade_dates) (((orderedContracts prices_df last_trade_dates date).take config.MAX_MONTHS_FORWARD.toNat).getD (r - 1) "")).getD 0 : Int))
      else s.days_to_expiry_df.get date (.month_days r)) := by
  have hlad := ladderLoop_get_day prices_df date
    (calculate_days_to_expiry date last_trade_dates)
    ((orderedContracts prices_df last_trade_dates date).take config.MAX_MONTHS_FORWARD.toNat)
    1 s r
  rcases processDate_ok_shape h with ⟨hv, rfl⟩ | ⟨hv, he, rfl⟩ |
    ⟨hv, he, ⟨hl, hsp⟩ | ⟨hl, rfl⟩⟩
  · have hord := orderedContracts_nil_of_eligible_empty
      (eligible_empty_of_valid_empty last_trade_dates hv)
    rw [hord]
    simp
  · have hord := orderedContracts_nil_of_eligible_empty he
    rw [hord]
    simp
  · have hsu := spreadLoop_ok_untouched _ hsp
    refine ⟨?_, ?_, ?_⟩
    · rw [hsu.1]
      simpa using hlad.1
    · rw [hsu.1]
      simpa using hlad.2.1
    · rw [hsu.2]
      simpa using hlad.2.2
  · refine ⟨by simpa using hlad.1, by simpa using hlad.2.1,
      by simpa using hlad.2.2⟩

instance spreadGuard.instDecidable (prices_df : PriceTable)
    (ltd : List (Contract × Option Int)) (date : Int) (i : Nat) :
    Decidable (spreadGuard prices_df ltd date i) :=
  inferInstanceAs (Decidable (_ ∧ _))

theorem processDate_ok_dollar {prices_df : PriceTable}
    {last_trade_dates : List (Contract × Option Int)} {config : SpreadsConfig}
    {s t : EngineState} {date : Int}
    (h : processDate prices_df last_trade_dates config s date = .ok t) {i : Nat}
    (hi : i ∈ spreadIdxs (orderedContracts prices_df last_trade_dates date).length
      config.MAX_MONTHS_FORWARD) :
    t.spreads_dollar.get date (.spread_dollar (i + 1)) =
      if spreadGuard prices_df last_trade_dates date i ∧
          config.CALCULATE_DOLLAR_SPREADS = true then
        some (.num (farPrice prices_df last_trade_dates date i -
          m1Price prices_df last_trade_dates date))
      else s.spreads_dollar.get date (.spread_dollar (i + 1)) := by
  simp only [spreadGuard, m1Price, m1Days, m1Contract, farPrice, farDays,
    farContract]
  rcases processDate_ok_shape h with ⟨hv, rfl⟩ | ⟨hv, he, rfl⟩ |
    ⟨hv, he, ⟨hl, hsp⟩ | ⟨hl, rfl⟩⟩
  · rw [orderedContracts_nil_of_eligible_empty
      (eligible_empty_of_valid_empty last_trade_dates hv)] at hi
    have := mem_spreadIdxs.mp hi
    simp only [List.length_nil] at this
    omega
  · rw [orderedContracts_nil_of_eligible_empty he] at hi
    have := mem_spreadIdxs.mp hi
    simp only [List.length_nil] at this
    omega
  · have hlu := ladderLoop_untouched prices_df date
      (calculate_days_to_expiry date last_trade_dates)
      (((orderedContracts prices_df last_trade_dates date).take config.MAX_MONTHS_FORWARD.toNat).enumFrom 1) s
    rw [spreadLoop_ok_dollar_hit _ (spreadIdxs_nodup _ _) hi hsp, hlu.1]
  · have := mem_spreadIdxs.mp hi
    omega

theorem processDate_ok_pct {prices_df : PriceTable}
    {last_trade_dates : List (Contract × Option Int)} {config : SpreadsConfig}
    {s t : EngineState} {date : Int}
    (h : processDate prices_df last_trade_dates config s date = .ok t) {i : Nat}
    (hi : i ∈ spreadIdxs (orderedContracts prices_df last_trade_dates date).length
      config.MAX_MONTHS_FORWARD) :
    t.spreads_percent.get date (.spread_pct (i + 1)) =
      if spreadGuard prices_df last_trade_dates date i ∧
          config.CALCULATE_PERCENT_SPREADS = true then
        some (.num ((farPrice prices_df last_trade_dates date i -
          m1Price prices_df last_trade_dates date) /
          m1Price prices_df last_trade_dates date))
      else s.spreads_percent.get date (.spread_pct (i + 1)) := by
  simp only [spreadGuard, m1Price, m1Days, m1Contract, farPrice, farDays,
    farContract]
  rcases processDate_ok_shape h with ⟨hv, rfl⟩ | ⟨hv, he, rfl⟩ |
    ⟨hv, he, ⟨hl, hsp⟩ | ⟨hl, rfl⟩⟩
  · rw [orderedContracts_nil_of_eligible_empty
      (eligible_empty_of_valid_empty last_trade_dates hv)] at hi
    have := mem_spreadIdxs.mp hi
    simp only [List.length_nil] at this
    omega
  · rw [orderedContracts_nil_of_eligible_empty he] at hi
    have := mem_spreadIdxs.mp hi
    simp only [List.length_nil] at this
    omega
  · have hlu := ladderLoop_untouched prices_df date
      (calculate_days_to_expiry date last_trade_dates)
      (((orderedContracts prices_df last_trade_dates date).take config.MAX_MONTHS_FORWARD.toNat).enumFrom 1) s
    rw [spreadLoop_ok_pct_hit _ (spreadIdxs_nodup _ _) hi hsp, hlu.2.1]
  · have := mem_spreadIdxs.mp hi
    omega

theorem processDate_ok_annual {prices_df : PriceTable}
    {last_trade_dates : List (Contract × Option Int)} {config : SpreadsConfig}
    {s t : EngineState} {date : Int}
    (h : processDate prices_df last_trade_dates config s date = .ok t) {i : Nat}
    (hi : i ∈ spreadIdxs (orderedContracts prices_df last_trade_dates date).length
      config.MAX_MONTHS_FORWARD)
    (hpf : config.CALCULATE_PERCENT_SPREADS = true) :
    t.spreads_percent_annual.get date (.spread_pct_annual (i + 1)) =
      if spreadGuard prices_df last_trade_dates date i ∧
          config.CALCULATE_ANNUAL_SPREADS = true ∧
          0 < farDays prices_df last_trade_dates date i -
            m1Days prices_df last_trade_dates date then
        some (.num (((farPrice prices_df last_trade_dates date i -
          m1Price prices_df last_trade_dates date) /
          m1Price prices_df last_trade_dates date) *
          (config.TRADING_DAYS_PER_YEAR /
            ((farDays prices_df last_trade_dates date i -
              m1Days prices_df last_trade_dates date : Int) : ℚ))))
      else s.spreads_percent_annual.get date (.spread_pct_annual (i + 1)) := by
  simp only [spreadGuard, m1Price, m1Days, m1Contract, farPrice, farDays,
    farContract]
  rcases processDate_ok_shape h with ⟨hv, rfl⟩ | ⟨hv, he, rfl⟩ |
    ⟨hv, he, ⟨hl, hsp⟩ | ⟨hl, rfl⟩⟩
  · rw [orderedContracts_nil_of_eligible_empty
      (eligible_empty_of_valid_empty last_trade_dates hv)] at hi
    have := mem_spreadIdxs.mp hi
    simp only [List.length_nil] at this
    omega
  · rw [orderedContracts_nil_of_eligible_empty he] at hi
    have := mem_spreadIdxs.mp hi
    simp only [List.length_nil] at this
    omega
  · have hlu := ladderLoop_untouched prices_df date
      (calculate_days_to_expiry date last_trade_dates)
      (((orderedContracts prices_df last_trade_dates date).take config.MAX_MONTHS_FORWARD.toNat).enumFrom 1) s
    rw [spreadLoop_ok_annual_hit _ (spreadIdxs_nodup _ _) hi hpf hsp, hlu.2.2.1]
  · have := mem_spreadIdxs.mp hi
    omega

theorem processDate_ok_dollar_miss {prices_df : PriceTable}
    {last_trade_dates : List (Contract × Option Int)} {config : SpreadsConfig}
    {s t : EngineState} {date : Int}
    (h : processDate prices_df last_trade_dates config s date = .ok t)
    {k : ColKey}
    (hk : ∀ i ∈ spreadIdxs (orderedContracts prices_df last_trade_dates date).length
      config.MAX_MONTHS_FORWARD, k ≠ ColKey.spread_dollar (i + 1)) :
    t.spreads_dollar.get date k = s.spreads_dollar.get date k := by
  rcases processDate_ok_shape h with ⟨hv, rfl⟩ | ⟨hv, he, rfl⟩ |
    ⟨hv, he, ⟨hl, hsp⟩ | ⟨hl, rfl⟩⟩
  · rfl
  · rfl
  · have hlu := ladderLoop_untouched prices_df date
      (calculate_days_to_expiry date last_trade_dates)
      (((orderedContracts prices_df last_trade_dates date).take config.MAX_MONTHS_FORWARD.toNat).enumFrom 1) s
    rw [spreadLoop_ok_dollar_miss _ hk hsp, hlu.1]
  · have hlu := ladderLoop_untouched prices_df date
      (calculate_days_to_expiry date last_trade_dates)
      (((orderedContracts prices_df last_trade_dates date).take config.MAX_MONTHS_FORWARD.toNat).enumFrom 1) s
    rw [hlu.1]

theorem processDate_ok_pct_miss {prices_df : PriceTable}
    {last_trade_dates : List (Contract × Option Int)} {config : SpreadsConfig}
    {s t : EngineState} {date : Int}
    (h : processDate prices_df last_trade_dates config s date = .ok t)
    {k : ColKey}
    (hk : ∀ i ∈ spreadIdxs (orderedContracts prices_df last_trade_dates date).length
      config.MAX_MONTHS_FORWARD, k ≠ ColKey.spread_pct (i + 1)) :
    t.spreads_percent.get date k = s.spreads_percent.get date k := by
  rcases processDate_ok_shape h with ⟨hv, rfl⟩ | ⟨hv, he, rfl⟩ |
    ⟨hv, he, ⟨hl, hsp⟩ | ⟨hl, rfl⟩⟩
  · rfl
  · rfl
  · have hlu := ladderLoop_untouched prices_df date
      (calculate_days_to_expiry date last_trade_dates)
      (((orderedContracts prices_df last_trade_dates date).take config.MAX_MONTHS_FORWARD.toNat).enumFrom 1) s
    rw [spreadLoop_ok_pct_miss _ hk hsp, hlu.2.1]
  · have hlu := ladderLoop_untouched prices_df date
      (calculate_days_to_expiry date last_trade_dates)
      (((orderedContracts prices_df last_trade_dates date).take config.MAX_MONTHS_FORWARD.toNat).enumFrom 1) s
    rw [hlu.2.1]

theorem processDate_ok_annual_miss {prices_df : PriceTable}
    {last_trade_dates : List (Contract × Option Int)} {config : SpreadsConfig}
    {s t : EngineState} {date : Int}
    (h : processDate prices_df last_trade_dates config s date = .ok t)
    {k : ColKey}
    (hk : ∀ i ∈ spreadIdxs (orderedContracts prices_df last_trade_dates date).length
      config.MAX_MONTHS_FORWARD, k ≠ ColKey.spread_pct_annual (i + 1)) :
    t.spreads_percent_annual.get date k = s.spreads_percent_annual.get date k := by
  rcases processDate_ok_shape h with ⟨hv, rfl⟩ | ⟨hv, he, rfl⟩ |
    ⟨hv, he, ⟨hl, hsp⟩ | ⟨hl, rfl⟩⟩
  · rfl
  · rfl
  · have hlu := ladderLoop_untouched prices_df date
      (calculate_days_to_expiry date last_trade_dates)
      (((orderedContracts prices_df last_trade_dates date).take config.MAX_MONTHS_FORWARD.toNat).enumFrom 1) s
    rw [spreadLoop_ok_annual_miss _ hk hsp, hlu.2.2.1]
  · have hlu := ladderLoop_untouched prices_df date
      (calculate_days_to_expiry date last_trade_dates)
      (((orderedContracts prices_df last_trade_dates date).take config.MAX_MONTHS_FORWARD.toNat).enumFrom 1) s
    rw [hlu.2.2.1]

theorem processDate_ok_pct_none {prices_df : PriceTable}
    {last_trade_dates : List (Contract × Option Int)} {config : SpreadsConfig}
    {s t : EngineState} {date : Int}
    (h : processDate prices_df last_trade_dates config s date = .ok t)
    (hpf : config.CALCULATE_PERCENT_SPREADS = false)
    (hsp : s.pct_spread = none) :
    t.pct_spread = none ∧
      t.spreads_percent_annual = s.spreads_percent_annual := by
  rcases processDate_ok_shape h with ⟨hv, rfl⟩ | ⟨hv, he, rfl⟩ |
    ⟨hv, he, ⟨hl, hsp2⟩ | ⟨hl, rfl⟩⟩
  · exact ⟨hsp, rfl⟩
  · exact ⟨hsp, rfl⟩
  · have hlu := ladderLoop_untouched prices_df date
      (calculate_days_to_expiry date last_trade_dates)
      (((orderedContracts prices_df last_trade_dates date).take config.MAX_MONTHS_FORWARD.toNat).enumFrom 1) s
    have hno := spreadLoop_ok_annual_nopct _ hpf hsp2 (by rw [hlu.2.2.2, hsp])
    exact ⟨hno.2, hno.1.trans hlu.2.2.1⟩
  · have hlu := ladderLoop_untouched prices_df date
      (calculate_days_to_expiry date last_trade_dates)
      (((orderedContracts prices_df last_trade_dates date).take config.MAX_MONTHS_FORWARD.toNat).enumFrom 1) s
    exact ⟨hlu.2.2.2.trans hsp, hlu.2.2.1⟩

/-- A day's processing can only raise the `pct_spread` `NameError`: there
must be a far rank where the guard passed, the annualized branch was enabled
with positive day gap, and the percent branch was disabled. -/
theorem processDate_error_char {prices_df : PriceTable}
    {last_trade_dates : List (Contract × Option Int)} {config : SpreadsConfig}
    {s : EngineState} {date : Int} {e : String}
    (h : processDate prices_df last_trade_dates config s date = .error e) :
    ∃ i ∈ spreadIdxs (orderedContracts prices_df last_trade_dates date).length
      config.MAX_MONTHS_FORWARD,
      spreadGuard prices_df last_trade_dates date i ∧
      config.CALCULATE_ANNUAL_SPREADS = true ∧
      0 < farDays prices_df last_trade_dates date i -
        m1Days prices_df last_trade_dates date ∧
      config.CALCULATE_PERCENT_SPREADS = false := by
  simp only [processDate] at h
  by_cases hv : (validContracts prices_df date).isEmpty = true
  · rw [if_pos hv] at h; cases h
  · rw [if_neg hv] at h
    by_cases he : (eligibleContracts prices_df last_trade_dates date).isEmpty = true
    · rw [if_pos he] at h; cases h
    · rw [if_neg he] at h
      by_cases hl : 2 ≤ (orderedContracts prices_df last_trade_dates date).length
      · rw [if_pos hl] at h
        obtain ⟨j, hj, hfacts⟩ := spreadLoop_error_char _ h
        exact ⟨j, hj, hfacts.1, hfacts.2.1, hfacts.2.2.1, hfacts.2.2.2⟩
      · rw [if_neg hl] at h; cases h

/-- With the percent branch enabled, or the annualized branch disabled, a
day's processing never raises. -/
theorem processDate_ok_total {prices_df : PriceTable}
    {last_trade_dates : List (Contract × Option Int)} {config : SpreadsConfig}
    (hcfg : config.CALCULATE_PERCENT_SPREADS = true ∨
      config.CALCULATE_ANNUAL_SPREADS = false)
    (s : EngineState) (date : Int) :
    ∃ t, processDate prices_df last_trade_dates config s date = .ok t := by
  cases hr : processDate prices_df last_trade_dates config s date with
  | ok t => exact ⟨t, rfl⟩
  | error e =>
      obtain ⟨i, _, _, ha, _, hpf⟩ := processDate_error_char hr
      rcases hcfg with hp | ha2
      · rw [hpf] at hp; cases hp
      · rw [ha2] at ha; cases ha

/-! ### Day-loop lemmas -/

theorem dayLoop_append (prices_df : PriceTable)
    (last_trade_dates : List (Contract × Option Int)) (config : SpreadsConfig)
    (l1 l2 : List Int) : ∀ (s : EngineState),
      dayLoop prices_df last_trade_dates config (l1 ++ l2) s =
        match dayLoop prices_df last_trade_dates config l1 s with
        | .ok s1 => dayLoop prices_df last_trade_dates config l2 s1
        | .error e => .error e := by
  induction l1 with
  | nil => intro s; rfl
  | cons d rest ih =>
      intro s
      rw [List.cons_append]
      simp only [dayLoop]
      cases processDate prices_df last_trade_dates config s d with
      | ok s1 => exact ih s1
      | error e => rfl

theorem dayLoop_ok_not_mem {prices_df : PriceTable}
    {last_trade_dates : List (Contract × Option Int)} {config : SpreadsConfig}
    (days : List Int) {d : Int} (hd : d ∉ days) (k : ColKey) :
    ∀ {s t : EngineState},
      dayLoop prices_df last_trade_dates config days s = .ok t →
      t.monthly_futures.get d k = s.monthly_futures.get d k ∧
      t.spreads_dollar.get d k = s.spreads_dollar.get d k ∧
      t.spreads_percent.get d k = s.spreads_percent.get d k ∧
      t.spreads_percent_annual.get d k = s.spreads_percent_annual.get d k ∧
      t.days_to_expiry_df.get d k = s.days_to_expiry_df.get d k := by
  induction days with
  | nil =>
      intro s t h
      injection h with h
      subst h
      exact ⟨rfl, rfl, rfl, rfl, rfl⟩
  | cons d2 rest ih =>
      intro s t h
      simp only [dayLoop] at h
      cases hs : processDate prices_df last_trade_dates config s d2 with
      | ok s1 =>
          rw [hs] at h
          have hne : d ≠ d2 := fun hc => hd (hc ▸ List.mem_cons_self d2 rest)
          have hstep := processDate_ok_other_day hs hne k
          have hrest := ih (fun hc => hd (List.mem_cons_of_mem _ hc)) h
          exact ⟨hrest.1.trans hstep.1, hrest.2.1.trans hstep.2.1,
            hrest.2.2.1.trans hstep.2.2.1, hrest.2.2.2.1.trans hstep.2.2.2.1,
            hrest.2.2.2.2.trans hstep.2.2.2.2⟩
      | error e => rw [hs] at h; cases h

theorem dayLoop_ok_index {prices_df : PriceTable}
    {last_trade_dates : List (Contract × Option Int)} {config : SpreadsConfig}
    (days : List Int) {I : List Int} (hsub : ∀ d ∈ days, d ∈ I) :
    ∀ {s t : EngineState},
      dayLoop prices_df last_trade_dates config days s = .ok t →
      s.monthly_futures.index = I → s.spreads_dollar.index = I →
      s.spreads_percent.index = I → s.spreads_percent_annual.index = I →
      s.days_to_expiry_df.index = I →
      t.monthly_futures.index = I ∧ t.spreads_dollar.index = I ∧
      t.spreads_percent.index = I ∧ t.spreads_percent_annual.index = I ∧
      t.days_to_expiry_df.index = I := by
  induction days with
  | nil =>
      intro s t h h1 h2 h3 h4 h5
      injection h with h
      subst h
      exact ⟨h1, h2, h3, h4, h5⟩
  | cons d2 rest ih =>
      intro s t h h1 h2 h3 h4 h5
      simp only [dayLoop] at h
      cases hs : processDate prices_df last_trade_dates config s d2 with
      | ok s1 =>
          rw [hs] at h
          have hd2 : d2 ∈ I := hsub d2 (List.mem_cons_self d2 rest)
          have hstep := processDate_ok_index hs (h1 ▸ hd2) (h2 ▸ hd2)
            (h3 ▸ hd2) (h4 ▸ hd2) (h5 ▸ hd2)
          exact ih (fun d3 hd3 => hsub d3 (List.mem_cons_of_mem _ hd3)) h
            (hstep.1.trans h1) (hstep.2.1.trans h2) (hstep.2.2.1.trans h3)
            (hstep.2.2.2.1.trans h4) (hstep.2.2.2.2.trans h5)
      | error e => rw [hs] at h; cases h

theorem dayLoop_ok_pct_none {prices_df : PriceTable}
    {last_trade_dates : List (Contract × Option Int)} {config : SpreadsConfig}
    (days : List Int) (hpf : config.CALCULATE_PERCENT_SPREADS = false) :
    ∀ {s t : EngineState},
      dayLoop prices_df last_trade_dates config days s = .ok t →
      s.pct_spread = none →
      t.pct_spread = none ∧
        t.spreads_percent_annual = s.spreads_percent_annual := by
  induction days with
  | nil =>
      intro s t h hsp
      injection h with h
      subst h
      exact ⟨hsp, rfl⟩
  | cons d2 rest ih =>
      intro s t h hsp
      simp only [dayLoop] at h
      cases hs : processDate prices_df last_trade_dates config s d2 with
      | ok s1 =>
          rw [hs] at h
          have hstep := processDate_ok_pct_none hs hpf hsp
          have hrest := ih h hstep.1
          exact ⟨hrest.1, hrest.2.trans hstep.2⟩
      | error e => rw [hs] at h; cases h

theorem dayLoop_error_char {prices_df : PriceTable}
    {last_trade_dates : List (Contract × Option Int)} {config : SpreadsConfig}
    (days : List Int) : ∀ {s : EngineState} {e : String},
      dayLoop prices_df last_trade_dates config days s = .error e →
      ∃ d ∈ days, ∃ i ∈ spreadIdxs
        (orderedContracts prices_df last_trade_dates d).length
        config.MAX_MONTHS_FORWARD,
        spreadGuard prices_df last_trade_dates d i ∧
        config.CALCULATE_ANNUAL_SPREADS = true ∧
        0 < farDays prices_df last_trade_dates d i -
          m1Days prices_df last_trade_dates d ∧
        config.CALCULATE_PERCENT_SPREADS = false := by
  induction days with
  | nil => intro s e h; cases h
  | cons d2 rest ih =>
      intro s e h
      simp only [dayLoop] at h
      cases hs : processDate prices_df last_trade_dates config s d2 with
      | ok s1 =>
          rw [hs] at h
          obtain ⟨d3, hd3, hrest⟩ := ih h
          exact ⟨d3, List.mem_cons_of_mem _ hd3, hrest⟩
      | error e2 =>
          rw [hs] at h
          exact ⟨d2, List.mem_cons_self d2 rest, processDate_error_char hs⟩

theorem dayLoop_ok_total {prices_df : PriceTable}
    {last_trade_dates : List (Contract × Option Int)} {config : SpreadsConfig}
    (days : List Int)
    (hcfg : config.CALCULATE_PERCENT_SPREADS = true ∨
      config.CALCULATE_ANNUAL_SPREADS = false) :
    ∀ (s : EngineState), ∃ t,
      dayLoop prices_df last_trade_dates config days s = .ok t := by
  induction days with
  | nil => intro s; exact ⟨s, rfl⟩
  | cons d2 rest ih =>
      intro s
      obtain ⟨s1, hs1⟩ := processDate_ok_total hcfg s d2
      obtain ⟨t, ht⟩ := ih s1
      refine ⟨t, ?_⟩
      simp only [dayLoop]
      rw [hs1]
      exact ht

/-! ### Engine-level lemmas -/

theorem create_ok_elim {prices_df : PriceTable}
    {metadata : List (Contract × RawDate)} {config : SpreadsConfig}
    {out : EngineOut}
    (h : create_monthly_futures_data prices_df metadata config = .ok out) :
    ∃ sfin, dayLoop prices_df (get_last_trade_dates metadata) config
      prices_df.index (initState prices_df.index) = .ok sfin ∧
      out = sfin.toOut := by
  simp only [create_monthly_futures_data] at h
  cases hr : dayLoop prices_df (get_last_trade_dates metadata) config
      prices_df.index (initState prices_df.index) with
  | ok sfin =>
      rw [hr] at h
      injection h with h
      exact ⟨sfin, rfl, h.symm⟩
  | error e => rw [hr] at h; cases h

theorem create_error_elim {prices_df : PriceTable}
    {metadata : List (Contract × RawDate)} {config : SpreadsConfig}
    {e : String}
    (h : create_monthly_futures_data prices_df metadata config = .error e) :
    dayLoop prices_df (get_last_trade_dates metadata) config
      prices_df.index (initState prices_df.index) = .error e := by
  simp only [create_monthly_futures_data] at h
  cases hr : dayLoop prices_df (get_last_trade_dates metadata) config
      prices_df.index (initState prices_df.index) with
  | ok sfin => rw [hr] at h; cases h
  | error e2 =>
      rw [hr] at h
      injection h with h
      rw [h]

theorem initState_get_none (index : List Int) (d : Int) (k : ColKey) :
    (initState index).monthly_futures.get d k = none ∧
    (initState index).spreads_dollar.get d k = none ∧
    (initState index).spreads_percent.get d k = none ∧
    (initState index).spreads_percent_annual.get d k = none ∧
    (initState index).days_to_expiry_df.get d k = none :=
  ⟨rfl, rfl, rfl, rfl, rfl⟩

/-- Bridge from the whole run to a single day `d` of a duplicate-free index:
the cells of the output tables at row `d` are exactly what `processDate`
produced at `d`, starting from a state with no row-`d` cells. -/
theorem create_ok_day_bridge {prices_df : PriceTable}
    {metadata : List (Contract × RawDate)} {config : SpreadsConfig}
    {out : EngineOut} (hnd : prices_df.index.Nodup) {d : Int}
    (hmem : d ∈ prices_df.index)
    (hok : create_monthly_futures_data prices_df metadata config = .ok out) :
    ∃ s1 t, processDate prices_df (get_last_trade_dates metadata) config s1 d = .ok t ∧
      (∀ k, s1.monthly_futures.get d k = none) ∧
      (∀ k, s1.spreads_dollar.get d k = none) ∧
      (∀ k, s1.spreads_percent.get d k = none) ∧
      (∀ k, s1.spreads_percent_annual.get d k = none) ∧
      (∀ k, s1.days_to_expiry_df.get d k = none) ∧
      (config.CALCULATE_PERCENT_SPREADS = false → s1.pct_spread = none) ∧
      (∀ k, out.monthly_futures.get d k = t.monthly_futures.get d k) ∧
      (∀ k, out.spreads_dollar.get d k = t.spreads_dollar.get d k) ∧
      (∀ k, out.spreads_percent.get d k = t.spreads_percent.get d k) ∧
      (∀ k, out.spreads_percent_annual.get d k = t.spreads_percent_annual.get d k) ∧
      (∀ k, out.days_to_expiry_df.get d k = t.days_to_expiry_df.get d k) := by
  obtain ⟨sfin, hday, hout⟩ := create_ok_elim hok
  obtain ⟨l1, l2, hsplit⟩ := List.append_of_mem hmem
  have hnd2 := hsplit ▸ hnd
  have hnd3 := List.nodup_append.mp hnd2
  have hd1 : d ∉ l1 := fun hc => hnd3.2.2 hc (List.mem_cons_self d l2)
  have hd2 : d ∉ l2 := (List.nodup_cons.mp hnd3.2.1).1
  set s0 := initState prices_df.index with hs0
  rw [hsplit, dayLoop_append] at hday
  cases hL1 : dayLoop prices_df (get_last_trade_dates metadata) config l1
      s0 with
  | error e => rw [hL1] at hday; cases hday
  | ok s1 =>
      rw [hL1] at hday
      simp only [dayLoop] at hday
      cases hd3 : processDate prices_df (get_last_trade_dates metadata) config s1 d with
      | error e => rw [hd3] at hday; cases hday
      | ok t =>
          rw [hd3] at hday
          refine ⟨s1, t, hd3, ?_, ?_, ?_, ?_, ?_, ?_, ?_, ?_, ?_, ?_, ?_⟩
          · intro k
            exact (dayLoop_ok_not_mem l1 hd1 k hL1).1.trans
              (initState_get_none prices_df.index d k).1
          · intro k
            exact (dayLoop_ok_not_mem l1 hd1 k hL1).2.1.trans
              (initState_get_none prices_df.index d k).2.1
          · intro k
            exact (dayLoop_ok_not_mem l1 hd1 k hL1).2.2.1.trans
              (initState_get_none prices_df.index d k).2.2.1
          · intro k
            exact (dayLoop_ok_not_mem l1 hd1 k hL1).2.2.2.1.trans
              (initState_get_none prices_df.index d k).2.2.2.1
          · intro k
            exact (dayLoop_ok_not_mem l1 hd1 k hL1).2.2.2.2.trans
              (initState_get_none prices_df.index d k).2.2.2.2
          · intro hpf
            exact (dayLoop_ok_pct_none l1 hpf hL1 rfl).1
          · intro k
            rw [hout]
            exact (dayLoop_ok_not_mem l2 hd2 k hday).1
          · intro k
            rw [hout]
            exact (dayLoop_ok_not_mem l2 hd2 k hday).2.1
          · intro k
            rw [hout]
            exact (dayLoop_ok_not_mem l2 hd2 k hday).2.2.1
          · intro k
            rw [hout]
            exact (dayLoop_ok_not_mem l2 hd2 k hday).2.2.2.1
          · intro k
            rw [hout]
            exact (dayLoop_ok_not_mem l2 hd2 k hday).2.2.2.2

theorem create_ok_index {prices_df : PriceTable}
    {metadata : List (Contract × RawDate)} {config : SpreadsConfig}
    {out : EngineOut}
    (h : create_monthly_futures_data prices_df metadata config = .ok out) :
    out.monthly_futures.index = prices_df.index ∧
    out.spreads_dollar.index = prices_df.index ∧
    out.spreads_percent.index = prices_df.index ∧
    out.spreads_percent_annual.index = prices_df.index ∧
    out.days_to_expiry_df.index = prices_df.index := by
  obtain ⟨sfin, hday, hout⟩ := create_ok_elim h
  have := dayLoop_ok_index prices_df.index (fun d hd => hd) hday rfl rfl rfl rfl rfl
  rw [hout]
  exact this

theorem create_ok_not_mem_none {prices_df : PriceTable}
    {metadata : List (Contract × RawDate)} {config : SpreadsConfig}
    {out : EngineOut}
    (h : create_monthly_futures_data prices_df metadata config = .ok out)
    {d : Int} (hd : d ∉ prices_df.index) (k : ColKey) :
    out.monthly_futures.get d k = none ∧
    out.spreads_dollar.get d k = none ∧
    out.spreads_percent.get d k = none ∧
    out.spreads_percent_annual.get d k = none ∧
    out.days_to_expiry_df.get d k = none := by
  obtain ⟨sfin, hday, hout⟩ := create_ok_elim h
  have hn := dayLoop_ok_not_mem prices_df.index hd k hday
  have hi := initState_get_none prices_df.index d k
  rw [hout]
  exact ⟨hn.1.trans hi.1, hn.2.1.trans hi.2.1, hn.2.2.1.trans hi.2.2.1,
    hn.2.2.2.1.trans hi.2.2.2.1, hn.2.2.2.2.trans hi.2.2.2.2⟩

theorem create_error_char {prices_df : PriceTable}
    {metadata : List (Contract × RawDate)} {config : SpreadsConfig}
    {e : String}
    (h : create_monthly_futures_data prices_df metadata config = .error e) :
    ∃ d ∈ prices_df.index, ∃ i ∈ spreadIdxs
      (orderedContracts prices_df (get_last_trade_dates metadata) d).length
      config.MAX_MONTHS_FORWARD,
      spreadGuard prices_df (get_last_trade_dates metadata) d i ∧
      config.CALCULATE_ANNUAL_SPREADS = true ∧
      0 < farDays prices_df (get_last_trade_dates metadata) d i -
        m1Days prices_df (get_last_trade_dates metadata) d ∧
      config.CALCULATE_PERCENT_SPREADS = false :=
  dayLoop_error_char prices_df.index (create_error_elim h)

theorem create_ok_total {prices_df : PriceTable}
    {metadata : List (Contract × RawDate)} {config : SpreadsConfig}
    (hcfg : config.CALCULATE_PERCENT_SPREADS = true ∨
      config.CALCULATE_ANNUAL_SPREADS = false) :
    ∃ out, create_monthly_futures_data prices_df metadata config = .ok out := by
  obtain ⟨t, ht⟩ := dayLoop_ok_total prices_df.index hcfg
    (initState prices_df.index)
  refine ⟨t.toOut, ?_⟩
  simp only [create_monthly_futures_data]
  rw [ht]

/-! ### Ordering and resolver facts -/

theorem orderedContracts_sorted (prices_df : PriceTable)
    (last_trade_dates : List (Contract × Option Int)) (date : Int) :
    (orderedContracts prices_df last_trade_dates date).Sorted
      (dteLe (calculate_days_to_expiry date last_trade_dates)) :=
  List.sorted_insertionSort _ _

theorem orderedContracts_perm (prices_df : PriceTable)
    (last_trade_dates : List (Contract × Option Int)) (date : Int) :
    (orderedContracts prices_df last_trade_dates date).Perm
      (eligibleContracts prices_df last_trade_dates date) :=
  List.perm_insertionSort _ _

theorem mem_eligibleContracts {prices_df : PriceTable}
    {last_trade_dates : List (Contract × Option Int)} {date : Int}
    {c : Contract} :
    c ∈ eligibleContracts prices_df last_trade_dates date ↔
      c ∈ prices_df.columns ∧ (prices_df.cell date c).isSome = true ∧
      (lookupD (calculate_days_to_expiry date last_trade_dates) c).isSome = true := by
  rw [eligibleContracts, validContracts]
  simp only [List.mem_filter, and_assoc]

theorem calculate_days_to_expiry_nonneg {date : Int}
    {last_trade_dates : List (Contract × Option Int)} {p : Contract × Int}
    (h : p ∈ calculate_days_to_expiry date last_trade_dates) : 0 ≤ p.2 := by
  rw [calculate_days_to_expiry, List.mem_filterMap] at h
  obtain ⟨a, _, hf⟩ := h
  revert hf
  cases a.2 with
  | none => intro hf; cases hf
  | some L =>
      intro hf
      dsimp only at hf
      by_cases h1 : date ≤ L
      · rw [if_pos h1] at hf
        by_cases h2 : 0 ≤ L - date
        · rw [if_pos h2] at hf
          injection hf with hf
          rw [← hf]
          exact h2
        · rw [if_neg h2] at hf
          cases hf
      · rw [if_neg h1] at hf
        cases hf

theorem lookupD_some_mem {β : Type} {l : List (Contract × β)} {c : Contract}
    {b : β} (h : lookupD l c = some b) : (c, b) ∈ l := by
  rw [lookupD] at h
  cases hf : l.find? (fun p => p.1 = c) with
  | none => rw [hf] at h; cases h
  | some p =>
      rw [hf] at h
      injection h with h
      have hp := List.find?_some hf
      have hmem := List.mem_of_find?_eq_some hf
      simp only [decide_eq_true_eq] at hp
      have : p = (c, b) := by
        rw [← hp, ← h]
      rw [← this]
      exact hmem

/-! ### Claim C5 -/

/-- Modelled from the claim's words, for comparison with the code path
`calculate_days_to_expiry ∘ get_last_trade_dates`: keep exactly the contracts
whose last-tradeable-date is parsable, non-null and `≥ date`, mapped to
`L - date`. -/
def resolveSpec (date : Int) (metadata : List (Contract × RawDate)) :
    List (Contract × Int) :=
  metadata.filterMap fun p =>
    match p.2 with
    | .valid L => if date ≤ L then some (p.1, L - date) else none
    | .nullLike => none
    | .unparsable => none

/-- C5: the Expiry Resolver (`calculate_days_to_expiry` over the parsed
`get_last_trade_dates` map) returns exactly the contracts with parsable,
non-null last-tradeable-date `L ≥ date`, each mapped to the non-negative
`(L - date).days`; `L = date` is included with 0; expired, null and
unparsable entries are omitted, and the function is total (no error, no
default value). -/
theorem C5_expiry_resolver_exact (date : Int)
    (metadata : List (Contract × RawDate)) :
    calculate_days_to_expiry date (get_last_trade_dates metadata) =
      resolveSpec date metadata ∧
    (∀ c n, (c, n) ∈ calculate_days_to_expiry date (get_last_trade_dates metadata) ↔
      ((c, RawDate.valid (date + n)) ∈ metadata ∧ 0 ≤ n)) ∧
    (∀ c, (c, RawDate.valid date) ∈ metadata →
      (c, 0) ∈ calculate_days_to_expiry date (get_last_trade_dates metadata)) := by
  have heq : calculate_days_to_expiry date (get_last_trade_dates metadata) =
      resolveSpec date metadata := by
    rw [calculate_days_to_expiry, get_last_trade_dates, resolveSpec,
      List.filterMap_filterMap]
    congr 1
    funext p
    cases hp : p.2 with
    | valid L =>
        simp only [Option.some_bind]
        by_cases h1 : date ≤ L
        · simp [h1, show (0:Int) ≤ L - date from by omega]
        · simp [h1]
    | nullLike => rfl
    | unparsable => rfl
  have hmem : ∀ c n, (c, n) ∈ calculate_days_to_expiry date (get_last_trade_dates metadata) ↔
      ((c, RawDate.valid (date + n)) ∈ metadata ∧ 0 ≤ n) := by
    intro c n
    rw [heq, resolveSpec, List.mem_filterMap]
    constructor
    · rintro ⟨⟨c2, r⟩, hmem2, hf⟩
      cases r with
      | valid L =>
          dsimp only at hf
          by_cases h1 : date ≤ L
          · rw [if_pos h1] at hf
            injection hf with hf
            have hc : c2 = c := congrArg Prod.fst hf
            have hn : L - date = n := congrArg Prod.snd hf
            subst hc
            refine ⟨?_, by omega⟩
            have : L = date + n := by omega
            rwa [← this]
          · rw [if_neg h1] at hf
            cases hf
      | nullLike => cases hf
      | unparsable => cases hf
    · rintro ⟨hmem2, hn⟩
      refine ⟨(c, RawDate.valid (date + n)), hmem2, ?_⟩
      dsimp only
      rw [if_pos (by omega : date ≤ date + n)]
      have h2 : date + n - date = n := by omega
      rw [h2]
  refine ⟨heq, hmem, ?_⟩
  intro c hc
  exact (hmem c 0).mpr ⟨by simpa using hc, le_refl 0⟩

/-! ### Claim C3: the concrete three-day scenario -/

/-- The scenario price table: days 1, 2, 3; contracts A, B, C, priced
100/101/102 on every day. -/
def scenPT : PriceTable :=
  { index := [1, 2, 3]
    columns := ["A", "B", "C"]
    cell := fun _ c =>
      if c = "A" then some 100
      else if c = "B" then some 101
      else if c = "C" then some 102
      else none }

/-- The scenario metadata: A expires day 2, B day 10, C day 20. -/
def scenMeta : List (Contract × RawDate) :=
  [("A", .valid 2), ("B", .valid 10), ("C", .valid 20)]

/-- The scenario configuration: horizon 2, 252 trading days per year, all
spread kinds enabled. -/
def scenConfig : SpreadsConfig :=
  { TRADING_DAYS_PER_YEAR := 252, MAX_MONTHS_FORWARD := 2 }

/-- The full output of the engine on the scenario. -/
def scenOut : EngineOut :=
  { monthly_futures := { index := [1, 2, 3], cells := [(3, ColKey.month_price 2, Cell.num 102), (3, ColKey.month_future 2, Cell.str "C"), (3, ColKey.month_price 1, Cell.num 101), (3, ColKey.month_future 1, Cell.str "B"), (2, ColKey.month_price 2, Cell.num 101), (2, ColKey.month_future 2, Cell.str "B"), (2, ColKey.month_price 1, Cell.num 100), (2, ColKey.month_future 1, Cell.str "A"), (1, ColKey.month_price 2, Cell.num 101), (1, ColKey.month_future 2, Cell.str "B"), (1, ColKey.month_price 1, Cell.num 100), (1, ColKey.month_future 1, Cell.str "A")] }
    spreads_dollar := { index := [1, 2, 3], cells := [(3, ColKey.spread_dollar 2, Cell.num 1), (1, ColKey.spread_dollar 2, Cell.num 1)] }
    spreads_percent := { index := [1, 2, 3], cells := [(3, ColKey.spread_pct 2, Cell.num (1/101)), (1, ColKey.spread_pct 2, Cell.num (1/100))] }
    spreads_percent_annual := { index := [1, 2, 3], cells := [(3, ColKey.spread_pct_annual 2, Cell.num (126/505)), (1, ColKey.spread_pct_annual 2, Cell.num (63/200))] }
    days_to_expiry_df := { index := [1, 2, 3], cells := [(3, ColKey.month_days 2, Cell.num 17), (3, ColKey.month_days 1, Cell.num 7), (2, ColKey.month_days 2, Cell.num 8), (2, ColKey.month_days 1, Cell.num 0), (1, ColKey.month_days 2, Cell.num 9), (1, ColKey.month_days 1, Cell.num 1)] } }

/-- Evaluation of the engine on the scenario input. -/
theorem scen_eval :
    create_monthly_futures_data scenPT scenMeta scenConfig = .ok scenOut := by
  norm_num +decide [create_monthly_futures_data, dayLoop, processDate,
    ladderLoop, spreadLoop, spreadStep, dollarUpd, pctUpd, annualStep,
    spreadIdxs, initState, get_last_trade_dates, calculate_days_to_expiry,
    lookupD, dteLe, keyLe, keyLeB, validContracts, eligibleContracts,
    orderedContracts, scenPT, scenMeta, scenConfig, scenOut,
    List.insertionSort, List.orderedInsert, Table.locSet, Table.get,
    EngineState.toOut, List.filterMap, List.filter, List.find?,
    List.range', List.enumFrom]

/-- C3: on the spec's concrete input the engine produces exactly `scenOut`:
day 1 ladder [A(100, 1d), B(101, 9d)] with dollar spread 1, percent 1/100,
annualized 1/100 * 252/8 = 63/200 = 0.315; day 2 ladder [A(100, 0d),
B(101, 8d)] with A included at zero days to expiry; day 3 ladder
[B(101, 7d), C(102, 17d)] with dollar spread 1 in the same positional
column (rank-pair 1-2), the implicit roll. -/
theorem C3_scenario_exact :
    create_monthly_futures_data scenPT scenMeta scenConfig = .ok scenOut ∧
    scenOut.monthly_futures.get 1 (.month_future 1) = some (.str "A") ∧
    scenOut.monthly_futures.get 1 (.month_price 1) = some (.num 100) ∧
    scenOut.days_to_expiry_df.get 1 (.month_days 1) = some (.num 1) ∧
    scenOut.monthly_futures.get 1 (.month_future 2) = some (.str "B") ∧
    scenOut.monthly_futures.get 1 (.month_price 2) = some (.num 101) ∧
    scenOut.days_to_expiry_df.get 1 (.month_days 2) = some (.num 9) ∧
    scenOut.spreads_dollar.get 1 (.spread_dollar 2) = some (.num 1) ∧
    scenOut.spreads_percent.get 1 (.spread_pct 2) = some (.num (1/100)) ∧
    scenOut.spreads_percent_annual.get 1 (.spread_pct_annual 2) = some (.num (63/200)) ∧
    (63 : ℚ)/200 = 1/100 * (252/8) ∧ (63 : ℚ)/200 = 0.315 ∧
    scenOut.monthly_futures.get 2 (.month_future 1) = some (.str "A") ∧
    scenOut.monthly_futures.get 2 (.month_price 1) = some (.num 100) ∧
    scenOut.days_to_expiry_df.get 2 (.month_days 1) = some (.num 0) ∧
    scenOut.monthly_futures.get 2 (.month_future 2) = some (.str "B") ∧
    scenOut.monthly_futures.get 2 (.month_price 2) = some (.num 101) ∧
    scenOut.days_to_expiry_df.get 2 (.month_days 2) = some (.num 8) ∧
    scenOut.monthly_futures.get 3 (.month_future 1) = some (.str "B") ∧
    scenOut.monthly_futures.get 3 (.month_price 1) = some (.num 101) ∧
    scenOut.days_to_expiry_df.get 3 (.month_days 1) = some (.num 7) ∧
    scenOut.monthly_futures.get 3 (.month_future 2) = some (.str "C") ∧
    scenOut.monthly_futures.get 3 (.month_price 2) = some (.num 102) ∧
    scenOut.days_to_expiry_df.get 3 (.month_days 2) = some (.num 17) ∧
    scenOut.spreads_dollar.get 3 (.spread_dollar 2) = some (.num 1) := by
  refine ⟨scen_eval, ?_⟩
  · refine ⟨rfl, rfl, rfl, rfl, rfl, rfl, rfl, rfl, rfl, by norm_num,
      by norm_num, rfl, rfl, rfl, rfl, rfl, rfl, rfl, rfl, rfl, rfl, rfl,
      rfl, rfl⟩

/-! ### Claim C9 -/

theorem processDate_gap_identity {prices_df : PriceTable}
    {last_trade_dates : List (Contract × Option Int)} (config : SpreadsConfig)
    (s : EngineState) {date : Int}
    (he : (eligibleContracts prices_df last_trade_dates date).isEmpty = true) :
    processDate prices_df last_trade_dates config s date = .ok s := by
  simp only [processDate]
  by_cases hv : (validContracts prices_df date).isEmpty = true
  · rw [if_pos hv]
  · rw [if_neg hv, if_pos he]

theorem dayLoop_ok_empty_day {prices_df : PriceTable}
    {last_trade_dates : List (Contract × Option Int)} {config : SpreadsConfig}
    (days : List Int) {d : Int}
    (he : (eligibleContracts prices_df last_trade_dates d).isEmpty = true)
    (k : ColKey) : ∀ {s t : EngineState},
      dayLoop prices_df last_trade_dates config days s = .ok t →
      t.monthly_futures.get d k = s.monthly_futures.get d k ∧
      t.spreads_dollar.get d k = s.spreads_dollar.get d k ∧
      t.spreads_percent.get d k = s.spreads_percent.get d k ∧
      t.spreads_percent_annual.get d k = s.spreads_percent_annual.get d k ∧
      t.days_to_expiry_df.get d k = s.days_to_expiry_df.get d k := by
  induction days with
  | nil =>
      intro s t h
      injection h with h
      subst h
      exact ⟨rfl, rfl, rfl, rfl, rfl⟩
  | cons d2 rest ih =>
      intro s t h
      simp only [dayLoop] at h
      cases hs : processDate prices_df last_trade_dates config s d2 with
      | ok s1 =>
          rw [hs] at h
          by_cases hdd : d2 = d
          · subst hdd
            have hid := processDate_gap_identity config s he
            rw [hid] at hs
            injection hs with hs
            subst hs
            exact ih h
          · have hstep := processDate_ok_other_day hs (Ne.symm hdd) k
            have hrest := ih h
            exact ⟨hrest.1.trans hstep.1, hrest.2.1.trans hstep.2.1,
              hrest.2.2.1.trans hstep.2.2.1, hrest.2.2.2.1.trans hstep.2.2.2.1,
              hrest.2.2.2.2.trans hstep.2.2.2.2⟩
      | error e => rw [hs] at h; cases h

/-- C9: every output table carries exactly the input day index — no day is
added or removed — and a day with no eligible contracts keeps all its cells
absent (`none`), not zero, in all five tables. -/
theorem C9_day_index_preserved {prices_df : PriceTable}
    {metadata : List (Contract × RawDate)} {config : SpreadsConfig}
    {out : EngineOut}
    (hok : create_monthly_futures_data prices_df metadata config = .ok out) :
    (out.monthly_futures.index = prices_df.index ∧
     out.spreads_dollar.index = prices_df.index ∧
     out.spreads_percent.index = prices_df.index ∧
     out.spreads_percent_annual.index = prices_df.index ∧
     out.days_to_expiry_df.index = prices_df.index) ∧
    (∀ d : Int,
      (eligibleContracts prices_df (get_last_trade_dates metadata) d).isEmpty = true →
      ∀ k : ColKey,
        out.monthly_futures.get d k = none ∧
        out.spreads_dollar.get d k = none ∧
        out.spreads_percent.get d k = none ∧
        out.spreads_percent_annual.get d k = none ∧
        out.days_to_expiry_df.get d k = none) := by
  refine ⟨create_ok_index hok, ?_⟩
  intro d he k
  obtain ⟨sfin, hday, hout⟩ := create_ok_elim hok
  have hn := dayLoop_ok_empty_day prices_df.index he k hday
  have hi := initState_get_none prices_df.index d k
  rw [hout]
  exact ⟨hn.1.trans hi.1, hn.2.1.trans hi.2.1, hn.2.2.1.trans hi.2.2.1,
    hn.2.2.2.1.trans hi.2.2.2.1, hn.2.2.2.2.trans hi.2.2.2.2⟩

/-- The one-day, one-contract table with no usable expiry metadata: the day
is a quiet gap. -/
def gapPT : PriceTable :=
  { index := [1], columns := ["A"], cell := fun _ _ => some 100 }

/-- Concrete instantiation of the C9 theorem: on `gapPT` with empty metadata
the run succeeds, the output keeps the day index `[1]`, and the gap day's
ladder cell is absent. -/
theorem C9_day_index_preserved_witness :
    ∃ out, create_monthly_futures_data gapPT [] {} = .ok out ∧
      out.monthly_futures.index = [1] ∧
      out.monthly_futures.get 1 (.month_future 1) = none := by
  have hok : create_monthly_futures_data gapPT [] {} =
      .ok (initState [1]).toOut := rfl
  exact ⟨(initState [1]).toOut, hok, (C9_day_index_preserved hok).1.1,
    ((C9_day_index_preserved hok).2 1 rfl (.month_future 1)).1⟩

/-! ### Claim C6 -/

/-- Whether an engine run completed without raising. -/
def exceptIsOk : Except String EngineOut → Bool
  | .ok _ => true
  | .error _ => false

theorem processDate_max_nonpos {prices_df : PriceTable}
    {last_trade_dates : List (Contract × Option Int)} {config : SpreadsConfig}
    (hM : config.MAX_MONTHS_FORWARD ≤ 0) (s : EngineState) (date : Int) :
    processDate prices_df last_trade_dates config s date = .ok s := by
  simp only [processDate]
  by_cases hv : (validContracts prices_df date).isEmpty = true
  · rw [if_pos hv]
  · rw [if_neg hv]
    by_cases he : (eligibleContracts prices_df last_trade_dates date).isEmpty = true
    · rw [if_pos he]
    · rw [if_neg he]
      have h0 : config.MAX_MONTHS_FORWARD.toNat = 0 := by omega
      have hlad : ((orderedContracts prices_df last_trade_dates date).take
          config.MAX_MONTHS_FORWARD.toNat).enumFrom 1 = ([] : List (Nat × Contract)) := by
        rw [h0]
        rfl
      have hmin : (min ((orderedContracts prices_df last_trade_dates date).length : Int)
          config.MAX_MONTHS_FORWARD - 1).toNat = 0 := by omega
      have hidx : spreadIdxs (orderedContracts prices_df last_trade_dates date).length
          config.MAX_MONTHS_FORWARD = [] := by
        rw [spreadIdxs, hmin]
        rfl
      rw [hlad, hidx]
      by_cases hl : 2 ≤ (orderedContracts prices_df last_trade_dates date).length
      · rw [if_pos hl]
        rfl
      · rw [if_neg hl]
        rfl

theorem create_max_nonpos {prices_df : PriceTable}
    {metadata : List (Contract × RawDate)} {config : SpreadsConfig}
    (hM : config.MAX_MONTHS_FORWARD ≤ 0) :
    create_monthly_futures_data prices_df metadata config =
      .ok (initState prices_df.index).toOut := by
  simp only [create_monthly_futures_data]
  have hday : ∀ (days : List Int) (s : EngineState),
      dayLoop prices_df (get_last_trade_dates metadata) config days s = .ok s := by
    intro days
    induction days with
    | nil => intro s; rfl
    | cons d rest ih =>
        intro s
        simp only [dayLoop]
        rw [processDate_max_nonpos hM s d]
        exact ih s
  rw [hday prices_df.index (initState prices_df.index)]

/-- The scenario table with a non-monotonic day index. -/
def nonMonoPT : PriceTable :=
  { scenPT with index := [2, 1, 3] }

/-- A configuration violating both of the claim's "fatal" conditions:
non-positive horizon and non-positive trading-days-per-year. -/
def badConfig : SpreadsConfig :=
  { TRADING_DAYS_PER_YEAR := 0, MAX_MONTHS_FORWARD := 0 }

/-- Counterexample to C6 as stated: on a price table with a non-monotonic
day index and a configuration with non-positive horizon and non-positive
trading-days-per-year, the engine does not reject anything — it runs the
per-day loop and returns output tables. -/
theorem C6_counterexample_no_rejection :
    create_monthly_futures_data nonMonoPT scenMeta badConfig =
      .ok (initState [2, 1, 3]).toOut ∧
    exceptIsOk (create_monthly_futures_data nonMonoPT scenMeta badConfig) = true := by
  have h := @create_max_nonpos nonMonoPT scenMeta badConfig (by decide)
  exact ⟨h, by rw [h]; rfl⟩

/-- C6 amended: the engine performs no boundary validation.  On a
duplicate-free day index — monotonic or not — and any configuration value
the per-day loop is entered: a non-positive horizon produces the ok result
whose five tables carry the full input index and no cells, and any such run
with percent spreads enabled or annual spreads disabled completes without
error.  Nothing is rejected before the loop.  (A duplicated day label is a
different failure mode — `.loc` row access on it aborts mid-loop, not at the
boundary — so the completion statements are scoped to duplicate-free
indexes, where the embedding is exact.) -/
theorem C6_no_input_validation :
    (∀ (prices_df : PriceTable) (metadata : List (Contract × RawDate))
      (config : SpreadsConfig), prices_df.index.Nodup →
      config.MAX_MONTHS_FORWARD ≤ 0 →
      create_monthly_futures_data prices_df metadata config =
        .ok (initState prices_df.index).toOut) ∧
    (∀ (prices_df : PriceTable) (metadata : List (Contract × RawDate))
      (config : SpreadsConfig), prices_df.index.Nodup →
      config.CALCULATE_PERCENT_SPREADS = true ∨
        config.CALCULATE_ANNUAL_SPREADS = false →
      exceptIsOk (create_monthly_futures_data prices_df metadata config) = true) := by
  constructor
  · intro prices_df metadata config hnd hM
    exact create_max_nonpos hM
  · intro prices_df metadata config hnd hcfg
    obtain ⟨out, hout⟩ := @create_ok_total prices_df metadata config hcfg
    rw [hout]
    rfl

/-- Concrete instantiation of the amended C6 theorem on `gapPT` (duplicate
free day index `[1]`) with a negative horizon. -/
theorem C6_no_input_validation_witness :
    ([1] : List Int).Nodup ∧
    create_monthly_futures_data gapPT []
        { MAX_MONTHS_FORWARD := -5 } = .ok (initState [1]).toOut ∧
    exceptIsOk (create_monthly_futures_data gapPT [] {}) = true :=
  ⟨by decide,
   C6_no_input_validation.1 gapPT [] { MAX_MONTHS_FORWARD := -5 } (by decide) (by decide),
   C6_no_input_validation.2 gapPT [] {} (by decide) (Or.inl rfl)⟩

/-! ### Claim C8 -/

theorem spreadStep_guard_fail {prices_df : PriceTable} {date : Int}
    {days_to_expiry : List (Contract × Int)} {config : SpreadsConfig}
    {ordered_contracts : List Contract} {m1_price : ℚ} {m1_days : Int}
    {i : Nat} (s : EngineState)
    (h : ¬(m1_price ≠ 0 ∧ (lookupD days_to_expiry (ordered_contracts.getD i "")).getD 0 ≠ 0 ∧ m1_days ≠ 0)) :
    spreadStep prices_df date days_to_expiry config ordered_contracts
      m1_price m1_days i s = .ok s := by
  simp only [spreadStep]
  rw [if_neg h]

theorem spreadStep_gap_nonpos {prices_df : PriceTable} {date : Int}
    {days_to_expiry : List (Contract × Int)} {config : SpreadsConfig}
    {ordered_contracts : List Contract} {m1_price : ℚ} {m1_days : Int}
    {i : Nat} (s : EngineState)
    (h : (lookupD days_to_expiry (ordered_contracts.getD i "")).getD 0 - m1_days ≤ 0) :
    ∃ t, spreadStep prices_df date days_to_expiry config ordered_contracts
      m1_price m1_days i s = .ok t ∧
      t.spreads_percent_annual = s.spreads_percent_annual := by
  simp only [spreadStep]
  by_cases hg : m1_price ≠ 0 ∧ (lookupD days_to_expiry (ordered_contracts.getD i "")).getD 0 ≠ 0 ∧ m1_days ≠ 0
  · rw [if_pos hg]
    by_cases ha : config.CALCULATE_ANNUAL_SPREADS = true
    · rw [if_pos ha, annualStep_nonpos config date i (by omega)]
      exact ⟨_, rfl, (pctUpd_annual _ _ _ _ _).trans (dollarUpd_annual _ _ _ _ _)⟩
    · rw [if_neg ha]
      exact ⟨_, rfl, (pctUpd_annual _ _ _ _ _).trans (dollarUpd_annual _ _ _ _ _)⟩
  · rw [if_neg hg]
    exact ⟨s, rfl, rfl⟩

theorem processDate_lt_two {prices_df : PriceTable}
    {last_trade_dates : List (Contract × Option Int)} {config : SpreadsConfig}
    (s : EngineState) {date : Int}
    (hl : (orderedContracts prices_df last_trade_dates date).length < 2) :
    ∃ t, processDate prices_df last_trade_dates config s date = .ok t ∧
      t.spreads_dollar = s.spreads_dollar ∧
      t.spreads_percent = s.spreads_percent ∧
      t.spreads_percent_annual = s.spreads_percent_annual := by
  simp only [processDate]
  by_cases hv : (validContracts prices_df date).isEmpty = true
  · rw [if_pos hv]
    exact ⟨s, rfl, rfl, rfl, rfl⟩
  · rw [if_neg hv]
    by_cases he : (eligibleContracts prices_df last_trade_dates date).isEmpty = true
    · rw [if_pos he]
      exact ⟨s, rfl, rfl, rfl, rfl⟩
    · rw [if_neg he, if_neg (by omega : ¬2 ≤ (orderedContracts prices_df last_trade_dates date).length)]
      have hlu := ladderLoop_untouched prices_df date
        (calculate_days_to_expiry date last_trade_dates)
        (((orderedContracts prices_df last_trade_dates date).take config.MAX_MONTHS_FORWARD.toNat).enumFrom 1) s
      exact ⟨_, rfl, hlu.1, hlu.2.1, hlu.2.2.1⟩

/-- C8: each per-day data gap is recovered silently.  An empty valid or
eligible set leaves the day's state untouched; fewer than two eligible
contracts writes the ladder but no spread cells; a failed guard (zero near
price or a zero days-to-expiry leg) skips the rank without writing or
raising; a non-positive day gap yields no annualized cell and no error; and
an aborted run can only come from a guard-passing rank with positive day gap
under `CALCULATE_ANNUAL_SPREADS` with `CALCULATE_PERCENT_SPREADS` disabled —
never from one of the data gaps. -/
theorem C8_data_gaps_recovered_silently :
    (∀ (prices_df : PriceTable) (ltd : List (Contract × Option Int))
      (config : SpreadsConfig) (s : EngineState) (d : Int),
      (validContracts prices_df d).isEmpty = true →
      processDate prices_df ltd config s d = .ok s) ∧
    (∀ (prices_df : PriceTable) (ltd : List (Contract × Option Int))
      (config : SpreadsConfig) (s : EngineState) (d : Int),
      (eligibleContracts prices_df ltd d).isEmpty = true →
      processDate prices_df ltd config s d = .ok s) ∧
    (∀ (prices_df : PriceTable) (ltd : List (Contract × Option Int))
      (config : SpreadsConfig) (s : EngineState) (d : Int),
      (orderedContracts prices_df ltd d).length < 2 →
      ∃ t, processDate prices_df ltd config s d = .ok t ∧
        t.spreads_dollar = s.spreads_dollar ∧
        t.spreads_percent = s.spreads_percent ∧
        t.spreads_percent_annual = s.spreads_percent_annual) ∧
    (∀ (prices_df : PriceTable) (d : Int) (dte : List (Contract × Int))
      (config : SpreadsConfig) (oc : List Contract) (p : ℚ) (m : Int)
      (i : Nat) (rest : List Nat) (s : EngineState),
      ¬(p ≠ 0 ∧ (lookupD dte (oc.getD i "")).getD 0 ≠ 0 ∧ m ≠ 0) →
      spreadLoop prices_df d dte config oc p m (i :: rest) s =
        spreadLoop prices_df d dte config oc p m rest s) ∧
    (∀ (prices_df : PriceTable) (d : Int) (dte : List (Contract × Int))
      (config : SpreadsConfig) (oc : List Contract) (p : ℚ) (m : Int)
      (i : Nat) (s : EngineState),
      (lookupD dte (oc.getD i "")).getD 0 - m ≤ 0 →
      ∃ t, spreadStep prices_df d dte config oc p m i s = .ok t ∧
        t.spreads_percent_annual = s.spreads_percent_annual) ∧
    (∀ (prices_df : PriceTable) (metadata : List (Contract × RawDate))
      (config : SpreadsConfig) (e : String),
      create_monthly_futures_data prices_df metadata config = .error e →
      ∃ d ∈ prices_df.index, ∃ i ∈ spreadIdxs
        (orderedContracts prices_df (get_last_trade_dates metadata) d).length
        config.MAX_MONTHS_FORWARD,
        spreadGuard prices_df (get_last_trade_dates metadata) d i ∧
        config.CALCULATE_ANNUAL_SPREADS = true ∧
        0 < farDays prices_df (get_last_trade_dates metadata) d i -
          m1Days prices_df (get_last_trade_dates metadata) d ∧
        config.CALCULATE_PERCENT_SPREADS = false) := by
  refine ⟨?_, ?_, ?_, ?_, ?_, ?_⟩
  · intro prices_df ltd config s d hv
    simp only [processDate]
    rw [if_pos hv]
  · intro prices_df ltd config s d he
    exact processDate_gap_identity config s he
  · intro prices_df ltd config s d hl
    exact processDate_lt_two s hl
  · intro prices_df d dte config oc p m i rest s hg
    simp only [spreadLoop]
    rw [spreadStep_guard_fail s hg]
  · intro prices_df d dte config oc p m i s hgap
    exact spreadStep_gap_nonpos s hgap
  · intro prices_df metadata config e he
    exact create_error_char he

/-- The scenario configuration with percent spreads disabled but annual
spreads still enabled. -/
def noPctConfig : SpreadsConfig :=
  { TRADING_DAYS_PER_YEAR := 252, MAX_MONTHS_FORWARD := 2,
    CALCULATE_PERCENT_SPREADS := false }

/-- With percent spreads disabled and annual spreads enabled, the scenario
run aborts on day 1: the annualized branch reads `pct_spread`, which the
disabled percent branch never bound. -/
theorem scen_eval_nopct :
    create_monthly_futures_data scenPT scenMeta noPctConfig =
      .error "NameError: pct_spread referenced before assignment" := by
  norm_num +decide [create_monthly_futures_data, dayLoop, processDate,
    ladderLoop, spreadLoop, spreadStep, dollarUpd, pctUpd, annualStep,
    spreadIdxs, initState, get_last_trade_dates, calculate_days_to_expiry,
    lookupD, dteLe, keyLe, keyLeB, validContracts, eligibleContracts,
    orderedContracts, scenPT, scenMeta, noPctConfig,
    List.insertionSort, List.orderedInsert, Table.locSet, Table.get,
    EngineState.toOut, List.filterMap, List.filter, List.find?,
    List.range', List.enumFrom]

/-- A table whose only day has no present prices. -/
def naPT : PriceTable :=
  { index := [1], columns := ["A"], cell := fun _ _ => none }

/-- Metadata giving `gapPT`'s single contract a valid expiry. -/
def oneMeta : List (Contract × RawDate) := [("A", .valid 5)]

/-- Concrete instantiations of all six parts of the C8 theorem. -/
theorem C8_data_gaps_recovered_silently_witness :
    processDate naPT [] {} (initState [1]) 1 = .ok (initState [1]) ∧
    processDate gapPT [] {} (initState [1]) 1 = .ok (initState [1]) ∧
    (∃ t, processDate gapPT (get_last_trade_dates oneMeta) {} (initState [1]) 1 = .ok t ∧
      t.spreads_dollar = (initState [1]).spreads_dollar ∧
      t.spreads_percent = (initState [1]).spreads_percent ∧
      t.spreads_percent_annual = (initState [1]).spreads_percent_annual) ∧
    spreadLoop gapPT 1 [] {} ["A", "B"] 0 1 [1] (initState [1]) =
      spreadLoop gapPT 1 [] {} ["A", "B"] 0 1 [] (initState [1]) ∧
    (∃ t, spreadStep gapPT 1 [("A", (1 : Int)), ("B", 1)] {} ["A", "B"] 100 1 1 (initState [1]) = .ok t ∧
      t.spreads_percent_annual = (initState [1]).spreads_percent_annual) ∧
    (∃ d ∈ scenPT.index, ∃ i ∈ spreadIdxs
      (orderedContracts scenPT (get_last_trade_dates scenMeta) d).length
      noPctConfig.MAX_MONTHS_FORWARD,
      spreadGuard scenPT (get_last_trade_dates scenMeta) d i ∧
      noPctConfig.CALCULATE_ANNUAL_SPREADS = true ∧
      0 < farDays scenPT (get_last_trade_dates scenMeta) d i -
        m1Days scenPT (get_last_trade_dates scenMeta) d ∧
      noPctConfig.CALCULATE_PERCENT_SPREADS = false) :=
  ⟨C8_data_gaps_recovered_silently.1 naPT [] {} (initState [1]) 1 rfl,
   C8_data_gaps_recovered_silently.2.1 gapPT [] {} (initState [1]) 1 rfl,
   C8_data_gaps_recovered_silently.2.2.1 gapPT (get_last_trade_dates oneMeta) {} (initState [1]) 1 (by decide),
   C8_data_gaps_recovered_silently.2.2.2.1 gapPT 1 [] {} ["A", "B"] 0 1 1 [] (initState [1]) (by simp),
   C8_data_gaps_recovered_silently.2.2.2.2.1 gapPT 1 [("A", (1 : Int)), ("B", 1)] {} ["A", "B"] 100 1 1 (initState [1]) (by decide),
   C8_data_gaps_recovered_silently.2.2.2.2.2 scenPT scenMeta noPctConfig _ scen_eval_nopct⟩

/-! ### Claim C1 -/

theorem getD_take {α : Type} (l : List α) (n j : Nat) (a : α) (h : j < n) :
    (l.take n).getD j a = l.getD j a := by
  simp [List.getD_eq_getElem?_getD, List.getElem?_take, h]

/-- C1: with dollar and percent spreads enabled, every emitted dollar spread
cell at `(day, far rank i)` equals `far_price - near_price` for the rank-1
and rank-`i` ladder prices of that day, the near price is non-zero, and the
percent cell for the same `(day, i)` is present with value
`(far_price - near_price) / near_price`. -/
theorem C1_dollar_and_percent_consistent {prices_df : PriceTable}
    {metadata : List (Contract × RawDate)} {config : SpreadsConfig}
    {out : EngineOut} {d : Int} {i : Nat} {v : ℚ}
    (hd : config.CALCULATE_DOLLAR_SPREADS = true)
    (hp : config.CALCULATE_PERCENT_SPREADS = true)
    (hnd : prices_df.index.Nodup)
    (hok : create_monthly_futures_data prices_df metadata config = .ok out)
    (hcell : out.spreads_dollar.get d (.spread_dollar i) = some (.num v)) :
    ∃ nearP farP : ℚ,
      out.monthly_futures.get d (.month_price 1) = some (.num nearP) ∧
      out.monthly_futures.get d (.month_price i) = some (.num farP) ∧
      v = farP - nearP ∧ nearP ≠ 0 ∧
      out.spreads_percent.get d (.spread_pct i) =
        some (.num ((farP - nearP) / nearP)) := by
  have hmem : d ∈ prices_df.index := by
    by_contra hno
    rw [(create_ok_not_mem_none hok hno (.spread_dollar i)).2.1] at hcell
    cases hcell
  obtain ⟨s1, t, hpd, hn_m, hn_d, hn_p, hn_a, hn_dd, hpctn, ho_m, ho_d, ho_p,
    ho_a, ho_dd⟩ := create_ok_day_bridge hnd hmem hok
  have tcell : t.spreads_dollar.get d (.spread_dollar i) = some (.num v) :=
    (ho_d _).symm.trans hcell
  by_cases hex : ∃ j ∈ spreadIdxs
      (orderedContracts prices_df (get_last_trade_dates metadata) d).length
      config.MAX_MONTHS_FORWARD, i = j + 1
  · obtain ⟨j, hj, rfl⟩ := hex
    have hit := processDate_ok_dollar hpd hj
    rw [tcell, hn_d (.spread_dollar (j + 1))] at hit
    by_cases hg : spreadGuard prices_df (get_last_trade_dates metadata) d j
    · rw [if_pos ⟨hg, hd⟩] at hit
      injection hit with hit
      injection hit with hit
      have hji := mem_spreadIdxs.mp hj
      have hlen : ((orderedContracts prices_df (get_last_trade_dates metadata) d).take
          config.MAX_MONTHS_FORWARD.toNat).length =
          config.MAX_MONTHS_FORWARD.toNat ⊓
          (orderedContracts prices_df (get_last_trade_dates metadata) d).length :=
        List.length_take _ _
      have hjlt : j < config.MAX_MONTHS_FORWARD.toNat ⊓
          (orderedContracts prices_df (get_last_trade_dates metadata) d).length := by
        omega
      have hlad1 := (processDate_ok_ladder hpd 1).2.1
      have hladj := (processDate_ok_ladder hpd (j + 1)).2.1
      rw [if_pos (by omega),
        getD_take _ _ _ _ (by omega : (1:Nat) - 1 < config.MAX_MONTHS_FORWARD.toNat)] at hlad1
      rw [if_pos (by omega),
        getD_take _ _ _ _ (by omega : (j + 1) - 1 < config.MAX_MONTHS_FORWARD.toNat)] at hladj
      have hpc := processDate_ok_pct hpd hj
      rw [if_pos ⟨hg, hp⟩] at hpc
      refine ⟨m1Price prices_df (get_last_trade_dates metadata) d,
        farPrice prices_df (get_last_trade_dates metadata) d j, ?_, ?_, ?_, ?_, ?_⟩
      · rw [ho_m, hlad1]
        rfl
      · rw [ho_m, hladj]
        rfl
      · exact hit
      · exact hg.1
      · rw [ho_p, hpc]
    · rw [if_neg (fun hc => hg hc.1)] at hit
      cases hit
  · have hk : ∀ j ∈ spreadIdxs
        (orderedContracts prices_df (get_last_trade_dates metadata) d).length
        config.MAX_MONTHS_FORWARD,
        ColKey.spread_dollar i ≠ ColKey.spread_dollar (j + 1) :=
      fun j hj hkey => hex ⟨j, hj, by simpa using hkey⟩
    have hmiss := processDate_ok_dollar_miss hpd hk
    rw [tcell, hn_d (.spread_dollar i)] at hmiss
    cases hmiss

/-- Concrete instantiation of C1 on the scenario at day 1, far rank 2. -/
theorem C1_dollar_and_percent_consistent_witness :
    ∃ nearP farP : ℚ,
      scenOut.monthly_futures.get 1 (.month_price 1) = some (.num nearP) ∧
      scenOut.monthly_futures.get 1 (.month_price 2) = some (.num farP) ∧
      (1 : ℚ) = farP - nearP ∧ nearP ≠ 0 ∧
      scenOut.spreads_percent.get 1 (.spread_pct 2) =
        some (.num ((farP - nearP) / nearP)) :=
  C1_dollar_and_percent_consistent rfl rfl (by decide) scen_eval rfl

/-! ### Claim C2 -/

/-- C2: an annualized spread cell is present at `(day, far rank i)` only
when the leg day-counts of that day's ladder satisfy `far_days - near_days >
0`, and then its value is `percent_spread * (TRADING_DAYS_PER_YEAR /
(far_days - near_days))`; at a rank whose day gap is zero or negative the
annualized cell is absent — and processing such a rank never raises. -/
theorem C2_annualized_gap_guard {prices_df : PriceTable}
    {metadata : List (Contract × RawDate)} {config : SpreadsConfig}
    {out : EngineOut}
    (hnd : prices_df.index.Nodup)
    (hok : create_monthly_futures_data prices_df metadata config = .ok out) :
    (∀ (d : Int) (i : Nat) (v : ℚ),
      out.spreads_percent_annual.get d (.spread_pct_annual i) = some (.num v) →
      ∃ (nearP farP : ℚ) (nd fd : Int),
        out.monthly_futures.get d (.month_price 1) = some (.num nearP) ∧
        out.monthly_futures.get d (.month_price i) = some (.num farP) ∧
        out.days_to_expiry_df.get d (.month_days 1) = some (.num (nd : ℚ)) ∧
        out.days_to_expiry_df.get d (.month_days i) = some (.num (fd : ℚ)) ∧
        0 < fd - nd ∧
        v = ((farP - nearP) / nearP) *
          (config.TRADING_DAYS_PER_YEAR / ((fd - nd : Int) : ℚ))) ∧
    (∀ (d : Int) (j : Nat), j ∈ spreadIdxs
        (orderedContracts prices_df (get_last_trade_dates metadata) d).length
        config.MAX_MONTHS_FORWARD →
      farDays prices_df (get_last_trade_dates metadata) d j -
        m1Days prices_df (get_last_trade_dates metadata) d ≤ 0 →
      out.spreads_percent_annual.get d (.spread_pct_annual (j + 1)) = none) ∧
    (∀ (d : Int) (dte : List (Contract × Int)) (oc : List Contract) (p : ℚ)
      (m : Int) (j : Nat) (s : EngineState),
      (lookupD dte (oc.getD j "")).getD 0 - m ≤ 0 →
      ∃ t, spreadStep prices_df d dte config oc p m j s = .ok t ∧
        t.spreads_percent_annual = s.spreads_percent_annual) := by
  refine ⟨?_, ?_, ?_⟩
  · intro d i v hcell
    have hmem : d ∈ prices_df.index := by
      by_contra hno
      rw [(create_ok_not_mem_none hok hno (.spread_pct_annual i)).2.2.2.1] at hcell
      cases hcell
    obtain ⟨s1, t, hpd, hn_m, hn_d, hn_p, hn_a, hn_dd, hpctn, ho_m, ho_d, ho_p,
      ho_a, ho_dd⟩ := create_ok_day_bridge hnd hmem hok
    have tcell : t.spreads_percent_annual.get d (.spread_pct_annual i) = some (.num v) :=
      (ho_a _).symm.trans hcell
    by_cases hpf : config.CALCULATE_PERCENT_SPREADS = true
    · by_cases hex : ∃ j ∈ spreadIdxs
          (orderedContracts prices_df (get_last_trade_dates metadata) d).length
          config.MAX_MONTHS_FORWARD, i = j + 1
      · obtain ⟨j, hj, rfl⟩ := hex
        have hit := processDate_ok_annual hpd hj hpf
        rw [tcell, hn_a (.spread_pct_annual (j + 1))] at hit
        by_cases hc : spreadGuard prices_df (get_last_trade_dates metadata) d j ∧
            config.CALCULATE_ANNUAL_SPREADS = true ∧
            0 < farDays prices_df (get_last_trade_dates metadata) d j -
              m1Days prices_df (get_last_trade_dates metadata) d
        · rw [if_pos hc] at hit
          injection hit with hit
          injection hit with hit
          have hji := mem_spreadIdxs.mp hj
          have hlen : ((orderedContracts prices_df (get_last_trade_dates metadata) d).take
              config.MAX_MONTHS_FORWARD.toNat).length =
              config.MAX_MONTHS_FORWARD.toNat ⊓
              (orderedContracts prices_df (get_last_trade_dates metadata) d).length :=
            List.length_take _ _
          have hlad1p := (processDate_ok_ladder hpd 1).2.1
          have hladjp := (processDate_ok_ladder hpd (j + 1)).2.1
          have hlad1d := (processDate_ok_ladder hpd 1).2.2
          have hladjd := (processDate_ok_ladder hpd (j + 1)).2.2
          rw [if_pos (by omega),
            getD_take _ _ _ _ (by omega : (1:Nat) - 1 < config.MAX_MONTHS_FORWARD.toNat)] at hlad1p
          rw [if_pos (by omega),
            getD_take _ _ _ _ (by omega : (j + 1) - 1 < config.MAX_MONTHS_FORWARD.toNat)] at hladjp
          rw [if_pos (by omega),
            getD_take _ _ _ _ (by omega : (1:Nat) - 1 < config.MAX_MONTHS_FORWARD.toNat)] at hlad1d
          rw [if_pos (by omega),
            getD_take _ _ _ _ (by omega : (j + 1) - 1 < config.MAX_MONTHS_FORWARD.toNat)] at hladjd
          refine ⟨m1Price prices_df (get_last_trade_dates metadata) d,
            farPrice prices_df (get_last_trade_dates metadata) d j,
            m1Days prices_df (get_last_trade_dates metadata) d,
            farDays prices_df (get_last_trade_dates metadata) d j,
            ?_, ?_, ?_, ?_, ?_, ?_⟩
          · rw [ho_m, hlad1p]
            rfl
          · rw [ho_m, hladjp]
            rfl
          · rw [ho_dd, hlad1d]
            rfl
          · rw [ho_dd, hladjd]
            rfl
          · exact hc.2.2
          · exact hit
        · rw [if_neg hc] at hit
          cases hit
      · have hk : ∀ j ∈ spreadIdxs
            (orderedContracts prices_df (get_last_trade_dates metadata) d).length
            config.MAX_MONTHS_FORWARD,
            ColKey.spread_pct_annual i ≠ ColKey.spread_pct_annual (j + 1) :=
          fun j hj hkey => hex ⟨j, hj, by simpa using hkey⟩
        have hmiss := processDate_ok_annual_miss hpd hk
        rw [tcell, hn_a (.spread_pct_annual i)] at hmiss
        cases hmiss
    · have hpf2 : config.CALCULATE_PERCENT_SPREADS = false := by
        revert hpf
        cases config.CALCULATE_PERCENT_SPREADS <;> simp
      obtain ⟨sfin, hday, hout⟩ := create_ok_elim hok
      have hann := (dayLoop_ok_pct_none prices_df.index hpf2 hday rfl).2
      rw [hout] at hcell
      have : sfin.spreads_percent_annual.get d (.spread_pct_annual i) = none := by
        rw [hann]
        rfl
      rw [show sfin.toOut.spreads_percent_annual = sfin.spreads_percent_annual from rfl,
        this] at hcell
      cases hcell
  · intro d j hj hgap
    by_cases hmem : d ∈ prices_df.index
    · obtain ⟨s1, t, hpd, hn_m, hn_d, hn_p, hn_a, hn_dd, hpctn, ho_m, ho_d, ho_p,
        ho_a, ho_dd⟩ := create_ok_day_bridge hnd hmem hok
      rw [ho_a]
      by_cases hpf : config.CALCULATE_PERCENT_SPREADS = true
      · have hit := processDate_ok_annual hpd hj hpf
        rw [if_neg (fun hc => by omega : ¬(spreadGuard prices_df (get_last_trade_dates metadata) d j ∧
            config.CALCULATE_ANNUAL_SPREADS = true ∧
            0 < farDays prices_df (get_last_trade_dates metadata) d j -
              m1Days prices_df (get_last_trade_dates metadata) d))] at hit
        rw [hit]
        exact hn_a _
      · have hpf2 : config.CALCULATE_PERCENT_SPREADS = false := by
          revert hpf
          cases config.CALCULATE_PERCENT_SPREADS <;> simp
        have hno := processDate_ok_pct_none hpd hpf2 (hpctn hpf2)
        rw [hno.2]
        exact hn_a _
    · exact (create_ok_not_mem_none hok hmem (.spread_pct_annual (j + 1))).2.2.2.1
  · intro d dte oc p m j s hgap
    exact spreadStep_gap_nonpos s hgap

/-- A one-day table with two contracts sharing the same expiry (zero day
gap between the legs). -/
def tiePT : PriceTable :=
  { index := [1], columns := ["A", "B"],
    cell := fun _ c => if c = "A" then some 100 else if c = "B" then some 101 else none }

/-- Metadata for `tiePT`: both contracts expire on day 5. -/
def tieMeta : List (Contract × RawDate) := [("A", .valid 5), ("B", .valid 5)]

/-- The engine's output on the tie-expiry input: dollar and percent cells
are written, the annualized table stays empty. -/
def tieOut : EngineOut :=
  { monthly_futures := { index := [1], cells := [(1, ColKey.month_price 2, Cell.num 101), (1, ColKey.month_future 2, Cell.str "B"), (1, ColKey.month_price 1, Cell.num 100), (1, ColKey.month_future 1, Cell.str "A")] }
    spreads_dollar := { index := [1], cells := [(1, ColKey.spread_dollar 2, Cell.num 1)] }
    spreads_percent := { index := [1], cells := [(1, ColKey.spread_pct 2, Cell.num (1/100))] }
    spreads_percent_annual := { index := [1], cells := [] }
    days_to_expiry_df := { index := [1], cells := [(1, ColKey.month_days 2, Cell.num 4), (1, ColKey.month_days 1, Cell.num 4)] } }

theorem tie_eval : create_monthly_futures_data tiePT tieMeta {} = .ok tieOut := by
  norm_num +decide [create_monthly_futures_data, dayLoop, processDate,
    ladderLoop, spreadLoop, spreadStep, dollarUpd, pctUpd, annualStep,
    spreadIdxs, initState, get_last_trade_dates, calculate_days_to_expiry,
    lookupD, dteLe, keyLe, keyLeB, validContracts, eligibleContracts,
    orderedContracts, tiePT, tieMeta, tieOut,
    List.insertionSort, List.orderedInsert, Table.locSet, Table.get,
    EngineState.toOut, List.filterMap, List.filter, List.find?,
    List.range', List.enumFrom]

/-- Concrete instantiations of the three parts of C2: the scenario's day-1
annualized cell, the tie-expiry input's absent annualized cell (zero day
gap), and the no-raise behaviour of a zero-gap iteration. -/
theorem C2_annualized_gap_guard_witness :
    (∃ (nearP farP : ℚ) (nd fd : Int),
      scenOut.monthly_futures.get 1 (.month_price 1) = some (.num nearP) ∧
      scenOut.monthly_futures.get 1 (.month_price 2) = some (.num farP) ∧
      scenOut.days_to_expiry_df.get 1 (.month_days 1) = some (.num (nd : ℚ)) ∧
      scenOut.days_to_expiry_df.get 1 (.month_days 2) = some (.num (fd : ℚ)) ∧
      0 < fd - nd ∧
      (63 : ℚ)/200 = ((farP - nearP) / nearP) *
        (scenConfig.TRADING_DAYS_PER_YEAR / ((fd - nd : Int) : ℚ))) ∧
    tieOut.spreads_percent_annual.get 1 (.spread_pct_annual 2) = none ∧
    (∃ t, spreadStep tiePT 1 [("A", (4 : Int)), ("B", 4)] {} ["A", "B"] 100 4 1 (initState [1]) = .ok t ∧
      t.spreads_percent_annual = (initState [1]).spreads_percent_annual) :=
  ⟨(C2_annualized_gap_guard (by decide) scen_eval).1 1 2 (63/200) rfl,
   (C2_annualized_gap_guard (by decide) tie_eval).2.1 1 1 (by decide) (by decide),
   (C2_annualized_gap_guard (by decide) tie_eval).2.2 1 [("A", (4 : Int)), ("B", 4)] ["A", "B"] 100 4 1 (initState [1]) (by decide)⟩

/-! ### Claim C4 -/

/-- C4: every ladder entry of day `d` names a contract with a present price
cell and a non-negative days-to-expiry, with matching price and day-count
cells at the same rank, and ranks run from 1 up to at most
`MAX_MONTHS_FORWARD`; the day-count cells are non-decreasing in rank; and
the rank-1 day count is minimal among all eligible contracts of the day. -/
theorem C4_ladder_well_formed {prices_df : PriceTable}
    {metadata : List (Contract × RawDate)} {config : SpreadsConfig}
    {out : EngineOut}
    (hnd : prices_df.index.Nodup)
    (hok : create_monthly_futures_data prices_df metadata config = .ok out) :
    (∀ (d : Int) (i : Nat) (c : Contract),
      out.monthly_futures.get d (.month_future i) = some (.str c) →
      (prices_df.cell d c).isSome = true ∧
      (∃ n : Int,
        lookupD (calculate_days_to_expiry d (get_last_trade_dates metadata)) c = some n ∧
        0 ≤ n ∧
        out.monthly_futures.get d (.month_price i) =
          some (.num ((prices_df.cell d c).getD 0)) ∧
        out.days_to_expiry_df.get d (.month_days i) = some (.num (n : ℚ))) ∧
      1 ≤ i ∧ (i : Int) ≤ config.MAX_MONTHS_FORWARD) ∧
    (∀ (d : Int) (i j : Nat) (a b : Int), i ≤ j →
      out.days_to_expiry_df.get d (.month_days i) = some (.num (a : ℚ)) →
      out.days_to_expiry_df.get d (.month_days j) = some (.num (b : ℚ)) →
      a ≤ b) ∧
    (∀ (d : Int) (a : Int),
      out.days_to_expiry_df.get d (.month_days 1) = some (.num (a : ℚ)) →
      ∀ c ∈ eligibleContracts prices_df (get_last_trade_dates metadata) d,
      ∀ n : Int,
        lookupD (calculate_days_to_expiry d (get_last_trade_dates metadata)) c = some n →
        a ≤ n) := by
  have keyfact : ∀ (d : Int) (s1 t : EngineState)
      (hpd : processDate prices_df (get_last_trade_dates metadata) config s1 d = .ok t)
      (hn_dd : ∀ k, s1.days_to_expiry_df.get d k = none) (i : Nat) (a : Int),
      t.days_to_expiry_df.get d (.month_days i) = some (.num (a : ℚ)) →
      1 ≤ i ∧ i - 1 < ((orderedContracts prices_df (get_last_trade_dates metadata) d).take
        config.MAX_MONTHS_FORWARD.toNat).length ∧
      lookupD (calculate_days_to_expiry d (get_last_trade_dates metadata))
        (((orderedContracts prices_df (get_last_trade_dates metadata) d).take
          config.MAX_MONTHS_FORWARD.toNat).getD (i - 1) "") = some a := by
    intro d s1 t hpd hn_dd i a hcell
    have hlad := (processDate_ok_ladder hpd i).2.2
    rw [hcell, hn_dd (.month_days i)] at hlad
    by_cases hcond : 1 ≤ i ∧ i - 1 <
        ((orderedContracts prices_df (get_last_trade_dates metadata) d).take
          config.MAX_MONTHS_FORWARD.toNat).length
    · rw [if_pos hcond] at hlad
      injection hlad with hlad
      injection hlad with hlad
      have hmem2 : ((orderedContracts prices_df (get_last_trade_dates metadata) d).take
          config.MAX_MONTHS_FORWARD.toNat).getD (i - 1) "" ∈
          eligibleContracts prices_df (get_last_trade_dates metadata) d := by
        rw [List.getD_eq_getElem _ _ hcond.2]
        exact (orderedContracts_perm prices_df (get_last_trade_dates metadata) d).mem_iff.mp
          (List.take_subset _ _ (List.getElem_mem hcond.2))
      obtain ⟨n, hn⟩ := Option.isSome_iff_exists.mp (mem_eligibleContracts.mp hmem2).2.2
      refine ⟨hcond.1, hcond.2, ?_⟩
      rw [hn] at hlad
      have han : a = n := by exact_mod_cast hlad
      rw [hn, han]
    · rw [if_neg hcond] at hlad
      cases hlad
  refine ⟨?_, ?_, ?_⟩
  · intro d i c hcell
    have hmem : d ∈ prices_df.index := by
      by_contra hno
      rw [(create_ok_not_mem_none hok hno (.month_future i)).1] at hcell
      cases hcell
    obtain ⟨s1, t, hpd, hn_m, hn_d, hn_p, hn_a, hn_dd, hpctn, ho_m, ho_d, ho_p,
      ho_a, ho_dd⟩ := create_ok_day_bridge hnd hmem hok
    have tcell : t.monthly_futures.get d (.month_future i) = some (.str c) :=
      (ho_m _).symm.trans hcell
    have hlad := (processDate_ok_ladder hpd i).1
    rw [tcell, hn_m (.month_future i)] at hlad
    by_cases hcond : 1 ≤ i ∧ i - 1 <
        ((orderedContracts prices_df (get_last_trade_dates metadata) d).take
          config.MAX_MONTHS_FORWARD.toNat).length
    · rw [if_pos hcond] at hlad
      injection hlad with hlad
      injection hlad with hlad
      have hc2 : c = ((orderedContracts prices_df (get_last_trade_dates metadata) d).take
          config.MAX_MONTHS_FORWARD.toNat).getD (i - 1) "" := hlad
      have hmem2 : c ∈ eligibleContracts prices_df (get_last_trade_dates metadata) d := by
        rw [hc2, List.getD_eq_getElem _ _ hcond.2]
        exact (orderedContracts_perm prices_df (get_last_trade_dates metadata) d).mem_iff.mp
          (List.take_subset _ _ (List.getElem_mem hcond.2))
      have helig := mem_eligibleContracts.mp hmem2
      obtain ⟨n, hn⟩ := Option.isSome_iff_exists.mp helig.2.2
      have hlenT : ((orderedContracts prices_df (get_last_trade_dates metadata) d).take
          config.MAX_MONTHS_FORWARD.toNat).length =
          config.MAX_MONTHS_FORWARD.toNat ⊓
          (orderedContracts prices_df (get_last_trade_dates metadata) d).length :=
        List.length_take _ _
      refine ⟨helig.2.1, ⟨n, hn, ?_, ?_, ?_⟩, hcond.1, by omega⟩
      · exact calculate_days_to_expiry_nonneg (lookupD_some_mem hn)
      · have hladp := (processDate_ok_ladder hpd i).2.1
        rw [if_pos hcond] at hladp
        rw [ho_m, hladp, ← hc2]
      · have hladd := (processDate_ok_ladder hpd i).2.2
        rw [if_pos hcond] at hladd
        rw [ho_dd, hladd, ← hc2, hn]
        rfl
    · rw [if_neg hcond] at hlad
      cases hlad
  · intro d i j a b hij hci hcj
    have hmem : d ∈ prices_df.index := by
      by_contra hno
      rw [(create_ok_not_mem_none hok hno (.month_days i)).2.2.2.2] at hci
      cases hci
    obtain ⟨s1, t, hpd, hn_m, hn_d, hn_p, hn_a, hn_dd, hpctn, ho_m, ho_d, ho_p,
      ho_a, ho_dd⟩ := create_ok_day_bridge hnd hmem hok
    have hfi := keyfact d s1 t hpd hn_dd i a ((ho_dd _).symm.trans hci)
    have hfj := keyfact d s1 t hpd hn_dd j b ((ho_dd _).symm.trans hcj)
    by_cases heq : i = j
    · subst heq
      rw [hfi.2.2] at hfj
      injection hfj.2.2 with h2
      omega
    · have hlt : i - 1 < j - 1 := by omega
      have hpw : (((orderedContracts prices_df (get_last_trade_dates metadata) d).take
          config.MAX_MONTHS_FORWARD.toNat)).Pairwise
          (dteLe (calculate_days_to_expiry d (get_last_trade_dates metadata))) :=
        List.Pairwise.sublist (List.take_sublist _ _)
          (orderedContracts_sorted prices_df (get_last_trade_dates metadata) d)
      have hrel := List.pairwise_iff_getElem.mp hpw (i - 1) (j - 1) (by omega)
        hfj.2.1 hlt
      rw [dteLe, keyLe] at hrel
      rw [← List.getD_eq_getElem _ "" (by omega : i - 1 <
          ((orderedContracts prices_df (get_last_trade_dates metadata) d).take
            config.MAX_MONTHS_FORWARD.toNat).length),
        ← List.getD_eq_getElem _ "" hfj.2.1] at hrel
      rw [hfi.2.2, hfj.2.2] at hrel
      simpa [keyLeB] using hrel
  · intro d a hc1 c hcel n hn
    have hmem : d ∈ prices_df.index := by
      by_contra hno
      rw [(create_ok_not_mem_none hok hno (.month_days 1)).2.2.2.2] at hc1
      cases hc1
    obtain ⟨s1, t, hpd, hn_m, hn_d, hn_p, hn_a, hn_dd, hpctn, ho_m, ho_d, ho_p,
      ho_a, ho_dd⟩ := create_ok_day_bridge hnd hmem hok
    have hf1 := keyfact d s1 t hpd hn_dd 1 a ((ho_dd _).symm.trans hc1)
    have hordmem : c ∈ orderedContracts prices_df (get_last_trade_dates metadata) d :=
      (orderedContracts_perm prices_df (get_last_trade_dates metadata) d).mem_iff.mpr hcel
    have hsort := orderedContracts_sorted prices_df (get_last_trade_dates metadata) d
    cases hord : orderedContracts prices_df (get_last_trade_dates metadata) d with
    | nil => rw [hord] at hordmem; cases hordmem
    | cons x xs =>
        have hx0 : ((orderedContracts prices_df (get_last_trade_dates metadata) d).take
            config.MAX_MONTHS_FORWARD.toNat).getD 0 "" = x := by
          rw [getD_take _ _ _ _ (by
            have := hf1.2.1
            rw [List.length_take] at this
            omega), hord]
          rfl
        have hlx : lookupD (calculate_days_to_expiry d (get_last_trade_dates metadata)) x = some a := by
          have := hf1.2.2
          rwa [hx0] at this
        rw [hord] at hordmem hsort
        rw [List.sorted_cons] at hsort
        cases hordmem with
        | head =>
            rw [hlx] at hn
            injection hn with hn
            omega
        | tail _ hcx =>
            have hrel := hsort.1 c hcx
            rw [dteLe, keyLe, hlx, hn] at hrel
            simpa [keyLeB] using hrel

/-- Concrete instantiations of the three parts of C4 on the scenario's
day 1: the rank-1 entry A is well-formed, the day counts 1 ≤ 9 are ordered
by rank, and the rank-1 day count is minimal (1 ≤ 9 for eligible B). -/
theorem C4_ladder_well_formed_witness :
    ((scenPT.cell 1 "A").isSome = true ∧
     (∃ n : Int,
        lookupD (calculate_days_to_expiry 1 (get_last_trade_dates scenMeta)) "A" = some n ∧
        0 ≤ n ∧
        scenOut.monthly_futures.get 1 (.month_price 1) =
          some (.num ((scenPT.cell 1 "A").getD 0)) ∧
        scenOut.days_to_expiry_df.get 1 (.month_days 1) = some (.num (n : ℚ))) ∧
     1 ≤ 1 ∧ ((1 : Nat) : Int) ≤ scenConfig.MAX_MONTHS_FORWARD) ∧
    (1 : Int) ≤ 9 ∧
    (1 : Int) ≤ 9 :=
  ⟨(C4_ladder_well_formed (by decide) scen_eval).1 1 1 "A" rfl,
   (C4_ladder_well_formed (by decide) scen_eval).2.1 1 1 2 1 9 (by decide) rfl rfl,
   (C4_ladder_well_formed (by decide) scen_eval).2.2 1 1 rfl "B" (by decide) 9 (by decide)⟩

/-! ### Claim C10 -/

theorem spreadStep_config_congr {c1 c2 : SpreadsConfig}
    (hT : c1.TRADING_DAYS_PER_YEAR = c2.TRADING_DAYS_PER_YEAR)
    (hD : c1.CALCULATE_DOLLAR_SPREADS = c2.CALCULATE_DOLLAR_SPREADS)
    (hP : c1.CALCULATE_PERCENT_SPREADS = c2.CALCULATE_PERCENT_SPREADS)
    (hA : c1.CALCULATE_ANNUAL_SPREADS = c2.CALCULATE_ANNUAL_SPREADS)
    (prices_df : PriceTable) (date : Int) (dte : List (Contract × Int))
    (oc : List Contract) (p : ℚ) (m : Int) (i : Nat) (s : EngineState) :
    spreadStep prices_df date dte c1 oc p m i s =
      spreadStep prices_df date dte c2 oc p m i s := by
  simp only [spreadStep, dollarUpd, pctUpd, annualStep, hT, hD, hP, hA]

theorem spreadLoop_config_congr {c1 c2 : SpreadsConfig}
    (hT : c1.TRADING_DAYS_PER_YEAR = c2.TRADING_DAYS_PER_YEAR)
    (hD : c1.CALCULATE_DOLLAR_SPREADS = c2.CALCULATE_DOLLAR_SPREADS)
    (hP : c1.CALCULATE_PERCENT_SPREADS = c2.CALCULATE_PERCENT_SPREADS)
    (hA : c1.CALCULATE_ANNUAL_SPREADS = c2.CALCULATE_ANNUAL_SPREADS)
    (prices_df : PriceTable) (date : Int) (dte : List (Contract × Int))
    (oc : List Contract) (p : ℚ) (m : Int) (L : List Nat) :
    ∀ (s : EngineState),
      spreadLoop prices_df date dte c1 oc p m L s =
        spreadLoop prices_df date dte c2 oc p m L s := by
  induction L with
  | nil => intro s; rfl
  | cons i rest ih =>
      intro s
      simp only [spreadLoop, spreadStep_config_congr hT hD hP hA prices_df date dte oc p m i s]
      cases spreadStep prices_df date dte c2 oc p m i s with
      | ok s1 => exact ih s1
      | error e => rfl

theorem processDate_config_congr {c1 c2 : SpreadsConfig}
    (hT : c1.TRADING_DAYS_PER_YEAR = c2.TRADING_DAYS_PER_YEAR)
    (hM : c1.MAX_MONTHS_FORWARD = c2.MAX_MONTHS_FORWARD)
    (hD : c1.CALCULATE_DOLLAR_SPREADS = c2.CALCULATE_DOLLAR_SPREADS)
    (hP : c1.CALCULATE_PERCENT_SPREADS = c2.CALCULATE_PERCENT_SPREADS)
    (hA : c1.CALCULATE_ANNUAL_SPREADS = c2.CALCULATE_ANNUAL_SPREADS)
    (prices_df : PriceTable) (ltd : List (Contract × Option Int))
    (s : EngineState) (date : Int) :
    processDate prices_df ltd c1 s date = processDate prices_df ltd c2 s date := by
  simp only [processDate, hM,
    spreadLoop_config_congr hT hD hP hA]

theorem dayLoop_config_congr {c1 c2 : SpreadsConfig}
    (hT : c1.TRADING_DAYS_PER_YEAR = c2.TRADING_DAYS_PER_YEAR)
    (hM : c1.MAX_MONTHS_FORWARD = c2.MAX_MONTHS_FORWARD)
    (hD : c1.CALCULATE_DOLLAR_SPREADS = c2.CALCULATE_DOLLAR_SPREADS)
    (hP : c1.CALCULATE_PERCENT_SPREADS = c2.CALCULATE_PERCENT_SPREADS)
    (hA : c1.CALCULATE_ANNUAL_SPREADS = c2.CALCULATE_ANNUAL_SPREADS)
    (prices_df : PriceTable) (ltd : List (Contract × Option Int))
    (days : List Int) : ∀ (s : EngineState),
      dayLoop prices_df ltd c1 days s = dayLoop prices_df ltd c2 days s := by
  induction days with
  | nil => intro s; rfl
  | cons d rest ih =>
      intro s
      simp only [dayLoop, processDate_config_congr hT hM hD hP hA prices_df ltd s d]
      cases processDate prices_df ltd c2 s d with
      | ok s1 => exact ih s1
      | error e => rfl

/-- C10: the engine never reads `MIN_DAYS_TO_EXPIRY` or `MIN_VOLUME`: two
configurations that agree on every other field produce identical results on
every input. -/
theorem C10_min_fields_never_read {prices_df : PriceTable}
    {metadata : List (Contract × RawDate)} {c1 c2 : SpreadsConfig}
    (hT : c1.TRADING_DAYS_PER_YEAR = c2.TRADING_DAYS_PER_YEAR)
    (hM : c1.MAX_MONTHS_FORWARD = c2.MAX_MONTHS_FORWARD)
    (hB : c1.BASE_PATH = c2.BASE_PATH)
    (hD : c1.CALCULATE_DOLLAR_SPREADS = c2.CALCULATE_DOLLAR_SPREADS)
    (hP : c1.CALCULATE_PERCENT_SPREADS = c2.CALCULATE_PERCENT_SPREADS)
    (hA : c1.CALCULATE_ANNUAL_SPREADS = c2.CALCULATE_ANNUAL_SPREADS) :
    create_monthly_futures_data prices_df metadata c1 =
      create_monthly_futures_data prices_df metadata c2 := by
  simp only [create_monthly_futures_data,
    dayLoop_config_congr hT hM hD hP hA]

/-- Concrete instantiation of C10: two configurations differing only in
`MIN_DAYS_TO_EXPIRY` and `MIN_VOLUME` give the same run on the scenario. -/
theorem C10_min_fields_never_read_witness :
    create_monthly_futures_data scenPT scenMeta
        { scenConfig with MIN_DAYS_TO_EXPIRY := 99, MIN_VOLUME := 7 } =
      create_monthly_futures_data scenPT scenMeta scenConfig :=
  C10_min_fields_never_read rfl rfl rfl rfl rfl rfl

/-! ### Claim C7 -/

theorem dollarUpd_off {c : SpreadsConfig}
    (hD : c.CALCULATE_DOLLAR_SPREADS = false) (date : Int) (i : Nat) (v : ℚ)
    (s : EngineState) : dollarUpd c date i v s = s := by
  simp [dollarUpd, hD]

theorem pctUpd_off {c : SpreadsConfig}
    (hP : c.CALCULATE_PERCENT_SPREADS = false) (date : Int) (i : Nat) (v : ℚ)
    (s : EngineState) : pctUpd c date i v s = s := by
  simp [pctUpd, hP]

theorem spreadStep_dollar_off {prices_df : PriceTable} {date : Int}
    {dte : List (Contract × Int)} {config : SpreadsConfig}
    {oc : List Contract} {p : ℚ} {m : Int}
    (hD : config.CALCULATE_DOLLAR_SPREADS = false) {i : Nat} {s t : EngineState}
    (h : spreadStep prices_df date dte config oc p m i s = .ok t) :
    t.spreads_dollar = s.spreads_dollar := by
  simp only [spreadStep] at h
  split at h
  · split at h
    · rw [(annualStep_ok_untouched _ _ _ _ h).2.1,
        (pctUpd_untouched _ _ _ _ _).2.1, dollarUpd_off hD _ _ _ _]
    · injection h with h
      rw [← h, (pctUpd_untouched _ _ _ _ _).2.1, dollarUpd_off hD _ _ _ _]
  · injection h with h
    rw [← h]

theorem spreadStep_pct_off {prices_df : PriceTable} {date : Int}
    {dte : List (Contract × Int)} {config : SpreadsConfig}
    {oc : List Contract} {p : ℚ} {m : Int}
    (hP : config.CALCULATE_PERCENT_SPREADS = false) {i : Nat} {s t : EngineState}
    (h : spreadStep prices_df date dte config oc p m i s = .ok t) :
    t.spreads_percent = s.spreads_percent := by
  simp only [spreadStep] at h
  split at h
  · split at h
    · rw [(annualStep_ok_untouched _ _ _ _ h).2.2.1, pctUpd_off hP _ _ _ _,
        (dollarUpd_untouched _ _ _ _ _).2.1]
    · injection h with h
      rw [← h, pctUpd_off hP _ _ _ _, (dollarUpd_untouched _ _ _ _ _).2.1]
  · injection h with h
    rw [← h]

theorem spreadStep_annual_off {prices_df : PriceTable} {date : Int}
    {dte : List (Contract × Int)} {config : SpreadsConfig}
    {oc : List Contract} {p : ℚ} {m : Int}
    (hA : config.CALCULATE_ANNUAL_SPREADS = false) {i : Nat} {s t : EngineState}
    (h : spreadStep prices_df date dte config oc p m i s = .ok t) :
    t.spreads_percent_annual = s.spreads_percent_annual := by
  simp only [spreadStep] at h
  split at h
  · rw [if_neg ((by simp [hA]) : ¬config.CALCULATE_ANNUAL_SPREADS = true)] at h
    injection h with h
    rw [← h, (pctUpd_untouched _ _ _ _ _).2.2.1,
      (dollarUpd_untouched _ _ _ _ _).2.2.1]
  · injection h with h
    rw [← h]

theorem spreadLoop_preserves {α : Type} (P : EngineState → α)
    {prices_df : PriceTable} {date : Int} {dte : List (Contract × Int)}
    {config : SpreadsConfig} {oc : List Contract} {p : ℚ} {m : Int}
    (hstep : ∀ (i : Nat) (s t : EngineState),
      spreadStep prices_df date dte config oc p m i s = .ok t → P t = P s) :
    ∀ (L : List Nat) (s t : EngineState),
      spreadLoop prices_df date dte config oc p m L s = .ok t → P t = P s := by
  intro L
  induction L with
  | nil =>
      intro s t h
      injection h with h
      rw [h]
  | cons i rest ih =>
      intro s t h
      simp only [spreadLoop] at h
      cases hs : spreadStep prices_df date dte config oc p m i s with
      | ok s1 =>
          rw [hs] at h
          exact (ih s1 t h).trans (hstep i s s1 hs)
      | error e => rw [hs] at h; cases h

theorem processDate_preserves {α : Type} (P : EngineState → α)
    {prices_df : PriceTable} {ltd : List (Contract × Option Int)}
    {config : SpreadsConfig}
    (hlad : ∀ (date : Int) (dte : List (Contract × Int))
      (L : List (Nat × Contract)) (s : EngineState),
      P (ladderLoop prices_df date dte L s) = P s)
    (hstep : ∀ (date : Int) (dte : List (Contract × Int)) (oc : List Contract)
      (p : ℚ) (m : Int) (i : Nat) (s t : EngineState),
      spreadStep prices_df date dte config oc p m i s = .ok t → P t = P s) :
    ∀ (s : EngineState) (date : Int) (t : EngineState),
      processDate prices_df ltd config s date = .ok t → P t = P s := by
  intro s date t h
  simp only [processDate] at h
  split at h
  · injection h with h
    rw [h]
  · split at h
    · injection h with h
      rw [h]
    · split at h
      · exact (spreadLoop_preserves P
          (fun i s1 t1 h1 => hstep date _ _ _ _ i s1 t1 h1) _ _ _ h).trans
          (hlad date _ _ s)
      · injection h with h
        rw [← h]
        exact hlad date _ _ s

theorem dayLoop_preserves {α : Type} (P : EngineState → α)
    {prices_df : PriceTable} {ltd : List (Contract × Option Int)}
    {config : SpreadsConfig}
    (hpd : ∀ (s : EngineState) (date : Int) (t : EngineState),
      processDate prices_df ltd config s date = .ok t → P t = P s) :
    ∀ (days : List Int) (s t : EngineState),
      dayLoop prices_df ltd config days s = .ok t → P t = P s := by
  intro days
  induction days with
  | nil =>
      intro s t h
      injection h with h
      rw [h]
  | cons d rest ih =>
      intro s t h
      simp only [dayLoop] at h
      cases hs : processDate prices_df ltd config s d with
      | ok s1 =>
          rw [hs] at h
          exact (ih s1 t h).trans (hpd s d s1 hs)
      | error e => rw [hs] at h; cases h

theorem create_dollar_off {prices_df : PriceTable}
    {metadata : List (Contract × RawDate)} {c : SpreadsConfig}
    (hD : c.CALCULATE_DOLLAR_SPREADS = false) {o : EngineOut}
    (h : create_monthly_futures_data prices_df metadata c = .ok o) :
    o.spreads_dollar = { index := prices_df.index, cells := [] } := by
  obtain ⟨sfin, hday, rfl⟩ := create_ok_elim h
  exact dayLoop_preserves (fun s => s.spreads_dollar)
    (processDate_preserves _
      (fun date dte L s => (ladderLoop_untouched prices_df date dte L s).1)
      (fun date dte oc p m i s1 t1 h1 => spreadStep_dollar_off hD h1))
    prices_df.index _ _ hday

theorem create_pct_off {prices_df : PriceTable}
    {metadata : List (Contract × RawDate)} {c : SpreadsConfig}
    (hP : c.CALCULATE_PERCENT_SPREADS = false) {o : EngineOut}
    (h : create_monthly_futures_data prices_df metadata c = .ok o) :
    o.spreads_percent = { index := prices_df.index, cells := [] } := by
  obtain ⟨sfin, hday, rfl⟩ := create_ok_elim h
  exact dayLoop_preserves (fun s => s.spreads_percent)
    (processDate_preserves _
      (fun date dte L s => (ladderLoop_untouched prices_df date dte L s).2.1)
      (fun date dte oc p m i s1 t1 h1 => spreadStep_pct_off hP h1))
    prices_df.index _ _ hday

theorem create_annual_off {prices_df : PriceTable}
    {metadata : List (Contract × RawDate)} {c : SpreadsConfig}
    (hA : c.CALCULATE_ANNUAL_SPREADS = false) {o : EngineOut}
    (h : create_monthly_futures_data prices_df metadata c = .ok o) :
    o.spreads_percent_annual = { index := prices_df.index, cells := [] } := by
  obtain ⟨sfin, hday, rfl⟩ := create_ok_elim h
  exact dayLoop_preserves (fun s => s.spreads_percent_annual)
    (processDate_preserves _
      (fun date dte L s => (ladderLoop_untouched prices_df date dte L s).2.2.1)
      (fun date dte oc p m i s1 t1 h1 => spreadStep_annual_off hA h1))
    prices_df.index _ _ hday

/-- Relation lifted to run results: identical errors, or related states. -/
def ExceptRel (R : EngineState → EngineState → Prop) :
    Except String EngineState → Except String EngineState → Prop
  | .ok s, .ok t => R s t
  | .error e, .error f => e = f
  | .ok _, .error _ => False
  | .error _, .ok _ => False

/-- Agreement on every state component except the dollar-spread table. -/
def ExDollar (s t : EngineState) : Prop :=
  s.monthly_futures = t.monthly_futures ∧
  s.spreads_percent = t.spreads_percent ∧
  s.spreads_percent_annual = t.spreads_percent_annual ∧
  s.days_to_expiry_df = t.days_to_expiry_df ∧
  s.pct_spread = t.pct_spread

/-- Agreement on every state component except the annualized table. -/
def ExAnnual (s t : EngineState) : Prop :=
  s.monthly_futures = t.monthly_futures ∧
  s.spreads_dollar = t.spreads_dollar ∧
  s.spreads_percent = t.spreads_percent ∧
  s.days_to_expiry_df = t.days_to_expiry_df ∧
  s.pct_spread = t.pct_spread

/-- Agreement on every state component except the percent table and the
local variable `pct_spread` that the percent block binds. -/
def ExPct (s t : EngineState) : Prop :=
  s.monthly_futures = t.monthly_futures ∧
  s.spreads_dollar = t.spreads_dollar ∧
  s.spreads_percent_annual = t.spreads_percent_annual ∧
  s.days_to_expiry_df = t.days_to_expiry_df

theorem ladderLoop_exDollar (prices_df : PriceTable) (date : Int)
    (dte : List (Contract × Int)) :
    ∀ (L : List (Nat × Contract)) (s t : EngineState), ExDollar s t →
      ExDollar (ladderLoop prices_df date dte L s)
        (ladderLoop prices_df date dte L t)
  | [], _, _, h => h
  | (i, c) :: rest, s, t, h =>
      ladderLoop_exDollar prices_df date dte rest _ _
        ⟨by rw [h.1], h.2.1, h.2.2.1, by rw [h.2.2.2.1], h.2.2.2.2⟩

theorem ladderLoop_exAnnual (prices_df : PriceTable) (date : Int)
    (dte : List (Contract × Int)) :
    ∀ (L : List (Nat × Contract)) (s t : EngineState), ExAnnual s t →
      ExAnnual (ladderLoop prices_df date dte L s)
        (ladderLoop prices_df date dte L t)
  | [], _, _, h => h
  | (i, c) :: rest, s, t, h =>
      ladderLoop_exAnnual prices_df date dte rest _ _
        ⟨by rw [h.1], h.2.1, h.2.2.1, by rw [h.2.2.2.1], h.2.2.2.2⟩

theorem ladderLoop_exPct (prices_df : PriceTable) (date : Int)
    (dte : List (Contract × Int)) :
    ∀ (L : List (Nat × Contract)) (s t : EngineState), ExPct s t →
      ExPct (ladderLoop prices_df date dte L s)
        (ladderLoop prices_df date dte L t)
  | [], _, _, h => h
  | (i, c) :: rest, s, t, h =>
      ladderLoop_exPct prices_df date dte rest _ _
        ⟨by rw [h.1], h.2.1, h.2.2.1, by rw [h.2.2.2]⟩

theorem dollarUpd_exDollar (c1 c2 : SpreadsConfig) (date : Int) (i : Nat)
    (v : ℚ) {s t : EngineState} (h : ExDollar s t) :
    ExDollar (dollarUpd c1 date i v s) (dollarUpd c2 date i v t) := by
  obtain ⟨h1, h2, h3, h4, h5⟩ := h
  unfold dollarUpd
  by_cases hd1 : c1.CALCULATE_DOLLAR_SPREADS = true
  · rw [if_pos hd1]
    by_cases hd2 : c2.CALCULATE_DOLLAR_SPREADS = true
    · rw [if_pos hd2]; exact ⟨h1, h2, h3, h4, h5⟩
    · rw [if_neg hd2]; exact ⟨h1, h2, h3, h4, h5⟩
  · rw [if_neg hd1]
    by_cases hd2 : c2.CALCULATE_DOLLAR_SPREADS = true
    · rw [if_pos hd2]; exact ⟨h1, h2, h3, h4, h5⟩
    · rw [if_neg hd2]; exact ⟨h1, h2, h3, h4, h5⟩

theorem pctUpd_exDollar {c1 c2 : SpreadsConfig}
    (hP : c1.CALCULATE_PERCENT_SPREADS = c2.CALCULATE_PERCENT_SPREADS)
    (date : Int) (i : Nat) (v : ℚ) {s t : EngineState} (h : ExDollar s t) :
    ExDollar (pctUpd c1 date i v s) (pctUpd c2 date i v t) := by
  obtain ⟨h1, h2, h3, h4, h5⟩ := h
  unfold pctUpd
  rw [hP]
  by_cases hp : c2.CALCULATE_PERCENT_SPREADS = true
  · rw [if_pos hp, if_pos hp]
    exact ⟨h1, by rw [h2], h3, h4, rfl⟩
  · rw [if_neg hp, if_neg hp]
    exact ⟨h1, h2, h3, h4, h5⟩

theorem annualStep_exDollar {c1 c2 : SpreadsConfig}
    (hT : c1.TRADING_DAYS_PER_YEAR = c2.TRADING_DAYS_PER_YEAR)
    (date : Int) (i : Nat) (g : Int) {s t : EngineState} (h : ExDollar s t) :
    ExceptRel ExDollar (annualStep c1 date i g s) (annualStep c2 date i g t) := by
  obtain ⟨h1, h2, h3, h4, h5⟩ := h
  by_cases hg : 0 < g
  · simp only [annualStep]
    rw [if_pos hg, if_pos hg, h5]
    cases t.pct_spread with
    | some pv => exact ⟨h1, h2, by rw [h3, hT], h4, rfl⟩
    | none => rfl
  · rw [annualStep_nonpos c1 date i hg s, annualStep_nonpos c2 date i hg t]
    exact ⟨h1, h2, h3, h4, h5⟩

theorem spreadStep_exDollar {prices_df : PriceTable} {date : Int}
    {dte : List (Contract × Int)} {c1 c2 : SpreadsConfig}
    {oc : List Contract} {p : ℚ} {m : Int}
    (hT : c1.TRADING_DAYS_PER_YEAR = c2.TRADING_DAYS_PER_YEAR)
    (hP : c1.CALCULATE_PERCENT_SPREADS = c2.CALCULATE_PERCENT_SPREADS)
    (hA : c1.CALCULATE_ANNUAL_SPREADS = c2.CALCULATE_ANNUAL_SPREADS)
    (i : Nat) {s t : EngineState} (h : ExDollar s t) :
    ExceptRel ExDollar (spreadStep prices_df date dte c1 oc p m i s)
      (spreadStep prices_df date dte c2 oc p m i t) := by
  simp only [spreadStep]
  by_cases hg : p ≠ 0 ∧ (lookupD dte (oc.getD i "")).getD 0 ≠ 0 ∧ m ≠ 0
  · rw [if_pos hg, if_pos hg, hA]
    by_cases ha : c2.CALCULATE_ANNUAL_SPREADS = true
    · rw [if_pos ha, if_pos ha]
      exact annualStep_exDollar hT date i _
        (pctUpd_exDollar hP date i _ (dollarUpd_exDollar c1 c2 date i _ h))
    · rw [if_neg ha, if_neg ha]
      exact pctUpd_exDollar hP date i _ (dollarUpd_exDollar c1 c2 date i _ h)
  · rw [if_neg hg, if_neg hg]
    exact h

theorem spreadLoop_exDollar {prices_df : PriceTable} {date : Int}
    {dte : List (Contract × Int)} {c1 c2 : SpreadsConfig}
    {oc : List Contract} {p : ℚ} {m : Int}
    (hT : c1.TRADING_DAYS_PER_YEAR = c2.TRADING_DAYS_PER_YEAR)
    (hP : c1.CALCULATE_PERCENT_SPREADS = c2.CALCULATE_PERCENT_SPREADS)
    (hA : c1.CALCULATE_ANNUAL_SPREADS = c2.CALCULATE_ANNUAL_SPREADS)
    (L : List Nat) :
    ∀ {s t : EngineState}, ExDollar s t →
      ExceptRel ExDollar (spreadLoop prices_df date dte c1 oc p m L s)
        (spreadLoop prices_df date dte c2 oc p m L t) := by
  induction L with
  | nil => intro s t h; exact h
  | cons i rest ih =>
      intro s t h
      have hstep := @spreadStep_exDollar prices_df date dte c1 c2 oc p m hT hP hA i s t h
      simp only [spreadLoop]
      cases h1 : spreadStep prices_df date dte c1 oc p m i s with
      | ok s1 =>
          cases h2 : spreadStep prices_df date dte c2 oc p m i t with
          | ok t1 =>
              rw [h1, h2] at hstep
              exact ih hstep
          | error e =>
              rw [h1, h2] at hstep
              exact False.elim hstep
      | error e =>
          cases h2 : spreadStep prices_df date dte c2 oc p m i t with
          | ok t1 =>
              rw [h1, h2] at hstep
              exact False.elim hstep
          | error f =>
              rw [h1, h2] at hstep
              exact hstep

theorem processDate_exDollar {prices_df : PriceTable}
    {ltd : List (Contract × Option Int)} {c1 c2 : SpreadsConfig}
    (hT : c1.TRADING_DAYS_PER_YEAR = c2.TRADING_DAYS_PER_YEAR)
    (hM : c1.MAX_MONTHS_FORWARD = c2.MAX_MONTHS_FORWARD)
    (hP : c1.CALCULATE_PERCENT_SPREADS = c2.CALCULATE_PERCENT_SPREADS)
    (hA : c1.CALCULATE_ANNUAL_SPREADS = c2.CALCULATE_ANNUAL_SPREADS)
    {s t : EngineState} (h : ExDollar s t) (date : Int) :
    ExceptRel ExDollar (processDate prices_df ltd c1 s date)
      (processDate prices_df ltd c2 t date) := by
  simp only [processDate]
  rw [hM]
  by_cases hv : (validContracts prices_df date).isEmpty = true
  · rw [if_pos hv, if_pos hv]
    exact h
  · rw [if_neg hv, if_neg hv]
    by_cases he : (eligibleContracts prices_df ltd date).isEmpty = true
    · rw [if_pos he, if_pos he]
      exact h
    · rw [if_neg he, if_neg he]
      have hlad := ladderLoop_exDollar prices_df date
        (calculate_days_to_expiry date ltd)
        (((orderedContracts prices_df ltd date).take c2.MAX_MONTHS_FORWARD.toNat).enumFrom 1)
        s t h
      by_cases hl : 2 ≤ (orderedContracts prices_df ltd date).length
      · rw [if_pos hl, if_pos hl]
        exact spreadLoop_exDollar hT hP hA _ hlad
      · rw [if_neg hl, if_neg hl]
        exact hlad

theorem dayLoop_exDollar {prices_df : PriceTable}
    {ltd : List (Contract × Option Int)} {c1 c2 : SpreadsConfig}
    (hT : c1.TRADING_DAYS_PER_YEAR = c2.TRADING_DAYS_PER_YEAR)
    (hM : c1.MAX_MONTHS_FORWARD = c2.MAX_MONTHS_FORWARD)
    (hP : c1.CALCULATE_PERCENT_SPREADS = c2.CALCULATE_PERCENT_SPREADS)
    (hA : c1.CALCULATE_ANNUAL_SPREADS = c2.CALCULATE_ANNUAL_SPREADS)
    (days : List Int) :
    ∀ {s t : EngineState}, ExDollar s t →
      ExceptRel ExDollar (dayLoop prices_df ltd c1 days s)
        (dayLoop prices_df ltd c2 days t) := by
  induction days with
  | nil => intro s t h; exact h
  | cons d rest ih =>
      intro s t h
      have hstep := @processDate_exDollar prices_df ltd c1 c2 hT hM hP hA s t h d
      simp only [dayLoop]
      cases h1 : processDate prices_df ltd c1 s d with
      | ok s1 =>
          cases h2 : processDate prices_df ltd c2 t d with
          | ok t1 =>
              rw [h1, h2] at hstep
              exact ih hstep
          | error e =>
              rw [h1, h2] at hstep
              exact False.elim hstep
      | error e =>
          cases h2 : processDate prices_df ltd c2 t d with
          | ok t1 =>
              rw [h1, h2] at hstep
              exact False.elim hstep
          | error f =>
              rw [h1, h2] at hstep
              exact hstep

theorem create_exDollar {prices_df : PriceTable}
    {metadata : List (Contract × RawDate)} {c1 c2 : SpreadsConfig}
    (hT : c1.TRADING_DAYS_PER_YEAR = c2.TRADING_DAYS_PER_YEAR)
    (hM : c1.MAX_MONTHS_FORWARD = c2.MAX_MONTHS_FORWARD)
    (hP : c1.CALCULATE_PERCENT_SPREADS = c2.CALCULATE_PERCENT_SPREADS)
    (hA : c1.CALCULATE_ANNUAL_SPREADS = c2.CALCULATE_ANNUAL_SPREADS) :
    (∃ e, create_monthly_futures_data prices_df metadata c1 = .error e ∧
      create_monthly_futures_data prices_df metadata c2 = .error e) ∨
    (∃ o1 o2, create_monthly_futures_data prices_df metadata c1 = .ok o1 ∧
      create_monthly_futures_data prices_df metadata c2 = .ok o2 ∧
      o1.monthly_futures = o2.monthly_futures ∧
      o1.spreads_percent = o2.spreads_percent ∧
      o1.spreads_percent_annual = o2.spreads_percent_annual ∧
      o1.days_to_expiry_df = o2.days_to_expiry_df) := by
  have hrel := @dayLoop_exDollar prices_df (get_last_trade_dates metadata)
    c1 c2 hT hM hP hA prices_df.index (initState prices_df.index)
    (initState prices_df.index) ⟨rfl, rfl, rfl, rfl, rfl⟩
  cases h1 : dayLoop prices_df (get_last_trade_dates metadata) c1
      prices_df.index (initState prices_df.index) with
  | ok s1 =>
      cases h2 : dayLoop prices_df (get_last_trade_dates metadata) c2
          prices_df.index (initState prices_df.index) with
      | ok s2 =>
          rw [h1, h2] at hrel
          refine Or.inr ⟨s1.toOut, s2.toOut, ?_, ?_, hrel.1, hrel.2.1,
            hrel.2.2.1, hrel.2.2.2.1⟩
          · simp only [create_monthly_futures_data]
            rw [h1]
          · simp only [create_monthly_futures_data]
            rw [h2]
      | error e =>
          rw [h1, h2] at hrel
          exact False.elim hrel
  | error e =>
      cases h2 : dayLoop prices_df (get_last_trade_dates metadata) c2
          prices_df.index (initState prices_df.index) with
      | ok s2 =>
          rw [h1, h2] at hrel
          exact False.elim hrel
      | error f =>
          rw [h1, h2] at hrel
          refine Or.inl ⟨e, ?_, ?_⟩
          · simp only [create_monthly_futures_data]
            rw [h1]
          · simp only [create_monthly_futures_data]
            rw [h2, hrel]

theorem dollarUpd_exAnnual {c1 c2 : SpreadsConfig}
    (hD : c1.CALCULATE_DOLLAR_SPREADS = c2.CALCULATE_DOLLAR_SPREADS)
    (date : Int) (i : Nat) (v : ℚ) {s t : EngineState} (h : ExAnnual s t) :
    ExAnnual (dollarUpd c1 date i v s) (dollarUpd c2 date i v t) := by
  obtain ⟨h1, h2, h3, h4, h5⟩ := h
  unfold dollarUpd
  rw [hD]
  by_cases hd : c2.CALCULATE_DOLLAR_SPREADS = true
  · rw [if_pos hd, if_pos hd]
    exact ⟨h1, by rw [h2], h3, h4, h5⟩
  · rw [if_neg hd, if_neg hd]
    exact ⟨h1, h2, h3, h4, h5⟩

theorem pctUpd_exAnnual {c1 c2 : SpreadsConfig}
    (hP : c1.CALCULATE_PERCENT_SPREADS = c2.CALCULATE_PERCENT_SPREADS)
    (date : Int) (i : Nat) (v : ℚ) {s t : EngineState} (h : ExAnnual s t) :
    ExAnnual (pctUpd c1 date i v s) (pctUpd c2 date i v t) := by
  obtain ⟨h1, h2, h3, h4, h5⟩ := h
  unfold pctUpd
  rw [hP]
  by_cases hp : c2.CALCULATE_PERCENT_SPREADS = true
  · rw [if_pos hp, if_pos hp]
    exact ⟨h1, h2, by rw [h3], h4, rfl⟩
  · rw [if_neg hp, if_neg hp]
    exact ⟨h1, h2, h3, h4, h5⟩

theorem annualStep_ok_exAnnual {c : SpreadsConfig} {date : Int} {i : Nat}
    {g : Int} {s s' : EngineState} (h : annualStep c date i g s = .ok s')
    {t : EngineState} (hr : ExAnnual s t) : ExAnnual s' t := by
  obtain ⟨hu1, hu2, hu3, hu4, hu5⟩ := annualStep_ok_untouched c date i g h
  obtain ⟨h1, h2, h3, h4, h5⟩ := hr
  exact ⟨hu1.trans h1, hu2.trans h2, hu3.trans h3, hu4.trans h4, hu5.trans h5⟩

theorem spreadStep_exAnnual {prices_df : PriceTable} {date : Int}
    {dte : List (Contract × Int)} {c1 c2 : SpreadsConfig}
    {oc : List Contract} {p : ℚ} {m : Int}
    (hD : c1.CALCULATE_DOLLAR_SPREADS = c2.CALCULATE_DOLLAR_SPREADS)
    (hP : c1.CALCULATE_PERCENT_SPREADS = c2.CALCULATE_PERCENT_SPREADS)
    (hA2 : c2.CALCULATE_ANNUAL_SPREADS = false)
    (i : Nat) {s t s' : EngineState}
    (h : spreadStep prices_df date dte c1 oc p m i s = .ok s')
    (hr : ExAnnual s t) :
    ∃ t', spreadStep prices_df date dte c2 oc p m i t = .ok t' ∧ ExAnnual s' t' := by
  have ha2 : ¬c2.CALCULATE_ANNUAL_SPREADS = true := by simp [hA2]
  simp only [spreadStep] at h ⊢
  by_cases hg : p ≠ 0 ∧ (lookupD dte (oc.getD i "")).getD 0 ≠ 0 ∧ m ≠ 0
  · rw [if_pos hg] at h
    rw [if_pos hg, if_neg ha2]
    refine ⟨_, rfl, ?_⟩
    have hbase := pctUpd_exAnnual hP date i
      (((prices_df.cell date (oc.getD i "")).getD 0 - p) / p)
      (dollarUpd_exAnnual hD date i
        ((prices_df.cell date (oc.getD i "")).getD 0 - p) hr)
    by_cases ha1 : c1.CALCULATE_ANNUAL_SPREADS = true
    · rw [if_pos ha1] at h
      exact annualStep_ok_exAnnual h hbase
    · rw [if_neg ha1] at h
      injection h with h
      exact h ▸ hbase
  · rw [if_neg hg] at h
    injection h with h
    rw [if_neg hg]
    exact ⟨t, rfl, h ▸ hr⟩

theorem spreadLoop_exAnnual {prices_df : PriceTable} {date : Int}
    {dte : List (Contract × Int)} {c1 c2 : SpreadsConfig}
    {oc : List Contract} {p : ℚ} {m : Int}
    (hD : c1.CALCULATE_DOLLAR_SPREADS = c2.CALCULATE_DOLLAR_SPREADS)
    (hP : c1.CALCULATE_PERCENT_SPREADS = c2.CALCULATE_PERCENT_SPREADS)
    (hA2 : c2.CALCULATE_ANNUAL_SPREADS = false)
    (L : List Nat) :
    ∀ {s t s' : EngineState},
      spreadLoop prices_df date dte c1 oc p m L s = .ok s' → ExAnnual s t →
      ∃ t', spreadLoop prices_df date dte c2 oc p m L t = .ok t' ∧
        ExAnnual s' t' := by
  induction L with
  | nil =>
      intro s t s' h hr
      injection h with h
      exact ⟨t, rfl, h ▸ hr⟩
  | cons i rest ih =>
      intro s t s' h hr
      simp only [spreadLoop] at h ⊢
      cases h1 : spreadStep prices_df date dte c1 oc p m i s with
      | ok s1 =>
          rw [h1] at h
          obtain ⟨t1, ht1, hr1⟩ := spreadStep_exAnnual hD hP hA2 i h1 hr
          rw [ht1]
          exact ih h hr1
      | error e => rw [h1] at h; cases h

theorem processDate_exAnnual {prices_df : PriceTable}
    {ltd : List (Contract × Option Int)} {c1 c2 : SpreadsConfig}
    (hM : c1.MAX_MONTHS_FORWARD = c2.MAX_MONTHS_FORWARD)
    (hD : c1.CALCULATE_DOLLAR_SPREADS = c2.CALCULATE_DOLLAR_SPREADS)
    (hP : c1.CALCULATE_PERCENT_SPREADS = c2.CALCULATE_PERCENT_SPREADS)
    (hA2 : c2.CALCULATE_ANNUAL_SPREADS = false)
    {s t s' : EngineState} {date : Int}
    (h : processDate prices_df ltd c1 s date = .ok s') (hr : ExAnnual s t) :
    ∃ t', processDate prices_df ltd c2 t date = .ok t' ∧ ExAnnual s' t' := by
  simp only [processDate] at h ⊢
  rw [hM] at h
  by_cases hv : (validContracts prices_df date).isEmpty = true
  · rw [if_pos hv] at h
    rw [if_pos hv]
    injection h with h
    exact ⟨t, rfl, h ▸ hr⟩
  · rw [if_neg hv] at h
    rw [if_neg hv]
    by_cases he : (eligibleContracts prices_df ltd date).isEmpty = true
    · rw [if_pos he] at h
      rw [if_pos he]
      injection h with h
      exact ⟨t, rfl, h ▸ hr⟩
    · rw [if_neg he] at h
      rw [if_neg he]
      have hlad := ladderLoop_exAnnual prices_df date
        (calculate_days_to_expiry date ltd)
        (((orderedContracts prices_df ltd date).take c2.MAX_MONTHS_FORWARD.toNat).enumFrom 1)
        s t hr
      by_cases hl : 2 ≤ (orderedContracts prices_df ltd date).length
      · rw [if_pos hl] at h
        rw [if_pos hl]
        exact spreadLoop_exAnnual hD hP hA2 _ h hlad
      · rw [if_neg hl] at h
        rw [if_neg hl]
        injection h with h
        exact ⟨_, rfl, h ▸ hlad⟩

theorem dayLoop_exAnnual {prices_df : PriceTable}
    {ltd : List (Contract × Option Int)} {c1 c2 : SpreadsConfig}
    (hM : c1.MAX_MONTHS_FORWARD = c2.MAX_MONTHS_FORWARD)
    (hD : c1.CALCULATE_DOLLAR_SPREADS = c2.CALCULATE_DOLLAR_SPREADS)
    (hP : c1.CALCULATE_PERCENT_SPREADS = c2.CALCULATE_PERCENT_SPREADS)
    (hA2 : c2.CALCULATE_ANNUAL_SPREADS = false)
    (days : List Int) :
    ∀ {s t s' : EngineState},
      dayLoop prices_df ltd c1 days s = .ok s' → ExAnnual s t →
      ∃ t', dayLoop prices_df ltd c2 days t = .ok t' ∧ ExAnnual s' t' := by
  induction days with
  | nil =>
      intro s t s' h hr
      injection h with h
      exact ⟨t, rfl, h ▸ hr⟩
  | cons d rest ih =>
      intro s t s' h hr
      simp only [dayLoop] at h ⊢
      cases h1 : processDate prices_df ltd c1 s d with
      | ok s1 =>
          rw [h1] at h
          obtain ⟨t1, ht1, hr1⟩ := processDate_exAnnual hM hD hP hA2 h1 hr
          rw [ht1]
          exact ih h hr1
      | error e => rw [h1] at h; cases h

theorem create_exAnnual {prices_df : PriceTable}
    {metadata : List (Contract × RawDate)} {c1 c2 : SpreadsConfig}
    (hM : c1.MAX_MONTHS_FORWARD = c2.MAX_MONTHS_FORWARD)
    (hD : c1.CALCULATE_DOLLAR_SPREADS = c2.CALCULATE_DOLLAR_SPREADS)
    (hP : c1.CALCULATE_PERCENT_SPREADS = c2.CALCULATE_PERCENT_SPREADS)
    (hA2 : c2.CALCULATE_ANNUAL_SPREADS = false) {o1 : EngineOut}
    (h : create_monthly_futures_data prices_df metadata c1 = .ok o1) :
    ∃ o2, create_monthly_futures_data prices_df metadata c2 = .ok o2 ∧
      o1.monthly_futures = o2.monthly_futures ∧
      o1.spreads_dollar = o2.spreads_dollar ∧
      o1.spreads_percent = o2.spreads_percent ∧
      o1.days_to_expiry_df = o2.days_to_expiry_df := by
  obtain ⟨sfin, hday, rfl⟩ := create_ok_elim h
  obtain ⟨t', ht', hr⟩ := dayLoop_exAnnual hM hD hP hA2 prices_df.index hday
    (⟨rfl, rfl, rfl, rfl, rfl⟩ : ExAnnual (initState prices_df.index) (initState prices_df.index))
  refine ⟨t'.toOut, ?_, hr.1, hr.2.1, hr.2.2.1, hr.2.2.2.1⟩
  simp only [create_monthly_futures_data]
  rw [ht']

theorem dollarUpd_exPct {c1 c2 : SpreadsConfig}
    (hD : c1.CALCULATE_DOLLAR_SPREADS = c2.CALCULATE_DOLLAR_SPREADS)
    (date : Int) (i : Nat) (v : ℚ) {s t : EngineState} (h : ExPct s t) :
    ExPct (dollarUpd c1 date i v s) (dollarUpd c2 date i v t) := by
  obtain ⟨h1, h2, h3, h4⟩ := h
  unfold dollarUpd
  rw [hD]
  by_cases hd : c2.CALCULATE_DOLLAR_SPREADS = true
  · rw [if_pos hd, if_pos hd]
    exact ⟨h1, by rw [h2], h3, h4⟩
  · rw [if_neg hd, if_neg hd]
    exact ⟨h1, h2, h3, h4⟩

theorem pctUpd_exPct (c1 c2 : SpreadsConfig) (date : Int) (i : Nat) (v : ℚ)
    {s t : EngineState} (h : ExPct s t) :
    ExPct (pctUpd c1 date i v s) (pctUpd c2 date i v t) := by
  obtain ⟨h1, h2, h3, h4⟩ := h
  unfold pctUpd
  by_cases hp1 : c1.CALCULATE_PERCENT_SPREADS = true
  · rw [if_pos hp1]
    by_cases hp2 : c2.CALCULATE_PERCENT_SPREADS = true
    · rw [if_pos hp2]; exact ⟨h1, h2, h3, h4⟩
    · rw [if_neg hp2]; exact ⟨h1, h2, h3, h4⟩
  · rw [if_neg hp1]
    by_cases hp2 : c2.CALCULATE_PERCENT_SPREADS = true
    · rw [if_pos hp2]; exact ⟨h1, h2, h3, h4⟩
    · rw [if_neg hp2]; exact ⟨h1, h2, h3, h4⟩

theorem spreadStep_exPct {prices_df : PriceTable} {date : Int}
    {dte : List (Contract × Int)} {c1 c2 : SpreadsConfig}
    {oc : List Contract} {p : ℚ} {m : Int}
    (hD : c1.CALCULATE_DOLLAR_SPREADS = c2.CALCULATE_DOLLAR_SPREADS)
    (hA1 : c1.CALCULATE_ANNUAL_SPREADS = false)
    (hA2 : c2.CALCULATE_ANNUAL_SPREADS = false)
    (i : Nat) {s t : EngineState} (h : ExPct s t) :
    ExceptRel ExPct (spreadStep prices_df date dte c1 oc p m i s)
      (spreadStep prices_df date dte c2 oc p m i t) := by
  have ha1 : ¬c1.CALCULATE_ANNUAL_SPREADS = true := by simp [hA1]
  have ha2 : ¬c2.CALCULATE_ANNUAL_SPREADS = true := by simp [hA2]
  simp only [spreadStep]
  by_cases hg : p ≠ 0 ∧ (lookupD dte (oc.getD i "")).getD 0 ≠ 0 ∧ m ≠ 0
  · rw [if_pos hg, if_pos hg, if_neg ha1, if_neg ha2]
    exact pctUpd_exPct c1 c2 date i _ (dollarUpd_exPct hD date i _ h)
  · rw [if_neg hg, if_neg hg]
    exact h

theorem spreadLoop_exPct {prices_df : PriceTable} {date : Int}
    {dte : List (Contract × Int)} {c1 c2 : SpreadsConfig}
    {oc : List Contract} {p : ℚ} {m : Int}
    (hD : c1.CALCULATE_DOLLAR_SPREADS = c2.CALCULATE_DOLLAR_SPREADS)
    (hA1 : c1.CALCULATE_ANNUAL_SPREADS = false)
    (hA2 : c2.CALCULATE_ANNUAL_SPREADS = false)
    (L : List Nat) :
    ∀ {s t : EngineState}, ExPct s t →
      ExceptRel ExPct (spreadLoop prices_df date dte c1 oc p m L s)
        (spreadLoop prices_df date dte c2 oc p m L t) := by
  induction L with
  | nil => intro s t h; exact h
  | cons i rest ih =>
      intro s t h
      have hstep := @spreadStep_exPct prices_df date dte c1 c2 oc p m hD hA1 hA2 i s t h
      simp only [spreadLoop]
      cases h1 : spreadStep prices_df date dte c1 oc p m i s with
      | ok s1 =>
          cases h2 : spreadStep prices_df date dte c2 oc p m i t with
          | ok t1 =>
              rw [h1, h2] at hstep
              exact ih hstep
          | error e =>
              rw [h1, h2] at hstep
              exact False.elim hstep
      | error e =>
          cases h2 : spreadStep prices_df date dte c2 oc p m i t with
          | ok t1 =>
              rw [h1, h2] at hstep
              exact False.elim hstep
          | error f =>
              rw [h1, h2] at hstep
              exact hstep

theorem processDate_exPct {prices_df : PriceTable}
    {ltd : List (Contract × Option Int)} {c1 c2 : SpreadsConfig}
    (hM : c1.MAX_MONTHS_FORWARD = c2.MAX_MONTHS_FORWARD)
    (hD : c1.CALCULATE_DOLLAR_SPREADS = c2.CALCULATE_DOLLAR_SPREADS)
    (hA1 : c1.CALCULATE_ANNUAL_SPREADS = false)
    (hA2 : c2.CALCULATE_ANNUAL_SPREADS = false)
    {s t : EngineState} (h : ExPct s t) (date : Int) :
    ExceptRel ExPct (processDate prices_df ltd c1 s date)
      (processDate prices_df ltd c2 t date) := by
  simp only [processDate]
  rw [hM]
  by_cases hv : (validContracts prices_df date).isEmpty = true
  · rw [if_pos hv, if_pos hv]
    exact h
  · rw [if_neg hv, if_neg hv]
    by_cases he : (eligibleContracts prices_df ltd date).isEmpty = true
    · rw [if_pos he, if_pos he]
      exact h
    · rw [if_neg he, if_neg he]
      have hlad := ladderLoop_exPct prices_df date
        (calculate_days_to_expiry date ltd)
        (((orderedContracts prices_df ltd date).take c2.MAX_MONTHS_FORWARD.toNat).enumFrom 1)
        s t h
      by_cases hl : 2 ≤ (orderedContracts prices_df ltd date).length
      · rw [if_pos hl, if_pos hl]
        exact spreadLoop_exPct hD hA1 hA2 _ hlad
      · rw [if_neg hl, if_neg hl]
        exact hlad

theorem dayLoop_exPct {prices_df : PriceTable}
    {ltd : List (Contract × Option Int)} {c1 c2 : SpreadsConfig}
    (hM : c1.MAX_MONTHS_FORWARD = c2.MAX_MONTHS_FORWARD)
    (hD : c1.CALCULATE_DOLLAR_SPREADS = c2.CALCULATE_DOLLAR_SPREADS)
    (hA1 : c1.CALCULATE_ANNUAL_SPREADS = false)
    (hA2 : c2.CALCULATE_ANNUAL_SPREADS = false)
    (days : List Int) :
    ∀ {s t : EngineState}, ExPct s t →
      ExceptRel ExPct (dayLoop prices_df ltd c1 days s)
        (dayLoop prices_df ltd c2 days t) := by
  induction days with
  | nil => intro s t h; exact h
  | cons d rest ih =>
      intro s t h
      have hstep := @processDate_exPct prices_df ltd c1 c2 hM hD hA1 hA2 s t h d
      simp only [dayLoop]
      cases h1 : processDate prices_df ltd c1 s d with
      | ok s1 =>
          cases h2 : processDate prices_df ltd c2 t d with
          | ok t1 =>
              rw [h1, h2] at hstep
              exact ih hstep
          | error e =>
              rw [h1, h2] at hstep
              exact False.elim hstep
      | error e =>
          cases h2 : processDate prices_df ltd c2 t d with
          | ok t1 =>
              rw [h1, h2] at hstep
              exact False.elim hstep
          | error f =>
              rw [h1, h2] at hstep
              exact hstep

theorem create_exPct {prices_df : PriceTable}
    {metadata : List (Contract × RawDate)} {c1 c2 : SpreadsConfig}
    (hM : c1.MAX_MONTHS_FORWARD = c2.MAX_MONTHS_FORWARD)
    (hD : c1.CALCULATE_DOLLAR_SPREADS = c2.CALCULATE_DOLLAR_SPREADS)
    (hA1 : c1.CALCULATE_ANNUAL_SPREADS = false)
    (hA2 : c2.CALCULATE_ANNUAL_SPREADS = false) :
    ∃ o1 o2, create_monthly_futures_data prices_df metadata c1 = .ok o1 ∧
      create_monthly_futures_data prices_df metadata c2 = .ok o2 ∧
      o1.monthly_futures = o2.monthly_futures ∧
      o1.spreads_dollar = o2.spreads_dollar ∧
      o1.spreads_percent_annual = o2.spreads_percent_annual ∧
      o1.days_to_expiry_df = o2.days_to_expiry_df := by
  obtain ⟨o1, h1⟩ := @create_ok_total prices_df metadata c1 (Or.inr hA1)
  obtain ⟨o2, h2⟩ := @create_ok_total prices_df metadata c2 (Or.inr hA2)
  have hrel := @dayLoop_exPct prices_df (get_last_trade_dates metadata)
    c1 c2 hM hD hA1 hA2 prices_df.index (initState prices_df.index)
    (initState prices_df.index) ⟨rfl, rfl, rfl, rfl⟩
  obtain ⟨s1, hs1, rfl⟩ := create_ok_elim h1
  obtain ⟨s2, hs2, rfl⟩ := create_ok_elim h2
  rw [hs1, hs2] at hrel
  exact ⟨s1.toOut, s2.toOut, h1, h2, hrel.1, hrel.2.1, hrel.2.2.1, hrel.2.2.2⟩

/-- Counterexample to C7 as stated.  The three flags are not independent:
toggling only `CALCULATE_PERCENT_SPREADS` off turns the successful scenario
run into a `NameError` abort — the annualized branch reads the local variable
`pct_spread` that only the percent branch assigns — so the run with the
percent flag off produces no tables at all instead of the same dollar and
annualized tables. -/
theorem C7_counterexample_percent_toggle_aborts :
    create_monthly_futures_data scenPT scenMeta scenConfig = .ok scenOut ∧
    noPctConfig = { scenConfig with CALCULATE_PERCENT_SPREADS := false } ∧
    create_monthly_futures_data scenPT scenMeta noPctConfig =
      .error "NameError: pct_spread referenced before assignment" :=
  ⟨scen_eval, rfl, scen_eval_nopct⟩

/-- C7 amended: flag independence holds only partially.  (1)-(3) A disabled
flag leaves its own table empty (index kept, no cells) in every successful
run.  (4) The dollar flag is fully independent: toggling it preserves the
outcome — the same error, or outputs equal on the other four tables.
(5) Disabling the annual flag turns any successful run into a successful run
with the other four tables unchanged.  (6) Toggling the percent flag is
guaranteed harmless only when the annual flag is off: then both runs succeed
and agree on the other four tables.  With the annual flag on, disabling the
percent flag can instead abort the whole run with a `NameError`, because the
annualized branch reads the local variable that only the percent branch
binds (see the counterexample). -/
theorem C7_flags_partially_independent {prices_df : PriceTable}
    {metadata : List (Contract × RawDate)} :
    (∀ (c : SpreadsConfig) (o : EngineOut), c.CALCULATE_DOLLAR_SPREADS = false →
      create_monthly_futures_data prices_df metadata c = .ok o →
      o.spreads_dollar = { index := prices_df.index, cells := [] }) ∧
    (∀ (c : SpreadsConfig) (o : EngineOut), c.CALCULATE_PERCENT_SPREADS = false →
      create_monthly_futures_data prices_df metadata c = .ok o →
      o.spreads_percent = { index := prices_df.index, cells := [] }) ∧
    (∀ (c : SpreadsConfig) (o : EngineOut), c.CALCULATE_ANNUAL_SPREADS = false →
      create_monthly_futures_data prices_df metadata c = .ok o →
      o.spreads_percent_annual = { index := prices_df.index, cells := [] }) ∧
    (∀ c1 c2 : SpreadsConfig,
      c1.TRADING_DAYS_PER_YEAR = c2.TRADING_DAYS_PER_YEAR →
      c1.MAX_MONTHS_FORWARD = c2.MAX_MONTHS_FORWARD →
      c1.CALCULATE_PERCENT_SPREADS = c2.CALCULATE_PERCENT_SPREADS →
      c1.CALCULATE_ANNUAL_SPREADS = c2.CALCULATE_ANNUAL_SPREADS →
      (∃ e, create_monthly_futures_data prices_df metadata c1 = .error e ∧
        create_monthly_futures_data prices_df metadata c2 = .error e) ∨
      (∃ o1 o2, create_monthly_futures_data prices_df metadata c1 = .ok o1 ∧
        create_monthly_futures_data prices_df metadata c2 = .ok o2 ∧
        o1.monthly_futures = o2.monthly_futures ∧
        o1.spreads_percent = o2.spreads_percent ∧
        o1.spreads_percent_annual = o2.spreads_percent_annual ∧
        o1.days_to_expiry_df = o2.days_to_expiry_df)) ∧
    (∀ (c1 c2 : SpreadsConfig) (o1 : EngineOut),
      c1.MAX_MONTHS_FORWARD = c2.MAX_MONTHS_FORWARD →
      c1.CALCULATE_DOLLAR_SPREADS = c2.CALCULATE_DOLLAR_SPREADS →
      c1.CALCULATE_PERCENT_SPREADS = c2.CALCULATE_PERCENT_SPREADS →
      c2.CALCULATE_ANNUAL_SPREADS = false →
      create_monthly_futures_data prices_df metadata c1 = .ok o1 →
      ∃ o2, create_monthly_futures_data prices_df metadata c2 = .ok o2 ∧
        o1.monthly_futures = o2.monthly_futures ∧
        o1.spreads_dollar = o2.spreads_dollar ∧
        o1.spreads_percent = o2.spreads_percent ∧
        o1.days_to_expiry_df = o2.days_to_expiry_df) ∧
    (∀ c1 c2 : SpreadsConfig,
      c1.MAX_MONTHS_FORWARD = c2.MAX_MONTHS_FORWARD →
      c1.CALCULATE_DOLLAR_SPREADS = c2.CALCULATE_DOLLAR_SPREADS →
      c1.CALCULATE_ANNUAL_SPREADS = false →
      c2.CALCULATE_ANNUAL_SPREADS = false →
      ∃ o1 o2, create_monthly_futures_data prices_df metadata c1 = .ok o1 ∧
        create_monthly_futures_data prices_df metadata c2 = .ok o2 ∧
        o1.monthly_futures = o2.monthly_futures ∧
        o1.spreads_dollar = o2.spreads_dollar ∧
        o1.spreads_percent_annual = o2.spreads_percent_annual ∧
        o1.days_to_expiry_df = o2.days_to_expiry_df) := by
  refine ⟨?_, ?_, ?_, ?_, ?_, ?_⟩
  · intro c o hD h
    exact create_dollar_off hD h
  · intro c o hP h
    exact create_pct_off hP h
  · intro c o hA h
    exact create_annual_off hA h
  · intro c1 c2 hT hM hP hA
    exact create_exDollar hT hM hP hA
  · intro c1 c2 o1 hM hD hP hA2 h
    exact create_exAnnual hM hD hP hA2 h
  · intro c1 c2 hM hD hA1 hA2
    exact create_exPct hM hD hA1 hA2

/-- The scenario configuration with only the dollar flag off. -/
def noDollarConfig : SpreadsConfig :=
  { TRADING_DAYS_PER_YEAR := 252, MAX_MONTHS_FORWARD := 2,
    CALCULATE_DOLLAR_SPREADS := false }

/-- The scenario configuration with only the annual flag off. -/
def noAnnualConfig : SpreadsConfig :=
  { TRADING_DAYS_PER_YEAR := 252, MAX_MONTHS_FORWARD := 2,
    CALCULATE_ANNUAL_SPREADS := false }

/-- Concrete instantiations of the C7 theorem: a run with the dollar flag
disabled has an empty dollar table, and disabling only the annual flag on
the scenario preserves the other four tables of the all-flags run. -/
theorem C7_flags_partially_independent_witness :
    (noDollarConfig.CALCULATE_DOLLAR_SPREADS = false ∧
      ((initState naPT.index).toOut).spreads_dollar =
        { index := naPT.index, cells := [] }) ∧
    (∃ o2, create_monthly_futures_data scenPT scenMeta noAnnualConfig = .ok o2 ∧
      scenOut.monthly_futures = o2.monthly_futures ∧
      scenOut.spreads_dollar = o2.spreads_dollar ∧
      scenOut.spreads_percent = o2.spreads_percent ∧
      scenOut.days_to_expiry_df = o2.days_to_expiry_df) :=
  ⟨⟨rfl, (@C7_flags_partially_independent naPT oneMeta).1 noDollarConfig
      ((initState naPT.index).toOut) rfl rfl⟩,
   (@C7_flags_partially_independent scenPT scenMeta).2.2.2.2.1 scenConfig
      noAnnualConfig scenOut rfl rfl rfl rfl scen_eval⟩
